import Mathlib

/-!
# Shared-memory provider progress engine (`prov/shm/src/smr_progress.c`)

A shallow embedding of the command and response progress loops of the shm
provider, and the properties checked against it.

Conventions of the embedding
* Pointers into provider-owned pools (`recv_fs`, `unexp_fs`, `pend_fs`, the
  inject pool) are handles: natural numbers indexing a backing store.
* The two circular queues of a region and the completion queues are FIFO lists
  with a read counter; `ofi_cirque_discard` drops the head and bumps the counter.
* Calls that leave the file (memory registration, cross-process copy, shared
  files, completion reporting faults, the datatype table) are fields of `smr_env`.
* `int` results are `Int`; `size_t` subtraction and pointer addition wrap at
  `2 ^ 64`; the `ssize_t` to `int` narrowing in `smr_progress_iov` wraps at `2 ^ 32`.
-/

/-! ## Constants -/

def FI_SUCCESS : Int := 0
def FI_EIO : Int := 5
def FI_EAGAIN : Int := 11
def FI_EBUSY : Int := 16
def FI_EINVAL : Int := 22
def FI_ENOSPC : Int := 28

def SMR_REMOTE_CQ_DATA : Nat := 1
def SMR_RMA_REQ : Nat := 2
def SMR_TX_COMPLETION : Nat := 4
def SMR_RX_COMPLETION : Nat := 8
def SMR_MULTI_RECV : Nat := 16

/-- Width of `size_t` and `uintptr_t`. -/
def SIZE_MOD : Nat := 2 ^ 64

/-- The operation kinds of `cmd->msg.hdr.op`; `ofi_op_other` stands for every
value the dispatch switch does not name (`ofi_op_read_rsp` included). -/
inductive ofi_op where
  | ofi_op_msg
  | ofi_op_tagged
  | ofi_op_read_req
  | ofi_op_write
  | ofi_op_write_async
  | ofi_op_atomic
  | ofi_op_atomic_fetch
  | ofi_op_atomic_compare
  | ofi_op_read_async
  | ofi_op_other (v : Nat)
deriving DecidableEq, Repr, Inhabited

/-- The transfer-method tags of `cmd->msg.hdr.op_src`; `smr_src_other` stands
for every value outside the enumeration. -/
inductive smr_src where
  | smr_src_inline
  | smr_src_inject
  | smr_src_iov
  | smr_src_mmap
  | smr_src_other (v : Nat)
deriving DecidableEq, Repr, Inhabited

open ofi_op smr_src

/-! ## Data model -/

structure iovec where
  iov_base : Nat
  iov_len : Nat
deriving DecidableEq, Repr, Inhabited

structure fi_ioc where
  addr : Nat
  count : Nat
deriving DecidableEq, Repr, Inhabited

structure fi_rma_iov where
  addr : Nat
  len : Nat
  key : Nat
deriving DecidableEq, Repr, Inhabited

structure fi_rma_ioc where
  addr : Nat
  count : Nat
  key : Nat
deriving DecidableEq, Repr, Inhabited

/-- One slot of the command queue. In C `struct smr_cmd` is a union of the
message view (`msg.hdr`, `msg.data`) and the RMA descriptor view (`rma`); the
record carries both views. `data_msg` is the byte array `msg.data.msg`
(`msg.data.buf` starts at the same byte), `data_iov` is `msg.data.iov` with
`msg.data.iov_count` entries. -/
structure smr_cmd where
  op : ofi_op
  op_src : smr_src
  op_flags : Nat
  size : Nat
  addr : Nat
  tag : Nat
  data : Nat
  src_data : Nat
  msg_id : Nat
  datatype : Nat
  atomic_op : Nat
  data_msg : List Nat
  data_iov : List iovec
  rma_count : Nat
  rma_iov : List fi_rma_iov
  rma_ioc : List fi_rma_ioc
deriving DecidableEq, Repr, Inhabited

structure smr_resp where
  msg_id : Nat
  status : Int
deriving DecidableEq, Repr, Inhabited

structure smr_match_attr where
  addr : Nat
  tag : Nat
  ignore : Nat
deriving DecidableEq, Repr, Inhabited

/-- A posted receive (`struct smr_rx_entry`): `iov` is the whole fixed array,
of which the first `iov_count` entries are in use. -/
structure smr_rx_entry where
  context : Nat
  iov : List iovec
  iov_count : Nat
  addr : Nat
  tag : Nat
  ignore : Nat
  err : Int
  flags : Nat
deriving DecidableEq, Repr, Inhabited

/-- A pending send (`struct smr_tx_entry`): `map_data` is the content behind
`map_ptr`, `map_name` identifies the shared file to unlink. -/
structure smr_tx_entry where
  cmd : smr_cmd
  addr : Nat
  context : Nat
  iov : List iovec
  iov_count : Nat
  map_data : List Nat
  map_name : Nat
deriving DecidableEq, Repr, Inhabited

/-- Arguments of one `smr_complete_rx` call. -/
structure smr_rx_comp where
  context : Nat
  op : ofi_op
  flags : Nat
  len : Nat
  buf : Nat
  addr : Nat
  tag : Nat
  data : Nat
  err : Int
deriving DecidableEq, Repr, Inhabited

/-- Arguments of one `smr_complete_tx` call. -/
structure smr_tx_comp where
  context : Nat
  op : ofi_op
  flags : Nat
  err : Int
deriving DecidableEq, Repr, Inhabited

/-- Arguments of one `smr_do_atomic` call: `src_inj` names the operand buffer
(`none`: the command's own `msg.data`, `some off`: the inject buffer at `off`),
`src_off` is the offset of `src` inside it, `has_cmp` tells whether a
comparand pointer (`&comp[src_off]`) was passed. -/
structure smr_atomic_call where
  src_inj : Option Nat
  src_off : Nat
  dst : Nat
  has_cmp : Bool
  datatype : Nat
  op : Nat
  cnt : Nat
  flags : Nat
deriving DecidableEq, Repr, Inhabited

/-- Modelled from the spec: the `ofi_cirque_*` macros are not part of this
file. A bounded FIFO: `items` are the entries between the read and the write
index (oldest first), `rcnt` counts the slots discarded so far, `size` is the
capacity and `stale` is what the slot at the read index holds when the queue
is empty. -/
structure ofi_cirque (α : Type) where
  size : Nat
  rcnt : Nat
  items : List α
  stale : α

def ofi_cirque_isempty {α : Type} (cq : ofi_cirque α) : Bool :=
  cq.items.isEmpty

def ofi_cirque_isfull {α : Type} (cq : ofi_cirque α) : Bool :=
  decide (cq.size ≤ cq.items.length)

def ofi_cirque_head {α : Type} (cq : ofi_cirque α) : α :=
  cq.items.headD cq.stale

def ofi_cirque_discard {α : Type} (cq : ofi_cirque α) : ofi_cirque α :=
  { cq with rcnt := cq.rcnt + 1, items := cq.items.tail }

def ofi_cirque_insert {α : Type} (cq : ofi_cirque α) (x : α) : ofi_cirque α :=
  { cq with items := cq.items ++ [x] }

/-- A match queue (`struct smr_queue`): the linked list, as handles in list
order, and the match function installed for it. -/
structure smr_queue (α : Type) where
  list : List Nat
  match_func : α → smr_match_attr → Bool

/-- The local region (`struct smr_region`) as far as the progress engine uses
it: the two queues, the credit counter, the free stack of inject buffers and
the `data` bytes of each inject buffer, keyed by offset. -/
structure smr_region where
  cmd_queue : ofi_cirque smr_cmd
  resp_queue : ofi_cirque smr_resp
  cmd_cnt : Nat
  inject_pool : List Nat
  inject_data : Nat → List Nat

/-- A peer's region as seen through `smr_peer_region`: `lock_held` tells
whether another process holds its lock, `resp_status` are the status words of
its response slots, keyed by offset. -/
structure smr_peer where
  lock_held : Bool
  pid : Nat
  cmd_cnt : Nat
  inject_pool : List Nat
  inject_data : Nat → List Nat
  resp_status : Nat → Int

/-- What the engine calls outside this file. -/
structure smr_env where
  /-- Result of `ofi_mr_verify(map, len, &addr, key, ofi_rx_mr_reg_flags(op, atomic_op))`
  on `len addr key op atomic_op`, and the address it leaves in `addr`. -/
  ofi_mr_verify : Nat → Nat → Nat → ofi_op → Nat → Int × Nat
  /-- Element size, `ofi_datatype_size`. -/
  ofi_datatype_size : Nat → Nat
  /-- Result of `ofi_process_vm_writev(pid, local, remote)`: the byte count or -1. -/
  ofi_process_vm_writev : Nat → List iovec → List iovec → Int
  /-- Result of `ofi_process_vm_readv(pid, local, remote)`: the byte count or -1,
  and the local memory it leaves. -/
  ofi_process_vm_readv : Nat → (Nat → Nat) → List iovec → List iovec → Int × (Nat → Nat)
  /-- Value of `errno` after a failed call. -/
  errno : Int
  /-- Result of `smr_mmap_name(name, peer, msg_id)`. -/
  smr_mmap_name : Nat → Nat → Int
  /-- Result of `shm_open` on the file of `(peer, msg_id)`: the descriptor or -1. -/
  shm_open : Nat → Nat → Int
  /-- Whether `mmap` of that file succeeds. -/
  mmap_ok : Nat → Nat → Bool
  /-- Content of that file. -/
  mmap_data : Nat → Nat → List Nat
  /-- Fault reported by the receive completion writer for an entry (0: none). -/
  rx_comp_fault : smr_rx_comp → Int
  /-- Fault reported by the transmit completion writer for an entry (0: none). -/
  tx_comp_fault : smr_tx_comp → Int

/-- The endpoint (`struct smr_ep`) with everything the progress engine
reaches through it. `rx_entries`, `unexp_entries` and `pend_entries` are the
backing stores of `recv_fs`, `unexp_fs` and `pend_fs`; `mem` is the byte
memory of this process that scatter/gather lists point into. `atomic_log`,
`unlinked` and `mmap_files` record, in call order, the `smr_do_atomic` calls,
the `shm_unlink` calls on pending sends and on received commands. -/
structure smr_ep where
  env : smr_env
  region : smr_region
  peers : Nat → smr_peer
  rx_cq : ofi_cirque smr_rx_comp
  tx_cq : ofi_cirque smr_tx_comp
  rx_cntr : Nat
  recv_queue : smr_queue smr_rx_entry
  trecv_queue : smr_queue smr_rx_entry
  unexp_msg_queue : smr_queue smr_cmd
  unexp_tagged_queue : smr_queue smr_cmd
  rx_entries : Nat → smr_rx_entry
  recv_fs : List Nat
  unexp_entries : Nat → smr_cmd
  unexp_fs : List Nat
  pend_entries : Nat → smr_tx_entry
  pend_fs : List Nat
  min_multi_recv_size : Nat
  mem : Nat → Nat
  atomic_log : List smr_atomic_call
  unlinked : List Nat
  mmap_files : List (Nat × Nat)

/-! ## Helpers outside the file -/

/-- Store `bytes` at address `base`. -/
def mem_write (mem : Nat → Nat) (base : Nat) (bytes : List Nat) : Nat → Nat :=
  fun a => if base ≤ a ∧ a < base + bytes.length then bytes.getD (a - base) 0 else mem a

/-- Load `len` bytes from address `base`. -/
def mem_read (mem : Nat → Nat) (base len : Nat) : List Nat :=
  (List.range len).map (fun i => mem (base + i))

/-- Read `len` bytes of a fixed byte array, from `off` on. -/
def buf_read (buf : List Nat) (off len : Nat) : List Nat :=
  (List.range len).map (fun i => buf.getD (off + i) 0)

/-- Modelled from the spec: `ofi_copy_to_iov(iov, iov_count, 0, buf, bufsize)` is
not part of this file. Scatter `buf` over the descriptors in order, each up to
its `iov_len`; the result is the memory and the number of bytes moved. -/
def ofi_copy_to_iov : List iovec → (Nat → Nat) → List Nat → (Nat → Nat) × Nat
  | [], mem, _ => (mem, 0)
  | v :: rest, mem, buf =>
    if buf.length = 0 then (mem, 0)
    else
      let len := min v.iov_len buf.length
      let r := ofi_copy_to_iov rest (mem_write mem v.iov_base (buf.take len)) (buf.drop len)
      (r.1, len + r.2)

/-- Modelled from the spec: `ofi_copy_from_iov(buf, bufsize, iov, iov_count, 0)` is
not part of this file. Gather up to `bufsize` bytes from the descriptors in
order; the result is the bytes gathered and their number. -/
def ofi_copy_from_iov (mem : Nat → Nat) : List iovec → Nat → List Nat × Nat
  | [], _ => ([], 0)
  | v :: rest, bufsize =>
    if bufsize = 0 then ([], 0)
    else
      let len := min v.iov_len bufsize
      let r := ofi_copy_from_iov mem rest (bufsize - len)
      (mem_read mem v.iov_base len ++ r.1, len + r.2)

/-- Modelled from the spec: `ofi_total_iov_len` is not part of this file. -/
def ofi_total_iov_len (iov : List iovec) : Nat :=
  (iov.map (fun v => v.iov_len)).sum

/-- Modelled from the spec: `dlist_find_first_match` is not part of this file.
The first handle, in list order, whose entry the match function accepts. -/
def dlist_find_first_match {α : Type} (q : smr_queue α) (store : Nat → α)
    (attr : smr_match_attr) : Option Nat :=
  q.list.find? (fun h => q.match_func (store h) attr)

/-- Modelled from the spec: `dlist_remove_first_match` is not part of this
file. Unlinks the first matching handle and returns it. -/
def dlist_remove_first_match {α : Type} (q : smr_queue α) (store : Nat → α)
    (attr : smr_match_attr) : Option Nat × smr_queue α :=
  match dlist_find_first_match q store attr with
  | none => (none, q)
  | some h => (some h, { q with list := q.list.erase h })

def dlist_insert_tail {α : Type} (h : Nat) (q : smr_queue α) : smr_queue α :=
  { q with list := q.list ++ [h] }

/-- The value an `int` takes when a wider signed value is stored in it. -/
def int_cast (x : Int) : Int :=
  (x + 2 ^ 31) % 2 ^ 32 - 2 ^ 31

/-- The value a `size_t` takes when an `int` is converted to it. -/
def size_cast (x : Int) : Nat :=
  (x % (2 ^ 64 : Int)).toNat

/-- Modelled from the spec: `smr_complete_rx` is not part of this file. It
posts one completion entry, or fails: with `-FI_ENOSPC` when the receive
completion queue is full, with the writer's fault otherwise. -/
def smr_complete_rx (ep : smr_ep) (c : smr_rx_comp) : smr_ep × Int :=
  if ofi_cirque_isfull ep.rx_cq then (ep, -FI_ENOSPC)
  else if ep.env.rx_comp_fault c ≠ 0 then (ep, ep.env.rx_comp_fault c)
  else ({ ep with rx_cq := ofi_cirque_insert ep.rx_cq c }, 0)

/-- Modelled from the spec: `smr_complete_tx` is not part of this file. It
posts one completion entry, or fails: with `-FI_ENOSPC` when the transmit
completion queue is full, with the writer's fault otherwise. -/
def smr_complete_tx (ep : smr_ep) (c : smr_tx_comp) : smr_ep × Int :=
  if ofi_cirque_isfull ep.tx_cq then (ep, -FI_ENOSPC)
  else if ep.env.tx_comp_fault c ≠ 0 then (ep, ep.env.tx_comp_fault c)
  else ({ ep with tx_cq := ofi_cirque_insert ep.tx_cq c }, 0)

/-- Replace the peer region `id`. -/
def set_peer (ep : smr_ep) (id : Nat) (p : smr_peer) : smr_ep :=
  { ep with peers := Function.update ep.peers id p }

/-- The update `ep->region->cmd_cnt++`. -/
def cmd_cnt_inc (ep : smr_ep) : smr_ep :=
  { ep with region := { ep.region with cmd_cnt := ep.region.cmd_cnt + 1 } }

/-- The update `ofi_cirque_discard(smr_cmd_queue(ep->region))`. -/
def cmd_queue_discard (ep : smr_ep) : smr_ep :=
  { ep with region := { ep.region with cmd_queue := ofi_cirque_discard ep.region.cmd_queue } }

/-- The update `smr_freestack_push(smr_inject_pool(ep->region), tx_buf)`. -/
def inject_push (ep : smr_ep) (inj_offset : Nat) : smr_ep :=
  { ep with region := { ep.region with inject_pool := inj_offset :: ep.region.inject_pool } }

/-! ## Response side -/

/-- Label `out:` of `smr_progress_resp_entry`: credit the peer, release its
lock, return 0. -/
def smr_progress_resp_entry_out (ep : smr_ep) (id : Nat) (ret : Int) : smr_ep × Int × Int :=
  let peer_smr := ep.peers id
  (set_peer ep id { peer_smr with cmd_cnt := peer_smr.cmd_cnt + 1 }, ret, 0)

/-- Label `push:` of `smr_progress_resp_entry`: return the inject buffer to the
peer's pool, then fall into `out:`. -/
def smr_progress_resp_entry_push (ep : smr_ep) (id : Nat) (inj_offset : Nat) (ret : Int) :
    smr_ep × Int × Int :=
  let peer_smr := ep.peers id
  smr_progress_resp_entry_out
    (set_peer ep id { peer_smr with inject_pool := inj_offset :: peer_smr.inject_pool }) id ret

/-- The function `smr_progress_resp_entry(ep, pending, &resp->status)`. The
result is the endpoint, the value left in `*ret` and the return value. -/
def smr_progress_resp_entry (ep : smr_ep) (pending : smr_tx_entry) (ret : Int) :
    smr_ep × Int × Int :=
  let peer_smr := ep.peers pending.addr
  if peer_smr.lock_held then (ep, ret, -FI_EAGAIN)
  else
    match pending.cmd.op_src with
    | smr_src_iov => smr_progress_resp_entry_out ep pending.addr ret
    | smr_src_mmap =>
      let r : smr_ep × Int :=
        if pending.cmd.op = ofi_op_read_req then
          if ret = 0 then
            let c := ofi_copy_to_iov (pending.iov.take pending.iov_count) ep.mem
              (buf_read pending.map_data 0 pending.cmd.size)
            if c.2 ≠ pending.cmd.size then ({ ep with mem := c.1 }, - FI_EIO)
            else ({ ep with mem := c.1 }, ret)
          else (ep, ret)
        else (ep, ret)
      smr_progress_resp_entry_out { r.1 with unlinked := r.1.unlinked ++ [pending.map_name] }
        pending.addr r.2
    | smr_src_inject =>
      let inj_offset := pending.cmd.src_data
      if ret ≠ 0 then smr_progress_resp_entry_push ep pending.addr inj_offset ret
      else
        let c := ofi_copy_to_iov (pending.iov.take pending.iov_count) ep.mem
          (buf_read (peer_smr.inject_data inj_offset) 0 pending.cmd.size)
        if c.2 ≠ pending.cmd.size then
          smr_progress_resp_entry_push { ep with mem := c.1 } pending.addr inj_offset FI_EIO
        else smr_progress_resp_entry_push { ep with mem := c.1 } pending.addr inj_offset ret
    | _ => smr_progress_resp_entry_out ep pending.addr ret

/-- Store `status` in the slot at the read index of the response queue. -/
def resp_head_set_status (ep : smr_ep) (status : Int) : smr_ep :=
  let q := ep.region.resp_queue
  let q1 : ofi_cirque smr_resp :=
    match q.items with
    | [] => { q with stale := { q.stale with status := status } }
    | r :: rest => { q with items := { r with status := status } :: rest }
  { ep with region := { ep.region with resp_queue := q1 } }

/-- One iteration of the loop of `smr_progress_resp`; the flag tells whether
the loop goes on (`false`: a `break` was taken). -/
def smr_progress_resp_body (ep : smr_ep) : smr_ep × Bool :=
  let resp := ofi_cirque_head ep.region.resp_queue
  if resp.status = FI_EBUSY then (ep, false)
  else
    let pending := ep.pend_entries resp.msg_id
    let r := smr_progress_resp_entry ep pending resp.status
    let ep1 := resp_head_set_status r.1 r.2.1
    if r.2.2 ≠ 0 then (ep1, false)
    else
      let c := smr_complete_tx ep1
        { context := pending.context, op := pending.cmd.op,
          flags := pending.cmd.op_flags, err := -r.2.1 }
      if c.2 ≠ 0 then (c.1, false)
      else
        ({ c.1 with
            pend_fs := resp.msg_id :: c.1.pend_fs,
            region := { c.1.region with
              resp_queue := ofi_cirque_discard c.1.region.resp_queue } }, true)

/-- The loop of `smr_progress_resp`, with a bound on the number of iterations;
`none` when the bound is reached. -/
def smr_progress_resp_loop : Nat → smr_ep → Option smr_ep
  | 0, _ => none
  | fuel + 1, ep =>
    if !ofi_cirque_isempty ep.region.resp_queue && !ofi_cirque_isfull ep.tx_cq then
      let r := smr_progress_resp_body ep
      if r.2 then smr_progress_resp_loop fuel r.1 else some r.1
    else some ep

/-- The function `smr_progress_resp`: the loop, bounded by the queue length. -/
def smr_progress_resp (ep : smr_ep) : Option smr_ep :=
  smr_progress_resp_loop (ep.region.resp_queue.items.length + 1) ep

/-! ## Transfer-method handlers -/

/-- The function `smr_progress_inline`: the endpoint, `*total_len` and the
return value. -/
def smr_progress_inline (ep : smr_ep) (cmd : smr_cmd) (iov : List iovec) (iov_count : Nat) :
    smr_ep × Nat × Int :=
  let c := ofi_copy_to_iov (iov.take iov_count) ep.mem (buf_read cmd.data_msg 0 cmd.size)
  if c.2 ≠ cmd.size then ({ ep with mem := c.1 }, c.2, - FI_EIO)
  else ({ ep with mem := c.1 }, c.2, 0)

/-- The function `smr_progress_inject`: the endpoint, `*total_len` and the
return value. -/
def smr_progress_inject (ep : smr_ep) (cmd : smr_cmd) (iov : List iovec) (iov_count : Nat)
    (total_len : Nat) (err : Int) : smr_ep × Nat × Int :=
  let inj_offset := cmd.src_data
  if err ≠ 0 then (inject_push ep inj_offset, total_len, err)
  else
    let r : smr_ep × Nat :=
      if cmd.op = ofi_op_read_req then
        let c := ofi_copy_from_iov ep.mem (iov.take iov_count) cmd.size
        ({ ep with region := { ep.region with
            inject_data := Function.update ep.region.inject_data inj_offset
              (c.1 ++ (ep.region.inject_data inj_offset).drop c.2) } }, c.2)
      else
        let c := ofi_copy_to_iov (iov.take iov_count) ep.mem
          (buf_read (ep.region.inject_data inj_offset) 0 cmd.size)
        (inject_push { ep with mem := c.1 } inj_offset, c.2)
    if r.2 ≠ cmd.size then (r.1, r.2, - FI_EIO)
    else (r.1, r.2, FI_SUCCESS)

/-- Store `status` in the response slot at `off` of peer `id`. -/
def set_resp_status (ep : smr_ep) (id off : Nat) (status : Int) : smr_ep :=
  let peer_smr := ep.peers id
  set_peer ep id { peer_smr with resp_status := Function.update peer_smr.resp_status off status }

/-- The function `smr_progress_iov`: the endpoint, `*total_len` and the return
value. The write of `resp->status` is the last update. -/
def smr_progress_iov (ep : smr_ep) (cmd : smr_cmd) (iov : List iovec) (iov_count : Nat)
    (total_len : Nat) (err : Int) : smr_ep × Nat × Int :=
  let peer_id := cmd.addr
  let peer_smr := ep.peers peer_id
  if err ≠ 0 then
    let ret := -err
    (set_resp_status ep peer_id cmd.src_data ret, total_len, -ret)
  else
    let r : smr_ep × Int :=
      if cmd.op = ofi_op_read_req then
        (ep, int_cast (ep.env.ofi_process_vm_writev peer_smr.pid (iov.take iov_count) cmd.data_iov))
      else
        let c := ep.env.ofi_process_vm_readv peer_smr.pid ep.mem (iov.take iov_count) cmd.data_iov
        ({ ep with mem := c.2 }, int_cast c.1)
    let x : Nat × Int :=
      if size_cast r.2 ≠ cmd.size then
        if r.2 < 0 then (total_len, ep.env.errno) else (total_len, FI_EIO)
      else (size_cast r.2, 0)
    (set_resp_status r.1 peer_id cmd.src_data x.2, x.1, -x.2)

/-- The function `smr_mmap_peer_copy`: the endpoint, `*total_len` and the
return value. -/
def smr_mmap_peer_copy (ep : smr_ep) (cmd : smr_cmd) (iov : List iovec) (iov_count : Nat)
    (total_len : Nat) : smr_ep × Nat × Int :=
  let peer_id := cmd.addr
  if ep.env.smr_mmap_name peer_id cmd.msg_id < 0 then (ep, total_len, -ep.env.errno)
  else if ep.env.shm_open peer_id cmd.msg_id < 0 then (ep, total_len, -ep.env.errno)
  else
    let r : smr_ep × Nat × Int :=
      if !ep.env.mmap_ok peer_id cmd.msg_id then (ep, total_len, -ep.env.errno)
      else if cmd.op = ofi_op_read_req then
        let t := ofi_total_iov_len (iov.take iov_count)
        if (ofi_copy_from_iov ep.mem (iov.take iov_count) t).2 ≠ t then (ep, t, - FI_EIO)
        else (ep, t, 0)
      else
        let c := ofi_copy_to_iov (iov.take iov_count) ep.mem
          (buf_read (ep.env.mmap_data peer_id cmd.msg_id) 0 cmd.size)
        if c.2 ≠ cmd.size then ({ ep with mem := c.1 }, c.2, - FI_EIO)
        else ({ ep with mem := c.1 }, c.2, 0)
    ({ r.1 with mmap_files := r.1.mmap_files ++ [(peer_id, cmd.msg_id)] }, r.2.1, r.2.2)

/-- The function `smr_progress_mmap`: the endpoint, `*total_len` and the
return value. The write of `resp->status` is the last update. -/
def smr_progress_mmap (ep : smr_ep) (cmd : smr_cmd) (iov : List iovec) (iov_count : Nat)
    (total_len : Nat) : smr_ep × Nat × Int :=
  let r := smr_mmap_peer_copy ep cmd iov iov_count total_len
  (set_resp_status r.1 cmd.addr cmd.src_data r.2.2, r.2.1, r.2.2)

/-! ## Receive matching -/

/-- Replace the receive entry behind handle `h`. -/
def set_rx_entry (ep : smr_ep) (h : Nat) (e : smr_rx_entry) : smr_ep :=
  { ep with rx_entries := Function.update ep.rx_entries h e }

/-- The function `smr_progress_multi_recv`: `true` when the entry is to be
retired; otherwise the first descriptor of the entry is advanced by `len`. -/
def smr_progress_multi_recv (ep : smr_ep) (h : Nat) (len : Nat) : smr_ep × Bool :=
  let entry := ep.rx_entries h
  let iov0 := entry.iov.getD 0 default
  let left := (iov0.iov_len + SIZE_MOD - len) % SIZE_MOD
  if left < ep.min_multi_recv_size then (ep, true)
  else
    let new_base := (iov0.iov_base + len) % SIZE_MOD
    (set_rx_entry ep h { entry with iov := entry.iov.set 0 { iov_base := new_base, iov_len := left } },
      false)

/-- The calls `dlist_remove(&entry->entry); freestack_push(ep->recv_fs, entry)`. -/
def rx_entry_retire (ep : smr_ep) (h : Nat) : smr_ep :=
  { ep with
    recv_queue := { ep.recv_queue with list := ep.recv_queue.list.erase h },
    trecv_queue := { ep.trecv_queue with list := ep.trecv_queue.list.erase h },
    recv_fs := h :: ep.recv_fs }

/-- The `switch (cmd->msg.hdr.op_src)` of `smr_progress_msg_common`: the
endpoint, `total_len` and the value stored in `entry->err`. -/
def smr_progress_msg_common_switch (ep : smr_ep) (cmd : smr_cmd) (entry : smr_rx_entry) :
    smr_ep × Nat × Int :=
  match cmd.op_src with
  | smr_src_inline =>
    let x := smr_progress_inline ep cmd entry.iov entry.iov_count
    (cmd_cnt_inc x.1, x.2.1, x.2.2)
  | smr_src_inject =>
    let x := smr_progress_inject ep cmd entry.iov entry.iov_count 0 0
    (cmd_cnt_inc x.1, x.2.1, x.2.2)
  | smr_src_iov => smr_progress_iov ep cmd entry.iov entry.iov_count 0 0
  | smr_src_mmap => smr_progress_mmap ep cmd entry.iov entry.iov_count 0
  | smr_src_other _ => (ep, 0, -FI_EINVAL)

/-- The function `smr_progress_msg_common(ep, cmd, entry)`, `entry` being the
receive entry behind handle `h`. -/
def smr_progress_msg_common (ep : smr_ep) (cmd : smr_cmd) (h : Nat) : smr_ep × Int :=
  let entry := ep.rx_entries h
  let r := smr_progress_msg_common_switch ep cmd entry
  let total_len := r.2.1
  let entry1 : smr_rx_entry := { entry with err := r.2.2 }
  let ep1 := set_rx_entry r.1 h entry1
  let comp_buf := (entry1.iov.getD 0 default).iov_base
  let comp_flags := (cmd.op_flags ||| entry1.flags) &&& (0xFFFF ^^^ SMR_MULTI_RECV)
  let m : smr_ep × Bool × Nat :=
    if entry1.flags &&& SMR_MULTI_RECV ≠ 0 then
      let f := smr_progress_multi_recv ep1 h total_len
      if f.2 then (f.1, true, comp_flags ||| SMR_MULTI_RECV) else (f.1, false, comp_flags)
    else (ep1, true, comp_flags)
  let c := smr_complete_rx m.1
    { context := entry1.context, op := cmd.op, flags := m.2.2, len := total_len,
      buf := comp_buf, addr := cmd.addr, tag := cmd.tag, data := cmd.data, err := entry1.err }
  if m.2.1 then (rx_entry_retire c.1 h, 1)
  else (c.1, 0)

/-- The function `smr_progress_cmd_msg`. `match_attr.ignore` is not set by the
code; the receive match functions take the mask from the entry. -/
def smr_progress_cmd_msg (ep : smr_ep) (cmd : smr_cmd) : smr_ep × Int :=
  if ofi_cirque_isfull ep.rx_cq then (ep, -FI_ENOSPC)
  else
    let recv_queue := if cmd.op = ofi_op_tagged then ep.trecv_queue else ep.recv_queue
    let match_attr : smr_match_attr := { addr := cmd.addr, tag := cmd.tag, ignore := 0 }
    match dlist_find_first_match recv_queue ep.rx_entries match_attr with
    | none =>
      match ep.unexp_fs with
      | [] => (ep, -FI_EAGAIN)
      | unexp :: fs =>
        let ep1 := cmd_queue_discard
          { ep with unexp_fs := fs, unexp_entries := Function.update ep.unexp_entries unexp cmd }
        if cmd.op = ofi_op_msg then
          ({ ep1 with unexp_msg_queue := dlist_insert_tail unexp ep1.unexp_msg_queue }, 0)
        else
          ({ ep1 with unexp_tagged_queue := dlist_insert_tail unexp ep1.unexp_tagged_queue }, 0)
    | some h =>
      let r := smr_progress_msg_common ep cmd h
      (cmd_queue_discard r.1, if r.2 < 0 then r.2 else 0)

/-! ## RMA and atomic commands -/

/-- The target-validation loop of `smr_progress_cmd_rma`, `n` descriptors still
to check: the last `ret` and the `iov` array filled so far (`iov_count` is its
length). -/
def smr_rma_verify_loop (env : smr_env) (op : ofi_op) (rma_cmd : smr_cmd) :
    Nat → List iovec → Int × List iovec
  | 0, iov => (0, iov)
  | n + 1, iov =>
    let d := rma_cmd.rma_iov.getD iov.length default
    let v := env.ofi_mr_verify d.len d.addr d.key op 0
    if v.1 ≠ 0 then (v.1, iov)
    else smr_rma_verify_loop env op rma_cmd n (iov ++ [{ iov_base := v.2, iov_len := d.len }])

/-- The `switch (cmd->msg.hdr.op_src)` of `smr_progress_cmd_rma`: the endpoint,
`total_len` and `err`. -/
def smr_progress_cmd_rma_switch (ep : smr_ep) (cmd : smr_cmd) (iov : List iovec)
    (iov_count : Nat) (ret : Int) : smr_ep × Nat × Int :=
  match cmd.op_src with
  | smr_src_inline => smr_progress_inline ep cmd iov iov_count
  | smr_src_inject => smr_progress_inject ep cmd iov iov_count 0 ret
  | smr_src_iov => smr_progress_iov ep cmd iov iov_count 0 ret
  | smr_src_mmap => smr_progress_mmap ep cmd iov iov_count 0
  | smr_src_other _ => (ep, 0, -FI_EINVAL)

/-- The function `smr_progress_cmd_rma`. -/
def smr_progress_cmd_rma (ep : smr_ep) (cmd : smr_cmd) : smr_ep × Int :=
  if cmd.op_flags &&& SMR_REMOTE_CQ_DATA ≠ 0 ∧ ofi_cirque_isfull ep.rx_cq = true then
    (ep, -FI_ENOSPC)
  else
    let ep1 := cmd_cnt_inc (cmd_queue_discard ep)
    let rma_cmd := ofi_cirque_head ep1.region.cmd_queue
    let v := smr_rma_verify_loop ep1.env cmd.op rma_cmd rma_cmd.rma_count []
    let ep2 := cmd_queue_discard ep1
    if v.1 ≠ 0 then (cmd_cnt_inc ep2, v.1)
    else
      let iov := v.2
      let iov_count := iov.length
      let r := smr_progress_cmd_rma_switch ep2 cmd iov iov_count v.1
      let err := r.2.2
      let ep3 :=
        if cmd.op = ofi_op_read_req ∧ cmd.data ≠ 0 then set_resp_status r.1 cmd.addr cmd.data (-err)
        else cmd_cnt_inc r.1
      smr_complete_rx ep3
        { context := cmd.msg_id, op := cmd.op, flags := cmd.op_flags, len := r.2.1,
          buf := if iov_count ≠ 0 then (iov.getD 0 default).iov_base else 0,
          addr := cmd.addr, tag := 0, data := cmd.data, err := err }

/-- The loop shared by `smr_progress_inline_atomic` and
`smr_progress_inject_atomic`: one `smr_do_atomic` call per descriptor while
`*len < cmd->msg.hdr.size`; the result is the call log and `*len`. -/
def smr_atomic_loop (env : smr_env) (cmd : smr_cmd) (src_inj : Option Nat) :
    List fi_ioc → Nat → List smr_atomic_call → List smr_atomic_call × Nat
  | [], len, log => (log, len)
  | c :: rest, len, log =>
    if len < cmd.size then
      smr_atomic_loop env cmd src_inj rest (len + c.count * env.ofi_datatype_size cmd.datatype)
        (log ++ [{ src_inj := src_inj, src_off := len, dst := c.addr,
                   has_cmp := decide (cmd.op = ofi_op_atomic_compare),
                   datatype := cmd.datatype, op := cmd.atomic_op, cnt := c.count,
                   flags := cmd.op_flags }])
    else (log, len)

/-- The function `smr_progress_inline_atomic`: the endpoint, `*len` and the
return value. -/
def smr_progress_inline_atomic (ep : smr_ep) (cmd : smr_cmd) (ioc : List fi_ioc)
    (ioc_count : Nat) : smr_ep × Nat × Int :=
  let r := smr_atomic_loop ep.env cmd none (ioc.take ioc_count) 0 ep.atomic_log
  if r.2 ≠ cmd.size then ({ ep with atomic_log := r.1 }, r.2, - FI_EIO)
  else ({ ep with atomic_log := r.1 }, r.2, 0)

/-- The function `smr_progress_inject_atomic`: the endpoint, `*len` and the
return value. -/
def smr_progress_inject_atomic (ep : smr_ep) (cmd : smr_cmd) (ioc : List fi_ioc)
    (ioc_count : Nat) (len : Nat) (err : Int) : smr_ep × Nat × Int :=
  let inj_offset := cmd.src_data
  let r : smr_ep × Nat × Int :=
    if err ≠ 0 then (ep, len, err)
    else
      let l := smr_atomic_loop ep.env cmd (some inj_offset) (ioc.take ioc_count) 0 ep.atomic_log
      if l.2 ≠ cmd.size then ({ ep with atomic_log := l.1 }, l.2, - FI_EIO)
      else ({ ep with atomic_log := l.1 }, l.2, err)
  if cmd.op_flags &&& SMR_RMA_REQ = 0 then (inject_push r.1 inj_offset, r.2.1, r.2.2)
  else r

/-- The target-validation loop of `smr_progress_cmd_atomic`. -/
def smr_atomic_verify_loop (env : smr_env) (cmd rma_cmd : smr_cmd) :
    Nat → List fi_ioc → Int × List fi_ioc
  | 0, ioc => (0, ioc)
  | n + 1, ioc =>
    let d := rma_cmd.rma_ioc.getD ioc.length default
    let v := env.ofi_mr_verify (d.count * env.ofi_datatype_size cmd.datatype) d.addr d.key
      cmd.op cmd.atomic_op
    if v.1 ≠ 0 then (v.1, ioc)
    else smr_atomic_verify_loop env cmd rma_cmd n (ioc ++ [{ addr := v.2, count := d.count }])

/-- The `switch (cmd->msg.hdr.op_src)` of `smr_progress_cmd_atomic`: the
endpoint, `total_len` and `err`. -/
def smr_progress_cmd_atomic_switch (ep : smr_ep) (cmd : smr_cmd) (ioc : List fi_ioc)
    (ioc_count : Nat) (ret : Int) : smr_ep × Nat × Int :=
  match cmd.op_src with
  | smr_src_inline => smr_progress_inline_atomic ep cmd ioc ioc_count
  | smr_src_inject => smr_progress_inject_atomic ep cmd ioc ioc_count 0 ret
  | _ => (ep, 0, -FI_EINVAL)

/-- The function `smr_progress_cmd_atomic`. -/
def smr_progress_cmd_atomic (ep : smr_ep) (cmd : smr_cmd) : smr_ep × Int :=
  let ep1 := cmd_cnt_inc (cmd_queue_discard ep)
  let rma_cmd := ofi_cirque_head ep1.region.cmd_queue
  let v := smr_atomic_verify_loop ep1.env cmd rma_cmd rma_cmd.rma_count []
  let ep2 := cmd_queue_discard ep1
  if v.1 ≠ 0 then (cmd_cnt_inc ep2, v.1)
  else
    let ioc := v.2
    let ioc_count := ioc.length
    let r := smr_progress_cmd_atomic_switch ep2 cmd ioc ioc_count v.1
    let err := r.2.2
    let ep3 :=
      if cmd.data ≠ 0 then set_resp_status r.1 cmd.addr cmd.data (-err)
      else cmd_cnt_inc r.1
    let c := smr_complete_rx ep3
      { context := 0, op := cmd.op, flags := cmd.op_flags, len := r.2.1,
        buf := if ioc_count ≠ 0 then (ioc.getD 0 default).addr else 0,
        addr := cmd.addr, tag := 0, data := cmd.data, err := err }
    if c.2 ≠ 0 then c else (c.1, err)

/-! ## Command loop -/

/-- One iteration of the loop of `smr_progress_cmd`: the dispatch on the head
command and the value of `ret` after it. -/
def smr_progress_cmd_body (ep : smr_ep) : smr_ep × Int :=
  let cmd := ofi_cirque_head ep.region.cmd_queue
  match cmd.op with
  | ofi_op_msg => smr_progress_cmd_msg ep cmd
  | ofi_op_tagged => smr_progress_cmd_msg ep cmd
  | ofi_op_write => smr_progress_cmd_rma ep cmd
  | ofi_op_read_req => smr_progress_cmd_rma ep cmd
  | ofi_op_write_async =>
    (cmd_cnt_inc (cmd_queue_discard { ep with rx_cntr := ep.rx_cntr + 1 }), 0)
  | ofi_op_read_async =>
    (cmd_cnt_inc (cmd_queue_discard { ep with rx_cntr := ep.rx_cntr + 1 }), 0)
  | ofi_op_atomic => smr_progress_cmd_atomic ep cmd
  | ofi_op_atomic_fetch => smr_progress_cmd_atomic ep cmd
  | ofi_op_atomic_compare => smr_progress_cmd_atomic ep cmd
  | ofi_op_other _ => (ep, -FI_EINVAL)

/-- The loop of `smr_progress_cmd`, with a bound on the number of iterations;
`none` when the bound is reached. The result carries the last value of `ret`. -/
def smr_progress_cmd_loop : Nat → smr_ep → Option (smr_ep × Int)
  | 0, _ => none
  | fuel + 1, ep =>
    if !ofi_cirque_isempty ep.region.cmd_queue then
      let r := smr_progress_cmd_body ep
      if r.2 ≠ 0 then some r else smr_progress_cmd_loop fuel r.1
    else some (ep, 0)

/-- The function `smr_progress_cmd`: the loop, bounded by the queue length. -/
def smr_progress_cmd (ep : smr_ep) : Option (smr_ep × Int) :=
  smr_progress_cmd_loop (ep.region.cmd_queue.items.length + 1) ep

/-- The function `smr_ep_progress`. -/
def smr_ep_progress (ep : smr_ep) : Option smr_ep :=
  match smr_progress_resp ep with
  | none => none
  | some ep1 => (smr_progress_cmd ep1).map (fun r => r.1)

/-! ## Draining the unexpected queue -/

/-- The unexpected queue selected by the `unexp_queue` argument. -/
def unexp_queue_get (ep : smr_ep) (tagged : Bool) : smr_queue smr_cmd :=
  if tagged then ep.unexp_tagged_queue else ep.unexp_msg_queue

def unexp_queue_set (ep : smr_ep) (tagged : Bool) (q : smr_queue smr_cmd) : smr_ep :=
  if tagged then { ep with unexp_tagged_queue := q } else { ep with unexp_msg_queue := q }

/-- The update `freestack_push(ep->unexp_fs, unexp_msg)`. -/
def unexp_fs_push (ep : smr_ep) (u : Nat) : smr_ep :=
  { ep with unexp_fs := u :: ep.unexp_fs }

/-- The `while (dlist_entry)` loop of `smr_progress_unexp_queue`, entered with
the unexpected entry `u` already unlinked; the result carries `ret`. -/
def smr_progress_unexp_loop (tagged : Bool) (h : Nat) (match_attr : smr_match_attr)
    (multi_recv : Nat) : Nat → smr_ep → Nat → Option (smr_ep × Int)
  | 0, _, _ => none
  | fuel + 1, ep, u =>
    let r := smr_progress_msg_common ep (ep.unexp_entries u) h
    let ep1 := unexp_fs_push r.1 u
    if multi_recv = 0 ∨ r.2 ≠ 0 then some (ep1, r.2)
    else
      let d := dlist_remove_first_match (unexp_queue_get ep1 tagged) ep1.unexp_entries match_attr
      match d.1 with
      | none => some (unexp_queue_set ep1 tagged d.2, r.2)
      | some u1 => smr_progress_unexp_loop tagged h match_attr multi_recv fuel
          (unexp_queue_set ep1 tagged d.2) u1

/-- The function `smr_progress_unexp_queue(ep, entry, unexp_queue)`: `entry` is
the receive entry behind handle `h`, `tagged` selects the unexpected queue. -/
def smr_progress_unexp_queue (ep : smr_ep) (h : Nat) (tagged : Bool) :
    Option (smr_ep × Int) :=
  let entry := ep.rx_entries h
  let match_attr : smr_match_attr := { addr := entry.addr, tag := entry.tag, ignore := entry.ignore }
  let d := dlist_remove_first_match (unexp_queue_get ep tagged) ep.unexp_entries match_attr
  match d.1 with
  | none => some (ep, 0)
  | some u =>
    let multi_recv := entry.flags &&& SMR_MULTI_RECV
    (smr_progress_unexp_loop tagged h match_attr multi_recv
      ((unexp_queue_get ep tagged).list.length + 1) (unexp_queue_set ep tagged d.2) u).map
      (fun r => (r.1, if r.2 < 0 then r.2 else 0))

/-! ## Match functions and example endpoints -/

def FI_ADDR_UNSPEC : Nat := 2 ^ 64 - 1

/-- Modelled from the spec: the match functions installed on the queues are
not part of this file. An address accepts `match_addr` when it is the wildcard
or equal to it. -/
def smr_match_addr (addr match_addr : Nat) : Bool :=
  decide (addr = FI_ADDR_UNSPEC) || decide (match_addr = addr)

/-- Modelled from the spec: tags are compared under the ignore mask. -/
def smr_match_tag (tag ignore match_tag : Nat) : Bool :=
  decide ((tag ||| ignore) = (match_tag ||| ignore))

/-- Modelled from the spec: match function of the untagged receive queue. -/
def smr_match_msg (e : smr_rx_entry) (attr : smr_match_attr) : Bool :=
  smr_match_addr e.addr attr.addr

/-- Modelled from the spec: match function of the tagged receive queue. -/
def smr_match_tagged (e : smr_rx_entry) (attr : smr_match_attr) : Bool :=
  smr_match_addr e.addr attr.addr && smr_match_tag e.tag e.ignore attr.tag

/-- Modelled from the spec: match function of the untagged unexpected queue. -/
def smr_match_unexp_msg (cmd : smr_cmd) (attr : smr_match_attr) : Bool :=
  smr_match_addr attr.addr cmd.addr

/-- Modelled from the spec: match function of the tagged unexpected queue. -/
def smr_match_unexp_tagged (cmd : smr_cmd) (attr : smr_match_attr) : Bool :=
  smr_match_addr attr.addr cmd.addr && smr_match_tag cmd.tag attr.ignore attr.tag

/-- An environment in which registration accepts every range, copies move
every byte asked for and no completion writer faults. -/
def env_ok : smr_env :=
  { ofi_mr_verify := fun _ addr _ _ _ => (0, addr)
    ofi_datatype_size := fun _ => 4
    ofi_process_vm_writev := fun _ loc _ => (ofi_total_iov_len loc : Int)
    ofi_process_vm_readv := fun _ mem loc _ => ((ofi_total_iov_len loc : Int), mem)
    errno := 14
    smr_mmap_name := fun _ _ => 1
    shm_open := fun _ _ => 3
    mmap_ok := fun _ _ => true
    mmap_data := fun _ _ => []
    rx_comp_fault := fun _ => 0
    tx_comp_fault := fun _ => 0 }

/-- A peer region nobody holds the lock of. -/
def peer_idle : smr_peer :=
  { lock_held := false, pid := 0, cmd_cnt := 0, inject_pool := [],
    inject_data := fun _ => [], resp_status := fun _ => 0 }

/-- An endpoint with empty queues, completion queues of eight entries, two
free unexpected-message entries and all memory zero. -/
def ep_idle : smr_ep :=
  { env := env_ok
    region :=
      { cmd_queue := { size := 8, rcnt := 0, items := [], stale := default }
        resp_queue := { size := 8, rcnt := 0, items := [], stale := default }
        cmd_cnt := 0
        inject_pool := []
        inject_data := fun _ => [] }
    peers := fun _ => peer_idle
    rx_cq := { size := 8, rcnt := 0, items := [], stale := default }
    tx_cq := { size := 8, rcnt := 0, items := [], stale := default }
    rx_cntr := 0
    recv_queue := { list := [], match_func := smr_match_msg }
    trecv_queue := { list := [], match_func := smr_match_tagged }
    unexp_msg_queue := { list := [], match_func := smr_match_unexp_msg }
    unexp_tagged_queue := { list := [], match_func := smr_match_unexp_tagged }
    rx_entries := fun _ => default
    recv_fs := []
    unexp_entries := fun _ => default
    unexp_fs := [0, 1]
    pend_entries := fun _ => default
    pend_fs := []
    min_multi_recv_size := 64
    mem := fun _ => 0
    atomic_log := []
    unlinked := []
    mmap_files := [] }

/-- The endpoint `ep` with `cmds` queued for it. -/
def with_cmds (ep : smr_ep) (cmds : List smr_cmd) : smr_ep :=
  { ep with region := { ep.region with cmd_queue := { ep.region.cmd_queue with items := cmds } } }

/-- A command with every field zero except the ones given. -/
def mk_cmd (op : ofi_op) (op_src : smr_src) (size tag : Nat) (data_msg : List Nat) : smr_cmd :=
  { op := op, op_src := op_src, op_flags := 0, size := size, addr := 0, tag := tag, data := 0,
    src_data := 0, msg_id := 0, datatype := 0, atomic_op := 0, data_msg := data_msg,
    data_iov := [], rma_count := 0, rma_iov := [], rma_ioc := [] }

/-! ## Frames -/

/-- What a transfer-method handler leaves alone: everything but the byte
memory, the inject pool and buffers, the peer regions, the record of unlinked
command files and the atomic call log. -/
structure xfer_frame (ep ep1 : smr_ep) : Prop where
  env : ep1.env = ep.env
  cmd_queue : ep1.region.cmd_queue = ep.region.cmd_queue
  resp_queue : ep1.region.resp_queue = ep.region.resp_queue
  cmd_cnt : ep1.region.cmd_cnt = ep.region.cmd_cnt
  rx_cq : ep1.rx_cq = ep.rx_cq
  tx_cq : ep1.tx_cq = ep.tx_cq
  rx_cntr : ep1.rx_cntr = ep.rx_cntr
  recv_queue : ep1.recv_queue = ep.recv_queue
  trecv_queue : ep1.trecv_queue = ep.trecv_queue
  unexp_msg_queue : ep1.unexp_msg_queue = ep.unexp_msg_queue
  unexp_tagged_queue : ep1.unexp_tagged_queue = ep.unexp_tagged_queue
  rx_entries : ep1.rx_entries = ep.rx_entries
  recv_fs : ep1.recv_fs = ep.recv_fs
  unexp_entries : ep1.unexp_entries = ep.unexp_entries
  unexp_fs : ep1.unexp_fs = ep.unexp_fs
  pend_entries : ep1.pend_entries = ep.pend_entries
  pend_fs : ep1.pend_fs = ep.pend_fs
  min_multi_recv_size : ep1.min_multi_recv_size = ep.min_multi_recv_size
  unlinked : ep1.unlinked = ep.unlinked

/-- The queue `q` after `k` calls of `ofi_cirque_discard`. -/
def ofi_cirque_drop {α : Type} (q : ofi_cirque α) (k : Nat) : ofi_cirque α :=
  { q with rcnt := q.rcnt + k, items := q.items.drop k }

/-- Credit bookkeeping of a piece of the command loop that ends in `ep1`: it
discarded `k` slots and raised `cmd_cnt` by at most `k`. -/
structure credit_step (ep ep1 : smr_ep) (k : Nat) : Prop where
  queue : ep1.region.cmd_queue = ofi_cirque_drop ep.region.cmd_queue k
  mono : ep.region.cmd_cnt ≤ ep1.region.cmd_cnt
  bound : ep1.region.cmd_cnt ≤ ep.region.cmd_cnt + k

/-- The endpoint after `smr_progress_cmd_msg` stored `cmd` in the unexpected
entry `u` popped from `unexp_fs` (the rest of which is `fs`) and discarded the
command slot, before the entry is linked into an unexpected queue. -/
def unexp_store (ep : smr_ep) (cmd : smr_cmd) (u : Nat) (fs : List Nat) : smr_ep :=
  cmd_queue_discard
    { ep with unexp_fs := fs, unexp_entries := Function.update ep.unexp_entries u cmd }

/-- Credits the head command leaves to be returned after the command loop:
one for a message stored as unexpected, for a matched message whose transfer
method is neither inline nor inject, and for a read-request or atomic that
passed validation and names a response slot (`hdr.data`); none otherwise. -/
def deferred_credit (ep : smr_ep) : Nat :=
  let cmd := ofi_cirque_head ep.region.cmd_queue
  let rma_cmd := ofi_cirque_head (ofi_cirque_discard ep.region.cmd_queue)
  let msg : Nat :=
    if ofi_cirque_isfull ep.rx_cq then 0
    else
      match dlist_find_first_match
          (if cmd.op = ofi_op_tagged then ep.trecv_queue else ep.recv_queue)
          ep.rx_entries { addr := cmd.addr, tag := cmd.tag, ignore := 0 } with
      | none => if ep.unexp_fs.isEmpty then 0 else 1
      | some _ =>
        match cmd.op_src with
        | smr_src_inline => 0
        | smr_src_inject => 0
        | _ => 1
  let rma : Nat :=
    if cmd.op_flags &&& SMR_REMOTE_CQ_DATA ≠ 0 ∧ ofi_cirque_isfull ep.rx_cq = true then 0
    else if (smr_rma_verify_loop ep.env cmd.op rma_cmd rma_cmd.rma_count []).1 ≠ 0 then 0
    else if cmd.op = ofi_op_read_req ∧ cmd.data ≠ 0 then 1
    else 0
  let atomic : Nat :=
    if (smr_atomic_verify_loop ep.env cmd rma_cmd rma_cmd.rma_count []).1 ≠ 0 then 0
    else if cmd.data ≠ 0 then 1
    else 0
  match cmd.op with
  | ofi_op_msg => msg
  | ofi_op_tagged => msg
  | ofi_op_write => rma
  | ofi_op_read_req => rma
  | ofi_op_atomic => atomic
  | ofi_op_atomic_fetch => atomic
  | ofi_op_atomic_compare => atomic
  | _ => 0

/-- An endpoint with one tagged inline send of four bytes queued and no
receive posted. -/
def ep_unmatched_send : smr_ep :=
  with_cmds ep_idle [mk_cmd ofi_op_tagged smr_src_inline 4 7 [1, 2, 3, 4]]

/-- An environment whose memory-registration verifier rejects every range
with `-FI_EACCES` (-13). -/
def env_reject : smr_env :=
  { env_ok with ofi_mr_verify := fun _ addr _ _ _ => (-13, addr) }

/-- An RMA descriptor slot naming one target range of eight bytes. -/
def rma_desc : smr_cmd :=
  { mk_cmd (ofi_op_other 0) (smr_src_other 0) 0 0 [] with
    rma_count := 1, rma_iov := [{ addr := 4096, len := 8, key := 1 }],
    rma_ioc := [{ addr := 4096, count := 2, key := 1 }] }

/-- An endpoint with one RMA write queued whose eight bytes of payload sit in
the inject buffer at offset 3, its descriptor slot behind it, and a verifier
that rejects the target range. -/
def ep_rma_rejected : smr_ep :=
  with_cmds { ep_idle with env := env_reject }
    [{ mk_cmd ofi_op_write smr_src_inject 8 0 [] with src_data := 3 }, rma_desc]

/-- An endpoint with one tagged inline send queued, no receive posted and no
free unexpected-message entry. -/
def ep_unexp_exhausted : smr_ep :=
  { ep_unmatched_send with unexp_fs := [] }

/-- The same endpoint with a full receive completion queue. -/
def ep_unexp_exhausted_cq_full : smr_ep :=
  { ep_unexp_exhausted with rx_cq := { size := 0, rcnt := 0, items := [], stale := default } }

/-- A receive completion queue without room. -/
def cq_full : ofi_cirque smr_rx_comp :=
  { size := 0, rcnt := 0, items := [], stale := default }

/-- An endpoint with a full receive completion queue and one inline RMA write
of four bytes queued (without `SMR_REMOTE_CQ_DATA`), its descriptor slot
behind it. -/
def ep_rma_write_cq_full : smr_ep :=
  with_cmds { ep_idle with rx_cq := cq_full }
    [mk_cmd ofi_op_write smr_src_inline 4 0 [9, 8, 7, 6], rma_desc]

/-- An atomic command of sixteen bytes on a four-byte datatype with an inline
operand, queued with its descriptor slot, and a verifier that rejects the
target range. -/
def ep_atomic_rejected : smr_ep :=
  with_cmds { ep_idle with env := env_reject }
    [mk_cmd ofi_op_atomic smr_src_inline 16 0 [], rma_desc]

/-- An endpoint with one response of status 0 queued for the pending send 0,
an inject send to peer 1, whose region lock another process holds. -/
def ep_peer_locked : smr_ep :=
  { ep_idle with
    region := { ep_idle.region with
      resp_queue := { ep_idle.region.resp_queue with items := [{ msg_id := 0, status := 0 }] } }
    pend_entries := fun _ =>
      { (default : smr_tx_entry) with
        cmd := mk_cmd ofi_op_read_req smr_src_inject 4 0 [], addr := 1 }
    peers := fun id => if id = 1 then { peer_idle with lock_held := true } else peer_idle }

/-- Bytes named by a list of target descriptors of element size `e`: the sum
of `count * e`. -/
def smr_ioc_bytes (e : Nat) (ioc : List fi_ioc) : Nat :=
  (ioc.map (fun c => c.count * e)).sum

/-- A fetching atomic of sixteen bytes with its operand in the command. -/
def cmd_atomic16 : smr_cmd :=
  { mk_cmd ofi_op_atomic_fetch smr_src_inline 16 0 [] with op_flags := SMR_RMA_REQ }

/-- The `smr_do_atomic` call the descriptor loop makes for descriptor `c` when
`*len` is `len`. -/
def atomic_call_at (cmd : smr_cmd) (src_inj : Option Nat) (len : Nat) (c : fi_ioc) :
    smr_atomic_call :=
  { src_inj := src_inj, src_off := len, dst := c.addr,
    has_cmp := decide (cmd.op = ofi_op_atomic_compare),
    datatype := cmd.datatype, op := cmd.atomic_op, cnt := c.count, flags := cmd.op_flags }

/-- The outcome of the target-validation loop of `smr_progress_cmd_atomic`. -/
def atomic_targets (ep : smr_ep) (cmd : smr_cmd) : Int × List fi_ioc :=
  smr_atomic_verify_loop ep.env cmd
    (ofi_cirque_head (ofi_cirque_discard ep.region.cmd_queue))
    (ofi_cirque_head (ofi_cirque_discard ep.region.cmd_queue)).rma_count []

/-- The outcome of the transfer switch of `smr_progress_cmd_atomic`. -/
def atomic_transfer (ep : smr_ep) (cmd : smr_cmd) : smr_ep × Nat × Int :=
  smr_progress_cmd_atomic_switch (cmd_queue_discard (cmd_cnt_inc (cmd_queue_discard ep))) cmd
    (atomic_targets ep cmd).2 (atomic_targets ep cmd).2.length 0

/-- The completion `smr_progress_cmd_atomic` reports for `cmd`. -/
def atomic_completion (ep : smr_ep) (cmd : smr_cmd) : smr_rx_comp :=
  { context := 0, op := cmd.op, flags := cmd.op_flags,
    len := (atomic_transfer ep cmd).2.1,
    buf := if (atomic_targets ep cmd).2.length ≠ 0 then
        ((atomic_targets ep cmd).2.getD 0 default).addr else 0,
    addr := cmd.addr, tag := 0, data := cmd.data, err := (atomic_transfer ep cmd).2.2 }

/-- What the transfer switch of `smr_progress_msg_common` leaves alone: as
`xfer_frame`, but for the credit counter. -/
structure msg_frame (ep ep1 : smr_ep) : Prop where
  env : ep1.env = ep.env
  cmd_queue : ep1.region.cmd_queue = ep.region.cmd_queue
  resp_queue : ep1.region.resp_queue = ep.region.resp_queue
  rx_cq : ep1.rx_cq = ep.rx_cq
  tx_cq : ep1.tx_cq = ep.tx_cq
  rx_cntr : ep1.rx_cntr = ep.rx_cntr
  recv_queue : ep1.recv_queue = ep.recv_queue
  trecv_queue : ep1.trecv_queue = ep.trecv_queue
  unexp_msg_queue : ep1.unexp_msg_queue = ep.unexp_msg_queue
  unexp_tagged_queue : ep1.unexp_tagged_queue = ep.unexp_tagged_queue
  rx_entries : ep1.rx_entries = ep.rx_entries
  recv_fs : ep1.recv_fs = ep.recv_fs
  unexp_entries : ep1.unexp_entries = ep.unexp_entries
  unexp_fs : ep1.unexp_fs = ep.unexp_fs
  pend_entries : ep1.pend_entries = ep.pend_entries
  pend_fs : ep1.pend_fs = ep.pend_fs
  min_multi_recv_size : ep1.min_multi_recv_size = ep.min_multi_recv_size
  unlinked : ep1.unlinked = ep.unlinked

/-- The outcome of the transfer switch of `smr_progress_msg_common` for `cmd`
and the receive entry behind `h`. -/
def msg_transfer (ep : smr_ep) (cmd : smr_cmd) (h : Nat) : smr_ep × Nat × Int :=
  smr_progress_msg_common_switch ep cmd (ep.rx_entries h)

/-- The endpoint after the transfer with `entry->err` stored. -/
def msg_transferred (ep : smr_ep) (cmd : smr_cmd) (h : Nat) : smr_ep :=
  set_rx_entry (msg_transfer ep cmd h).1 h
    { ep.rx_entries h with err := (msg_transfer ep cmd h).2.2 }

/-- The completion `smr_progress_msg_common` reports, with `comp_flags` given. -/
def msg_completion (ep : smr_ep) (cmd : smr_cmd) (h : Nat) (comp_flags : Nat) : smr_rx_comp :=
  { context := (ep.rx_entries h).context, op := cmd.op, flags := comp_flags,
    len := (msg_transfer ep cmd h).2.1,
    buf := ((ep.rx_entries h).iov.getD 0 default).iov_base,
    addr := cmd.addr, tag := cmd.tag, data := cmd.data, err := (msg_transfer ep cmd h).2.2 }

/-- The flags `comp_flags` starts from: the command's and the entry's flags
without `SMR_MULTI_RECV`. -/
def msg_comp_flags (ep : smr_ep) (cmd : smr_cmd) (h : Nat) : Nat :=
  (cmd.op_flags ||| (ep.rx_entries h).flags) &&& (0xFFFF ^^^ SMR_MULTI_RECV)

/-- An untagged receive entry over one buffer of 16 bytes at address 4096,
matching any source. -/
def rx_plain16 : smr_rx_entry :=
  { context := 21, iov := [{ iov_base := 4096, iov_len := 16 }], iov_count := 1,
    addr := FI_ADDR_UNSPEC, tag := 0, ignore := 0, err := 0, flags := 0 }

/-- An endpoint with receive entry 0 (`rx_plain16`) posted on the untagged
queue. -/
def ep_posted : smr_ep :=
  { ep_idle with
    rx_entries := fun _ => rx_plain16
    recv_queue := { list := [0], match_func := smr_match_msg } }

/-- That endpoint with a message of transfer-method tag 9 queued, an async
notice behind it. -/
def ep_bad_src : smr_ep :=
  with_cmds ep_posted
    [mk_cmd ofi_op_msg (smr_src_other 9) 4 0 [1, 2, 3, 4],
     mk_cmd ofi_op_write_async smr_src_inline 0 0 []]

/-- An environment whose receive completion writer faults with -5 on every
entry. -/
def env_rx_fault : smr_env :=
  { env_ok with rx_comp_fault := fun _ => -5 }

/-- An endpoint with a posted receive, a faulting completion writer, and an
inline message of four bytes queued with an async notice behind it. -/
def ep_rx_fault : smr_ep :=
  with_cmds { ep_posted with env := env_rx_fault }
    [mk_cmd ofi_op_msg smr_src_inline 4 0 [1, 2, 3, 4],
     mk_cmd ofi_op_write_async smr_src_inline 0 0 []]

/-- A pending read-request of eight bytes whose local buffers hold four. -/
def tx_short (op_src : smr_src) : smr_tx_entry :=
  { cmd := mk_cmd ofi_op_read_req op_src 8 0 [], addr := 1, context := 31,
    iov := [{ iov_base := 4096, iov_len := 4 }], iov_count := 1,
    map_data := [1, 2, 3, 4, 5, 6, 7, 8], map_name := 0 }

/-- An endpoint with one response of status 0 queued for the pending send 0,
which is `tx_short op_src`. -/
def ep_resp_short (op_src : smr_src) : smr_ep :=
  { ep_idle with
    region := { ep_idle.region with
      resp_queue := { ep_idle.region.resp_queue with items := [{ msg_id := 0, status := 0 }] } }
    pend_entries := fun _ => tx_short op_src }

/-! ## The atomic operation itself -/

def FI_ATOMIC_READ : Nat := 10

/-- First compare/swap operator (`FI_CSWAP`). -/
def OFI_SWAP_OP_START : Nat := 12

/-- The three handler tables `smr_do_atomic` indexes by operator and datatype;
the tables are not part of this file. Buffers are byte lists starting at the
pointer passed. A swap or read-write handler yields the target bytes it
leaves and the result bytes it stores through its `res` argument; a write
handler yields the target bytes. No handler writes through `src` or `cmp`. -/
structure ofi_atomic_handlers where
  swap_handler : Nat → Nat → List Nat → List Nat → Option (List Nat) → Nat →
    List Nat × List Nat
  readwrite_handler : Nat → Nat → List Nat → List Nat → Nat → List Nat × List Nat
  write_handler : Nat → Nat → List Nat → List Nat → Nat → List Nat

/-- Which handler table a call of `smr_do_atomic` used. -/
inductive atomic_family where
  | family_swap
  | family_readwrite
  | family_write
  | family_none
deriving DecidableEq, Repr

/-- The outcome of `smr_do_atomic`: the bytes behind `src` and `dst` after the
call, the content of `tmp_result`, and the handler table used. -/
structure atomic_outcome where
  src : List Nat
  dst : List Nat
  tmp_result : List Nat
  family : atomic_family
deriving DecidableEq, Repr

/-- The bytes behind `dst` after `memcpy(dst, src, n)`. -/
def memcpy (dst src : List Nat) (n : Nat) : List Nat :=
  buf_read src 0 n ++ dst.drop n

/-- The function `smr_do_atomic(src, dst, cmp, datatype, op, cnt, flags)`;
`tmp0` is what the uninitialised `tmp_result` holds on entry, `dsize` is
`ofi_datatype_size`. -/
def smr_do_atomic (H : ofi_atomic_handlers) (dsize : Nat → Nat) (tmp0 : List Nat)
    (src dst : List Nat) (cmp : Option (List Nat)) (datatype op cnt flags : Nat) :
    atomic_outcome :=
  let r : atomic_outcome :=
    if OFI_SWAP_OP_START ≤ op then
      let x := H.swap_handler (op - OFI_SWAP_OP_START) datatype dst src cmp cnt
      { src := src, dst := x.1, tmp_result := x.2, family := atomic_family.family_swap }
    else if flags &&& SMR_RMA_REQ ≠ 0 then
      let x := H.readwrite_handler op datatype dst src cnt
      { src := src, dst := x.1, tmp_result := x.2, family := atomic_family.family_readwrite }
    else if op ≠ FI_ATOMIC_READ then
      { src := src, dst := H.write_handler op datatype dst src cnt, tmp_result := tmp0,
        family := atomic_family.family_write }
    else { src := src, dst := dst, tmp_result := tmp0, family := atomic_family.family_none }
  let echo := if op = FI_ATOMIC_READ then r.dst else r.tmp_result
  if flags &&& SMR_RMA_REQ ≠ 0 then { r with src := memcpy src echo (cnt * dsize datatype) }
  else r

/-- Handler tables for bytes: swap stores the source in the target, read-write
adds the source to the target bytewise (and leaves the target alone for
`FI_ATOMIC_READ`), write stores the source; the result is the old target. -/
def byte_handlers : ofi_atomic_handlers :=
  { swap_handler := fun _ _ dst src _ cnt => (memcpy dst src cnt, dst)
    readwrite_handler := fun op _ dst src cnt =>
      (if op = FI_ATOMIC_READ then dst
        else memcpy dst (List.zipWith (fun a b => (a + b) % 256) dst src) cnt, dst)
    write_handler := fun _ _ dst src cnt => memcpy dst src cnt }

/-- The list `l` without its first `k` elements that satisfy `p`; the other
elements stay in place. -/
def drop_matching (p : Nat → Bool) : Nat → List Nat → List Nat
  | 0, l => l
  | _ + 1, [] => []
  | k + 1, x :: l => if p x then drop_matching p k l else x :: drop_matching p (k + 1) l

/-- What `smr_progress_msg_common` leaves alone. -/
structure common_frame (ep ep1 : smr_ep) : Prop where
  env : ep1.env = ep.env
  cmd_queue : ep1.region.cmd_queue = ep.region.cmd_queue
  resp_queue : ep1.region.resp_queue = ep.region.resp_queue
  tx_cq : ep1.tx_cq = ep.tx_cq
  rx_cntr : ep1.rx_cntr = ep.rx_cntr
  unexp_msg_queue : ep1.unexp_msg_queue = ep.unexp_msg_queue
  unexp_tagged_queue : ep1.unexp_tagged_queue = ep.unexp_tagged_queue
  unexp_entries : ep1.unexp_entries = ep.unexp_entries
  unexp_fs : ep1.unexp_fs = ep.unexp_fs
  pend_entries : ep1.pend_entries = ep.pend_entries
  pend_fs : ep1.pend_fs = ep.pend_fs
  min_multi_recv_size : ep1.min_multi_recv_size = ep.min_multi_recv_size
  unlinked : ep1.unlinked = ep.unlinked
  recv_match : ep1.recv_queue.match_func = ep.recv_queue.match_func
  trecv_match : ep1.trecv_queue.match_func = ep.trecv_queue.match_func

/-- Whether the unexpected message behind handle `u` matches `attr` under the
match function of the selected unexpected queue. -/
def unexp_matches (ep : smr_ep) (tagged : Bool) (attr : smr_match_attr) (u : Nat) : Bool :=
  (unexp_queue_get ep tagged).match_func (ep.unexp_entries u) attr

/-- The match attributes `smr_progress_unexp_queue` builds from a receive
entry. -/
def rx_match_attr (e : smr_rx_entry) : smr_match_attr :=
  { addr := e.addr, tag := e.tag, ignore := e.ignore }

/-- What identifies a transmit completion: context, operation and flags. -/
def resp_key (c : smr_tx_comp) : Nat × ofi_op × Nat := (c.context, c.op, c.flags)

/-- The same three fields of the pending send a response names. -/
def pend_key (ep : smr_ep) (r : smr_resp) : Nat × ofi_op × Nat :=
  ((ep.pend_entries r.msg_id).context, (ep.pend_entries r.msg_id).cmd.op,
    (ep.pend_entries r.msg_id).cmd.op_flags)

/-- Relation between the endpoint before and after a run of the response
loop that consumed `pre` and left `post`. -/
structure resp_run (ep ep' : smr_ep) (pre post : List smr_resp) : Prop where
  split : ep.region.resp_queue.items = pre ++ post
  ids : ep'.region.resp_queue.items.map (fun r => r.msg_id) = post.map (fun r => r.msg_id)
  tail : ep'.region.resp_queue.items.tail = post.tail
  ready : ∀ r ∈ pre, r.status ≠ FI_EBUSY
  comps : ep'.tx_cq.items.map resp_key = ep.tx_cq.items.map resp_key ++ pre.map (pend_key ep)
  freed : ep'.pend_fs = (pre.map (fun r => r.msg_id)).reverse ++ ep.pend_fs
  discards : ep'.region.resp_queue.rcnt = ep.region.resp_queue.rcnt + pre.length
  busy : ∀ r rest, post = r :: rest → r.status = FI_EBUSY → ep'.region.resp_queue.items = post
  clean : (∀ c, ep.env.tx_comp_fault c = 0) → ep'.region.resp_queue.items = post
  pend : ep'.pend_entries = ep.pend_entries
  env : ep'.env = ep.env

/-- An environment whose transmit completion writer faults with -12 on every
entry. -/
def env_tx_fault : smr_env :=
  { env_ok with tx_comp_fault := fun _ => -12 }

/-- The endpoint `ep_resp_short smr_src_inject` with that completion writer. -/
def ep_resp_tx_fault : smr_ep :=
  { ep_resp_short smr_src_inject with env := env_tx_fault }

/-- An endpoint with three responses queued for the pending sends 0, 1, 2, the
third still unpublished (`FI_EBUSY`); every pending send is an inline write
with context 31. -/
def ep_resp_three : smr_ep :=
  { ep_idle with
    region := { ep_idle.region with
      resp_queue := { ep_idle.region.resp_queue with
        items := [{ msg_id := 0, status := 0 }, { msg_id := 1, status := 0 },
          { msg_id := 2, status := FI_EBUSY }] } }
    pend_entries := fun _ =>
      { cmd := mk_cmd ofi_op_write smr_src_iov 8 0 [], addr := 1, context := 31,
        iov := [], iov_count := 0, map_data := [], map_name := 0 } }

/-! ## Head-only consumption of both queues -/

/-- Slots of the command queue that a command of kind `op` takes:
`smr_progress_cmd_rma` and `smr_progress_cmd_atomic` read the slot behind the
command as its descriptor and discard both; every other kind is one slot. -/
def cmd_slots (op : ofi_op) : Nat :=
  match op with
  | ofi_op_write => 2
  | ofi_op_read_req => 2
  | ofi_op_atomic => 2
  | ofi_op_atomic_fetch => 2
  | ofi_op_atomic_compare => 2
  | _ => 1

/-- Whether every RMA or atomic command of the queue, read from the head, has
its descriptor slot right behind it. -/
def cmd_queue_paired : List smr_cmd → Bool
  | [] => true
  | [c] => decide (cmd_slots c.op = 1)
  | c :: d :: rest =>
    if cmd_slots c.op = 2 then cmd_queue_paired rest else cmd_queue_paired (d :: rest)

/-- Number of times the loop of `smr_progress_cmd` runs its body, counted
along `smr_progress_cmd_loop`. -/
def smr_progress_cmd_iters : Nat → smr_ep → Nat
  | 0, _ => 0
  | fuel + 1, ep =>
    if !ofi_cirque_isempty ep.region.cmd_queue then
      let r := smr_progress_cmd_body ep
      if r.2 ≠ 0 then 1 else 1 + smr_progress_cmd_iters fuel r.1
    else 0

/-- Number of times the loop of `smr_progress_resp` runs its body, counted
along `smr_progress_resp_loop`. -/
def smr_progress_resp_iters : Nat → smr_ep → Nat
  | 0, _ => 0
  | fuel + 1, ep =>
    if !ofi_cirque_isempty ep.region.resp_queue && !ofi_cirque_isfull ep.tx_cq then
      let r := smr_progress_resp_body ep
      if r.2 then 1 + smr_progress_resp_iters fuel r.1 else 1
    else 0

/-- The endpoint `ep_resp_short smr_src_mmap` with a completion writer that
fails, and an async notice in the command queue. -/
def ep_resp_mmap_tx_fault : smr_ep :=
  with_cmds { ep_resp_short smr_src_mmap with env := env_tx_fault }
    [mk_cmd ofi_op_write_async smr_src_inline 0 0 []]

/-- An endpoint with a rejected RMA write (command and descriptor) followed
by an async notice in the command queue, and the three responses of
`ep_resp_three`. -/
def ep_both_queues : smr_ep :=
  { ep_resp_three with
    region := { ep_resp_three.region with
      cmd_queue := { ep_resp_three.region.cmd_queue with
        items := [mk_cmd ofi_op_write_async smr_src_inline 0 0 [],
          mk_cmd ofi_op_write smr_src_inline 4 0 [1, 2, 3, 4],
          { mk_cmd ofi_op_msg smr_src_inline 0 0 [] with rma_count := 0 },
          mk_cmd ofi_op_read_async smr_src_inline 0 0 []] } } }

/-! ## The handlers without their `err` argument -/

/-- Modelled from the spec: `smr_progress_inject` specialised to `err = 0`,
the branch on a prior error removed. -/
def smr_progress_inject_noerr (ep : smr_ep) (cmd : smr_cmd) (iov : List iovec)
    (iov_count : Nat) : smr_ep × Nat × Int :=
  let inj_offset := cmd.src_data
  let r : smr_ep × Nat :=
    if cmd.op = ofi_op_read_req then
      let c := ofi_copy_from_iov ep.mem (iov.take iov_count) cmd.size
      ({ ep with region := { ep.region with
          inject_data := Function.update ep.region.inject_data inj_offset
            (c.1 ++ (ep.region.inject_data inj_offset).drop c.2) } }, c.2)
    else
      let c := ofi_copy_to_iov (iov.take iov_count) ep.mem
        (buf_read (ep.region.inject_data inj_offset) 0 cmd.size)
      (inject_push { ep with mem := c.1 } inj_offset, c.2)
  if r.2 ≠ cmd.size then (r.1, r.2, - FI_EIO)
  else (r.1, r.2, FI_SUCCESS)

/-- Modelled from the spec: `smr_progress_iov` specialised to `err = 0`, the
branch on a prior error removed. -/
def smr_progress_iov_noerr (ep : smr_ep) (cmd : smr_cmd) (iov : List iovec) (iov_count : Nat)
    (total_len : Nat) : smr_ep × Nat × Int :=
  let peer_id := cmd.addr
  let peer_smr := ep.peers peer_id
  let r : smr_ep × Int :=
    if cmd.op = ofi_op_read_req then
      (ep, int_cast (ep.env.ofi_process_vm_writev peer_smr.pid (iov.take iov_count) cmd.data_iov))
    else
      let c := ep.env.ofi_process_vm_readv peer_smr.pid ep.mem (iov.take iov_count) cmd.data_iov
      ({ ep with mem := c.2 }, int_cast c.1)
  let x : Nat × Int :=
    if size_cast r.2 ≠ cmd.size then
      if r.2 < 0 then (total_len, ep.env.errno) else (total_len, FI_EIO)
    else (size_cast r.2, 0)
  (set_resp_status r.1 peer_id cmd.src_data x.2, x.1, -x.2)

/-- Modelled from the spec: `smr_progress_inject_atomic` specialised to
`err = 0`, the jump to `out:` on a prior error removed. -/
def smr_progress_inject_atomic_noerr (ep : smr_ep) (cmd : smr_cmd) (ioc : List fi_ioc)
    (ioc_count : Nat) : smr_ep × Nat × Int :=
  let inj_offset := cmd.src_data
  let l := smr_atomic_loop ep.env cmd (some inj_offset) (ioc.take ioc_count) 0 ep.atomic_log
  let r : smr_ep × Nat × Int :=
    if l.2 ≠ cmd.size then ({ ep with atomic_log := l.1 }, l.2, - FI_EIO)
    else ({ ep with atomic_log := l.1 }, l.2, 0)
  if cmd.op_flags &&& SMR_RMA_REQ = 0 then (inject_push r.1 inj_offset, r.2.1, r.2.2)
  else r

/-- Modelled from the spec: the transfer switch of `smr_progress_msg_common`
over the specialised handlers. -/
def smr_progress_msg_common_switch_noerr (ep : smr_ep) (cmd : smr_cmd) (entry : smr_rx_entry) :
    smr_ep × Nat × Int :=
  match cmd.op_src with
  | smr_src_inline =>
    let x := smr_progress_inline ep cmd entry.iov entry.iov_count
    (cmd_cnt_inc x.1, x.2.1, x.2.2)
  | smr_src_inject =>
    let x := smr_progress_inject_noerr ep cmd entry.iov entry.iov_count
    (cmd_cnt_inc x.1, x.2.1, x.2.2)
  | smr_src_iov => smr_progress_iov_noerr ep cmd entry.iov entry.iov_count 0
  | smr_src_mmap => smr_progress_mmap ep cmd entry.iov entry.iov_count 0
  | smr_src_other _ => (ep, 0, -FI_EINVAL)

/-- Modelled from the spec: the transfer switch of `smr_progress_cmd_rma`
over the specialised handlers. -/
def smr_progress_cmd_rma_switch_noerr (ep : smr_ep) (cmd : smr_cmd) (iov : List iovec)
    (iov_count : Nat) : smr_ep × Nat × Int :=
  match cmd.op_src with
  | smr_src_inline => smr_progress_inline ep cmd iov iov_count
  | smr_src_inject => smr_progress_inject_noerr ep cmd iov iov_count
  | smr_src_iov => smr_progress_iov_noerr ep cmd iov iov_count 0
  | smr_src_mmap => smr_progress_mmap ep cmd iov iov_count 0
  | smr_src_other _ => (ep, 0, -FI_EINVAL)

/-- Modelled from the spec: `smr_progress_cmd_rma` with the specialised
handlers in its transfer switch. -/
def smr_progress_cmd_rma_noerr (ep : smr_ep) (cmd : smr_cmd) : smr_ep × Int :=
  if cmd.op_flags &&& SMR_REMOTE_CQ_DATA ≠ 0 ∧ ofi_cirque_isfull ep.rx_cq = true then
    (ep, -FI_ENOSPC)
  else
    let ep1 := cmd_cnt_inc (cmd_queue_discard ep)
    let rma_cmd := ofi_cirque_head ep1.region.cmd_queue
    let v := smr_rma_verify_loop ep1.env cmd.op rma_cmd rma_cmd.rma_count []
    let ep2 := cmd_queue_discard ep1
    if v.1 ≠ 0 then (cmd_cnt_inc ep2, v.1)
    else
      let iov := v.2
      let iov_count := iov.length
      let r := smr_progress_cmd_rma_switch_noerr ep2 cmd iov iov_count
      let err := r.2.2
      let ep3 :=
        if cmd.op = ofi_op_read_req ∧ cmd.data ≠ 0 then set_resp_status r.1 cmd.addr cmd.data (-err)
        else cmd_cnt_inc r.1
      smr_complete_rx ep3
        { context := cmd.msg_id, op := cmd.op, flags := cmd.op_flags, len := r.2.1,
          buf := if iov_count ≠ 0 then (iov.getD 0 default).iov_base else 0,
          addr := cmd.addr, tag := 0, data := cmd.data, err := err }

/-- Modelled from the spec: the transfer switch of `smr_progress_cmd_atomic`
over the specialised handler. -/
def smr_progress_cmd_atomic_switch_noerr (ep : smr_ep) (cmd : smr_cmd) (ioc : List fi_ioc)
    (ioc_count : Nat) : smr_ep × Nat × Int :=
  match cmd.op_src with
  | smr_src_inline => smr_progress_inline_atomic ep cmd ioc ioc_count
  | smr_src_inject => smr_progress_inject_atomic_noerr ep cmd ioc ioc_count
  | _ => (ep, 0, -FI_EINVAL)

/-- Modelled from the spec: `smr_progress_cmd_atomic` with the specialised
handler in its transfer switch. -/
def smr_progress_cmd_atomic_noerr (ep : smr_ep) (cmd : smr_cmd) : smr_ep × Int :=
  let ep1 := cmd_cnt_inc (cmd_queue_discard ep)
  let rma_cmd := ofi_cirque_head ep1.region.cmd_queue
  let v := smr_atomic_verify_loop ep1.env cmd rma_cmd rma_cmd.rma_count []
  let ep2 := cmd_queue_discard ep1
  if v.1 ≠ 0 then (cmd_cnt_inc ep2, v.1)
  else
    let ioc := v.2
    let ioc_count := ioc.length
    let r := smr_progress_cmd_atomic_switch_noerr ep2 cmd ioc ioc_count
    let err := r.2.2
    let ep3 :=
      if cmd.data ≠ 0 then set_resp_status r.1 cmd.addr cmd.data (-err)
      else cmd_cnt_inc r.1
    let c := smr_complete_rx ep3
      { context := 0, op := cmd.op, flags := cmd.op_flags, len := r.2.1,
        buf := if ioc_count ≠ 0 then (ioc.getD 0 default).addr else 0,
        addr := cmd.addr, tag := 0, data := cmd.data, err := err }
    if c.2 ≠ 0 then c else (c.1, err)

/-! ## Delivery rounds of the unexpected-queue loop -/

/-- One delivery round of `smr_progress_unexp_queue`: unlink the earliest
unexpected message that matches `attr`, hand it to `smr_progress_msg_common`
with the receive entry behind `h`, and push it to `unexp_fs`. The result
carries the value `smr_progress_msg_common` returned; nothing happens when no
message matches. -/
def unexp_round (h : Nat) (tagged : Bool) (attr : smr_match_attr) (ep : smr_ep) :
    smr_ep × Int :=
  let d := dlist_remove_first_match (unexp_queue_get ep tagged) ep.unexp_entries attr
  match d.1 with
  | none => (ep, 0)
  | some u =>
    let r := smr_progress_msg_common (unexp_queue_set ep tagged d.2)
      ((unexp_queue_set ep tagged d.2).unexp_entries u) h
    (unexp_fs_push r.1 u, r.2)

/-- The endpoint after `n` delivery rounds. -/
def unexp_rounds (h : Nat) (tagged : Bool) (attr : smr_match_attr) : Nat → smr_ep → smr_ep
  | 0, ep => ep
  | n + 1, ep => unexp_rounds h tagged attr n (unexp_round h tagged attr ep).1

theorem xfer_frame_refl (ep : smr_ep) : xfer_frame ep ep := by
  constructor <;> rfl

theorem xfer_frame_trans {a b c : smr_ep} (h1 : xfer_frame a b) (h2 : xfer_frame b c) :
    xfer_frame a c := by
  constructor
  · exact h2.env.trans h1.env
  · exact h2.cmd_queue.trans h1.cmd_queue
  · exact h2.resp_queue.trans h1.resp_queue
  · exact h2.cmd_cnt.trans h1.cmd_cnt
  · exact h2.rx_cq.trans h1.rx_cq
  · exact h2.tx_cq.trans h1.tx_cq
  · exact h2.rx_cntr.trans h1.rx_cntr
  · exact h2.recv_queue.trans h1.recv_queue
  · exact h2.trecv_queue.trans h1.trecv_queue
  · exact h2.unexp_msg_queue.trans h1.unexp_msg_queue
  · exact h2.unexp_tagged_queue.trans h1.unexp_tagged_queue
  · exact h2.rx_entries.trans h1.rx_entries
  · exact h2.recv_fs.trans h1.recv_fs
  · exact h2.unexp_entries.trans h1.unexp_entries
  · exact h2.unexp_fs.trans h1.unexp_fs
  · exact h2.pend_entries.trans h1.pend_entries
  · exact h2.pend_fs.trans h1.pend_fs
  · exact h2.min_multi_recv_size.trans h1.min_multi_recv_size
  · exact h2.unlinked.trans h1.unlinked

theorem xfer_frame_set_resp_status (ep : smr_ep) (id off : Nat) (s : Int) :
    xfer_frame ep (set_resp_status ep id off s) := by
  constructor <;> rfl

theorem xfer_frame_inject_push (ep : smr_ep) (off : Nat) :
    xfer_frame ep (inject_push ep off) := by
  constructor <;> rfl

theorem xfer_frame_inline (ep : smr_ep) (cmd : smr_cmd) (iov : List iovec) (n : Nat) :
    xfer_frame ep (smr_progress_inline ep cmd iov n).1 := by
  unfold smr_progress_inline
  dsimp only
  split_ifs <;> constructor <;> rfl

theorem xfer_frame_inject (ep : smr_ep) (cmd : smr_cmd) (iov : List iovec) (n t : Nat)
    (err : Int) : xfer_frame ep (smr_progress_inject ep cmd iov n t err).1 := by
  unfold smr_progress_inject
  dsimp only
  split_ifs <;> constructor <;> rfl

theorem xfer_frame_iov (ep : smr_ep) (cmd : smr_cmd) (iov : List iovec) (n t : Nat)
    (err : Int) : xfer_frame ep (smr_progress_iov ep cmd iov n t err).1 := by
  unfold smr_progress_iov
  dsimp only
  split_ifs <;> constructor <;> rfl

theorem xfer_frame_mmap (ep : smr_ep) (cmd : smr_cmd) (iov : List iovec) (n t : Nat) :
    xfer_frame ep (smr_progress_mmap ep cmd iov n t).1 := by
  unfold smr_progress_mmap smr_mmap_peer_copy
  dsimp only
  split_ifs <;> constructor <;> rfl

theorem xfer_frame_inline_atomic (ep : smr_ep) (cmd : smr_cmd) (ioc : List fi_ioc) (n : Nat) :
    xfer_frame ep (smr_progress_inline_atomic ep cmd ioc n).1 := by
  unfold smr_progress_inline_atomic
  dsimp only
  split_ifs <;> constructor <;> rfl

theorem xfer_frame_inject_atomic (ep : smr_ep) (cmd : smr_cmd) (ioc : List fi_ioc) (n t : Nat)
    (err : Int) : xfer_frame ep (smr_progress_inject_atomic ep cmd ioc n t err).1 := by
  unfold smr_progress_inject_atomic
  dsimp only
  split_ifs <;> constructor <;> rfl

theorem xfer_frame_rma_switch (ep : smr_ep) (cmd : smr_cmd) (iov : List iovec) (n : Nat)
    (ret : Int) : xfer_frame ep (smr_progress_cmd_rma_switch ep cmd iov n ret).1 := by
  unfold smr_progress_cmd_rma_switch
  split
  · exact xfer_frame_inline ep cmd iov n
  · exact xfer_frame_inject ep cmd iov n 0 ret
  · exact xfer_frame_iov ep cmd iov n 0 ret
  · exact xfer_frame_mmap ep cmd iov n 0
  · exact xfer_frame_refl ep

theorem xfer_frame_atomic_switch (ep : smr_ep) (cmd : smr_cmd) (ioc : List fi_ioc) (n : Nat)
    (ret : Int) : xfer_frame ep (smr_progress_cmd_atomic_switch ep cmd ioc n ret).1 := by
  unfold smr_progress_cmd_atomic_switch
  split
  · exact xfer_frame_inline_atomic ep cmd ioc n
  · exact xfer_frame_inject_atomic ep cmd ioc n 0 ret
  · exact xfer_frame_refl ep

theorem ofi_cirque_drop_zero {α : Type} (q : ofi_cirque α) : ofi_cirque_drop q 0 = q := by
  cases q; simp [ofi_cirque_drop]

theorem ofi_cirque_discard_drop {α : Type} (q : ofi_cirque α) (k : Nat) :
    ofi_cirque_discard (ofi_cirque_drop q k) = ofi_cirque_drop q (k + 1) := by
  cases q
  simp [ofi_cirque_drop, ofi_cirque_discard, Nat.add_assoc]

theorem ofi_cirque_drop_drop {α : Type} (q : ofi_cirque α) (j k : Nat) :
    ofi_cirque_drop (ofi_cirque_drop q j) k = ofi_cirque_drop q (j + k) := by
  cases q
  simp [ofi_cirque_drop, Nat.add_assoc, Nat.add_comm k j]

theorem credit_step_refl (ep : smr_ep) : credit_step ep ep 0 :=
  ⟨(ofi_cirque_drop_zero _).symm, le_rfl, le_rfl⟩

theorem credit_step_trans {a b c : smr_ep} {j k : Nat} (h1 : credit_step a b j)
    (h2 : credit_step b c k) : credit_step a c (j + k) := by
  refine ⟨?_, le_trans h1.mono h2.mono, ?_⟩
  · rw [h2.queue, h1.queue, ofi_cirque_drop_drop]
  · have := h1.bound
    have := h2.bound
    omega

theorem credit_step_of_frame {ep ep1 : smr_ep} (h : xfer_frame ep ep1) : credit_step ep ep1 0 :=
  ⟨by rw [h.cmd_queue, ofi_cirque_drop_zero], by rw [h.cmd_cnt], by rw [h.cmd_cnt]; omega⟩

theorem ofi_cirque_discard_eq_drop {α : Type} (q : ofi_cirque α) :
    ofi_cirque_discard q = ofi_cirque_drop q 1 := by
  cases q
  simp [ofi_cirque_drop, ofi_cirque_discard]

theorem credit_step_discard (ep : smr_ep) : credit_step ep (cmd_queue_discard ep) 1 :=
  ⟨ofi_cirque_discard_eq_drop _, le_rfl, Nat.le_succ _⟩

theorem credit_step_inc {ep ep1 : smr_ep} {k : Nat} (h : credit_step ep ep1 k)
    (hb : ep1.region.cmd_cnt + 1 ≤ ep.region.cmd_cnt + k) :
    credit_step ep (cmd_cnt_inc ep1) k :=
  ⟨h.queue, Nat.le_succ_of_le h.mono, hb⟩

theorem region_multi_recv (ep : smr_ep) (h len : Nat) :
    (smr_progress_multi_recv ep h len).1.region = ep.region := by
  unfold smr_progress_multi_recv
  dsimp only
  split_ifs <;> rfl

theorem region_complete_rx (ep : smr_ep) (c : smr_rx_comp) :
    (smr_complete_rx ep c).1.region = ep.region := by
  unfold smr_complete_rx
  split_ifs <;> rfl

theorem msg_switch_credit (ep : smr_ep) (cmd : smr_cmd) (entry : smr_rx_entry) :
    (smr_progress_msg_common_switch ep cmd entry).1.region.cmd_queue = ep.region.cmd_queue ∧
    ep.region.cmd_cnt ≤ (smr_progress_msg_common_switch ep cmd entry).1.region.cmd_cnt ∧
    (smr_progress_msg_common_switch ep cmd entry).1.region.cmd_cnt ≤ ep.region.cmd_cnt + 1 := by
  unfold smr_progress_msg_common_switch
  split
  · have F := xfer_frame_inline ep cmd entry.iov entry.iov_count
    simp [cmd_cnt_inc, F.cmd_queue, F.cmd_cnt]
  · have F := xfer_frame_inject ep cmd entry.iov entry.iov_count 0 0
    simp [cmd_cnt_inc, F.cmd_queue, F.cmd_cnt]
  · have F := xfer_frame_iov ep cmd entry.iov entry.iov_count 0 0
    simp [F.cmd_queue, F.cmd_cnt]
  · have F := xfer_frame_mmap ep cmd entry.iov entry.iov_count 0
    simp [F.cmd_queue, F.cmd_cnt]
  · simp

theorem msg_common_region (ep : smr_ep) (cmd : smr_cmd) (h : Nat) :
    (smr_progress_msg_common ep cmd h).1.region =
      (smr_progress_msg_common_switch ep cmd (ep.rx_entries h)).1.region := by
  unfold smr_progress_msg_common
  dsimp only
  split_ifs <;>
    simp [rx_entry_retire, region_complete_rx, region_multi_recv, set_rx_entry]

theorem msg_common_ret (ep : smr_ep) (cmd : smr_cmd) (h : Nat) :
    (smr_progress_msg_common ep cmd h).2 = 0 ∨ (smr_progress_msg_common ep cmd h).2 = 1 := by
  unfold smr_progress_msg_common
  dsimp only
  split_ifs <;> simp

theorem cmd_msg_full (ep : smr_ep) (cmd : smr_cmd) (hfull : ofi_cirque_isfull ep.rx_cq = true) :
    smr_progress_cmd_msg ep cmd = (ep, -FI_ENOSPC) := by
  simp [smr_progress_cmd_msg, hfull]

theorem cmd_msg_eagain (ep : smr_ep) (cmd : smr_cmd) (hfull : ofi_cirque_isfull ep.rx_cq = false)
    (hfind : dlist_find_first_match (if cmd.op = ofi_op_tagged then ep.trecv_queue else ep.recv_queue)
      ep.rx_entries { addr := cmd.addr, tag := cmd.tag, ignore := 0 } = none)
    (hfs : ep.unexp_fs = []) :
    smr_progress_cmd_msg ep cmd = (ep, -FI_EAGAIN) := by
  simp [smr_progress_cmd_msg, hfull, hfind, hfs]

theorem cmd_msg_unexp (ep : smr_ep) (cmd : smr_cmd) (u : Nat) (fs : List Nat)
    (hfull : ofi_cirque_isfull ep.rx_cq = false)
    (hfind : dlist_find_first_match (if cmd.op = ofi_op_tagged then ep.trecv_queue else ep.recv_queue)
      ep.rx_entries { addr := cmd.addr, tag := cmd.tag, ignore := 0 } = none)
    (hfs : ep.unexp_fs = u :: fs) :
    smr_progress_cmd_msg ep cmd =
      (if cmd.op = ofi_op_msg then
        { unexp_store ep cmd u fs with
          unexp_msg_queue := dlist_insert_tail u ep.unexp_msg_queue }
      else
        { unexp_store ep cmd u fs with
          unexp_tagged_queue := dlist_insert_tail u ep.unexp_tagged_queue }, 0) := by
  simp only [smr_progress_cmd_msg, hfull, hfind, hfs, Bool.false_eq_true, if_false]
  split_ifs <;> rfl

theorem cmd_msg_match (ep : smr_ep) (cmd : smr_cmd) (h : Nat)
    (hfull : ofi_cirque_isfull ep.rx_cq = false)
    (hfind : dlist_find_first_match (if cmd.op = ofi_op_tagged then ep.trecv_queue else ep.recv_queue)
      ep.rx_entries { addr := cmd.addr, tag := cmd.tag, ignore := 0 } = some h) :
    smr_progress_cmd_msg ep cmd = (cmd_queue_discard (smr_progress_msg_common ep cmd h).1, 0) := by
  have hr := msg_common_ret ep cmd h
  simp only [smr_progress_cmd_msg, hfull, hfind, Bool.false_eq_true, if_false]
  rcases hr with hr | hr <;> simp [hr]

theorem cmd_msg_credit (ep : smr_ep) (cmd : smr_cmd) :
    ∃ k, credit_step ep (smr_progress_cmd_msg ep cmd).1 k ∧
      ((smr_progress_cmd_msg ep cmd).2 = 0 → 1 ≤ k) := by
  cases hfull : ofi_cirque_isfull ep.rx_cq
  · cases hfind : dlist_find_first_match
        (if cmd.op = ofi_op_tagged then ep.trecv_queue else ep.recv_queue)
        ep.rx_entries { addr := cmd.addr, tag := cmd.tag, ignore := 0 } with
    | none =>
      cases hfs : ep.unexp_fs with
      | nil =>
        rw [cmd_msg_eagain ep cmd hfull hfind hfs]
        exact ⟨0, credit_step_refl ep, by simp [FI_EAGAIN]⟩
      | cons u fs =>
        rw [cmd_msg_unexp ep cmd u fs hfull hfind hfs]
        refine ⟨1, ?_, fun _ => le_rfl⟩
        split_ifs
        · exact ⟨ofi_cirque_discard_eq_drop _, le_rfl, Nat.le_succ _⟩
        · exact ⟨ofi_cirque_discard_eq_drop _, le_rfl, Nat.le_succ _⟩
    | some h =>
      rw [cmd_msg_match ep cmd h hfull hfind]
      have R := msg_common_region ep cmd h
      have S := msg_switch_credit ep cmd (ep.rx_entries h)
      refine ⟨1, ⟨?_, ?_, ?_⟩, fun _ => le_rfl⟩
      · show ofi_cirque_discard (smr_progress_msg_common ep cmd h).1.region.cmd_queue = _
        rw [R, S.1, ofi_cirque_discard_eq_drop]
      · show ep.region.cmd_cnt ≤ (smr_progress_msg_common ep cmd h).1.region.cmd_cnt
        rw [R]; exact S.2.1
      · show (smr_progress_msg_common ep cmd h).1.region.cmd_cnt ≤ _
        rw [R]; exact S.2.2
  · rw [cmd_msg_full ep cmd hfull]
    exact ⟨0, credit_step_refl ep, by simp [FI_ENOSPC]⟩

theorem rma_switch_cmd_queue (ep : smr_ep) (cmd : smr_cmd) (iov : List iovec) (n : Nat)
    (ret : Int) :
    (smr_progress_cmd_rma_switch ep cmd iov n ret).1.region.cmd_queue = ep.region.cmd_queue :=
  (xfer_frame_rma_switch ep cmd iov n ret).cmd_queue

theorem rma_switch_cmd_cnt (ep : smr_ep) (cmd : smr_cmd) (iov : List iovec) (n : Nat)
    (ret : Int) :
    (smr_progress_cmd_rma_switch ep cmd iov n ret).1.region.cmd_cnt = ep.region.cmd_cnt :=
  (xfer_frame_rma_switch ep cmd iov n ret).cmd_cnt

theorem atomic_switch_cmd_queue (ep : smr_ep) (cmd : smr_cmd) (ioc : List fi_ioc) (n : Nat)
    (ret : Int) :
    (smr_progress_cmd_atomic_switch ep cmd ioc n ret).1.region.cmd_queue = ep.region.cmd_queue :=
  (xfer_frame_atomic_switch ep cmd ioc n ret).cmd_queue

theorem atomic_switch_cmd_cnt (ep : smr_ep) (cmd : smr_cmd) (ioc : List fi_ioc) (n : Nat)
    (ret : Int) :
    (smr_progress_cmd_atomic_switch ep cmd ioc n ret).1.region.cmd_cnt = ep.region.cmd_cnt :=
  (xfer_frame_atomic_switch ep cmd ioc n ret).cmd_cnt

theorem ofi_cirque_discard_twice {α : Type} (q : ofi_cirque α) :
    ofi_cirque_discard (ofi_cirque_discard q) = ofi_cirque_drop q 2 := by
  rw [ofi_cirque_discard_eq_drop, ofi_cirque_discard_eq_drop, ofi_cirque_drop_drop]

@[simp] theorem cmd_cnt_inc_cmd_queue (ep : smr_ep) :
    (cmd_cnt_inc ep).region.cmd_queue = ep.region.cmd_queue := rfl

@[simp] theorem cmd_cnt_inc_cmd_cnt (ep : smr_ep) :
    (cmd_cnt_inc ep).region.cmd_cnt = ep.region.cmd_cnt + 1 := rfl

@[simp] theorem cmd_queue_discard_cmd_queue (ep : smr_ep) :
    (cmd_queue_discard ep).region.cmd_queue = ofi_cirque_discard ep.region.cmd_queue := rfl

@[simp] theorem cmd_queue_discard_cmd_cnt (ep : smr_ep) :
    (cmd_queue_discard ep).region.cmd_cnt = ep.region.cmd_cnt := rfl

@[simp] theorem set_resp_status_region (ep : smr_ep) (id off : Nat) (s : Int) :
    (set_resp_status ep id off s).region = ep.region := rfl

theorem cmd_rma_credit (ep : smr_ep) (cmd : smr_cmd) :
    ∃ k, credit_step ep (smr_progress_cmd_rma ep cmd).1 k ∧
      ((smr_progress_cmd_rma ep cmd).2 = 0 → 1 ≤ k) := by
  unfold smr_progress_cmd_rma
  dsimp only
  split_ifs with hg
  · exact ⟨0, credit_step_refl ep, by simp [FI_ENOSPC]⟩
  all_goals
    refine ⟨2, ⟨?_, ?_, ?_⟩, fun _ => by omega⟩
    · simp only [region_complete_rx, set_resp_status_region, rma_switch_cmd_queue,
        cmd_cnt_inc_cmd_queue, cmd_queue_discard_cmd_queue, ofi_cirque_discard_twice]
    · simp only [region_complete_rx, set_resp_status_region, rma_switch_cmd_cnt,
        cmd_cnt_inc_cmd_cnt, cmd_queue_discard_cmd_cnt]; omega
    · simp only [region_complete_rx, set_resp_status_region, rma_switch_cmd_cnt,
        cmd_cnt_inc_cmd_cnt, cmd_queue_discard_cmd_cnt]; omega

theorem cmd_atomic_credit (ep : smr_ep) (cmd : smr_cmd) :
    credit_step ep (smr_progress_cmd_atomic ep cmd).1 2 := by
  unfold smr_progress_cmd_atomic
  dsimp only
  split_ifs with hv hr hc
  all_goals
    refine ⟨?_, ?_, ?_⟩
    · simp only [region_complete_rx, set_resp_status_region, atomic_switch_cmd_queue,
        cmd_cnt_inc_cmd_queue, cmd_queue_discard_cmd_queue, ofi_cirque_discard_twice]
    · simp only [region_complete_rx, set_resp_status_region, atomic_switch_cmd_cnt,
        cmd_cnt_inc_cmd_cnt, cmd_queue_discard_cmd_cnt]; omega
    · simp only [region_complete_rx, set_resp_status_region, atomic_switch_cmd_cnt,
        cmd_cnt_inc_cmd_cnt, cmd_queue_discard_cmd_cnt]; omega

theorem cmd_body_credit (ep : smr_ep) :
    ∃ k, credit_step ep (smr_progress_cmd_body ep).1 k ∧
      ((smr_progress_cmd_body ep).2 = 0 → 1 ≤ k) := by
  unfold smr_progress_cmd_body
  dsimp only
  split
  · exact cmd_msg_credit ep _
  · exact cmd_msg_credit ep _
  · exact cmd_rma_credit ep _
  · exact cmd_rma_credit ep _
  · exact ⟨1, ⟨ofi_cirque_discard_eq_drop _, Nat.le_succ _, le_rfl⟩, fun _ => le_rfl⟩
  · exact ⟨1, ⟨ofi_cirque_discard_eq_drop _, Nat.le_succ _, le_rfl⟩, fun _ => le_rfl⟩
  · exact ⟨2, cmd_atomic_credit ep _, fun _ => by omega⟩
  · exact ⟨2, cmd_atomic_credit ep _, fun _ => by omega⟩
  · exact ⟨2, cmd_atomic_credit ep _, fun _ => by omega⟩
  · exact ⟨0, credit_step_refl ep, by simp [FI_EINVAL]⟩

theorem cmd_loop_credit (fuel : Nat) :
    ∀ ep : smr_ep, ep.region.cmd_queue.items.length < fuel →
      ∃ r k, smr_progress_cmd_loop fuel ep = some r ∧ credit_step ep r.1 k := by
  induction fuel with
  | zero => intro ep h; omega
  | succ n ih =>
    intro ep h
    unfold smr_progress_cmd_loop
    cases hq : ep.region.cmd_queue.items with
    | nil =>
      refine ⟨(ep, 0), 0, ?_, credit_step_refl ep⟩
      simp [ofi_cirque_isempty, hq]
    | cons c rest =>
      obtain ⟨k, hk, hk0⟩ := cmd_body_credit ep
      by_cases hret : (smr_progress_cmd_body ep).2 = 0
      · have hk1 := hk0 hret
        have hlen : (smr_progress_cmd_body ep).1.region.cmd_queue.items.length < n := by
          rw [hk.queue]
          simp only [ofi_cirque_drop, List.length_drop]
          rw [hq] at h ⊢
          simp only [List.length_cons] at h ⊢
          omega
        obtain ⟨r, j, hr, hj⟩ := ih _ hlen
        refine ⟨r, k + j, ?_, credit_step_trans hk hj⟩
        simp [ofi_cirque_isempty, hq, hret, hr]
      · refine ⟨smr_progress_cmd_body ep, k, ?_, hk⟩
        simp [ofi_cirque_isempty, hq, hret]

theorem msg_switch_cmd_cnt (ep : smr_ep) (cmd : smr_cmd) (entry : smr_rx_entry) :
    (smr_progress_msg_common_switch ep cmd entry).1.region.cmd_cnt =
      ep.region.cmd_cnt +
        (match cmd.op_src with
          | smr_src_inline => 1
          | smr_src_inject => 1
          | _ => 0) := by
  unfold smr_progress_msg_common_switch
  cases h : cmd.op_src
  · simp [(xfer_frame_inline ep cmd entry.iov entry.iov_count).cmd_cnt]
  · simp [(xfer_frame_inject ep cmd entry.iov entry.iov_count 0 0).cmd_cnt]
  · simp [(xfer_frame_iov ep cmd entry.iov entry.iov_count 0 0).cmd_cnt]
  · simp [(xfer_frame_mmap ep cmd entry.iov entry.iov_count 0).cmd_cnt]
  · simp

theorem cmd_msg_exact (ep : smr_ep) (cmd : smr_cmd) :
    (smr_progress_cmd_msg ep cmd).1.region.cmd_queue.rcnt + ep.region.cmd_cnt =
      ep.region.cmd_queue.rcnt + (smr_progress_cmd_msg ep cmd).1.region.cmd_cnt +
      (if ofi_cirque_isfull ep.rx_cq then 0
       else
        match dlist_find_first_match
            (if cmd.op = ofi_op_tagged then ep.trecv_queue else ep.recv_queue)
            ep.rx_entries { addr := cmd.addr, tag := cmd.tag, ignore := 0 } with
        | none => if ep.unexp_fs.isEmpty then 0 else 1
        | some _ =>
          match cmd.op_src with
          | smr_src_inline => 0
          | smr_src_inject => 0
          | _ => 1) := by
  cases hfull : ofi_cirque_isfull ep.rx_cq
  · cases hfind : dlist_find_first_match
        (if cmd.op = ofi_op_tagged then ep.trecv_queue else ep.recv_queue)
        ep.rx_entries { addr := cmd.addr, tag := cmd.tag, ignore := 0 } with
    | none =>
      cases hfs : ep.unexp_fs with
      | nil =>
        rw [cmd_msg_eagain ep cmd hfull hfind hfs]
        simp
      | cons u fs =>
        rw [cmd_msg_unexp ep cmd u fs hfull hfind hfs]
        by_cases hop : cmd.op = ofi_op_msg <;>
          simp [hop, unexp_store, ofi_cirque_discard] <;> omega
    | some h =>
      rw [cmd_msg_match ep cmd h hfull hfind]
      simp only [cmd_queue_discard_cmd_queue, cmd_queue_discard_cmd_cnt, msg_common_region,
        msg_switch_cmd_cnt, (msg_switch_credit ep cmd (ep.rx_entries h)).1]
      cases cmd.op_src <;> simp [ofi_cirque_discard] <;> omega
  · rw [cmd_msg_full ep cmd hfull]
    simp

@[simp] theorem cmd_cnt_inc_env (ep : smr_ep) : (cmd_cnt_inc ep).env = ep.env := rfl

@[simp] theorem cmd_queue_discard_env (ep : smr_ep) : (cmd_queue_discard ep).env = ep.env := rfl

theorem ofi_cirque_drop_rcnt {α : Type} (q : ofi_cirque α) (k : Nat) :
    (ofi_cirque_drop q k).rcnt = q.rcnt + k := rfl

theorem cmd_rma_exact (ep : smr_ep) (cmd : smr_cmd) :
    (smr_progress_cmd_rma ep cmd).1.region.cmd_queue.rcnt + ep.region.cmd_cnt =
      ep.region.cmd_queue.rcnt + (smr_progress_cmd_rma ep cmd).1.region.cmd_cnt +
      (if cmd.op_flags &&& SMR_REMOTE_CQ_DATA ≠ 0 ∧ ofi_cirque_isfull ep.rx_cq = true then 0
       else if (smr_rma_verify_loop ep.env cmd.op
          (ofi_cirque_head (ofi_cirque_discard ep.region.cmd_queue))
          (ofi_cirque_head (ofi_cirque_discard ep.region.cmd_queue)).rma_count []).1 ≠ 0 then 0
       else if cmd.op = ofi_op_read_req ∧ cmd.data ≠ 0 then 1
       else 0) := by
  unfold smr_progress_cmd_rma
  dsimp only
  simp only [cmd_cnt_inc_env, cmd_queue_discard_env, cmd_cnt_inc_cmd_queue,
    cmd_queue_discard_cmd_queue]
  split_ifs with hg
  · simp
  all_goals
    simp only [region_complete_rx, set_resp_status_region, rma_switch_cmd_queue,
      rma_switch_cmd_cnt, cmd_cnt_inc_cmd_queue, cmd_queue_discard_cmd_queue,
      cmd_cnt_inc_cmd_cnt, cmd_queue_discard_cmd_cnt, ofi_cirque_discard_twice,
      ofi_cirque_drop_rcnt]
    omega

theorem cmd_atomic_exact (ep : smr_ep) (cmd : smr_cmd) :
    (smr_progress_cmd_atomic ep cmd).1.region.cmd_queue.rcnt + ep.region.cmd_cnt =
      ep.region.cmd_queue.rcnt + (smr_progress_cmd_atomic ep cmd).1.region.cmd_cnt +
      (if (smr_atomic_verify_loop ep.env cmd
          (ofi_cirque_head (ofi_cirque_discard ep.region.cmd_queue))
          (ofi_cirque_head (ofi_cirque_discard ep.region.cmd_queue)).rma_count []).1 ≠ 0 then 0
       else if cmd.data ≠ 0 then 1
       else 0) := by
  unfold smr_progress_cmd_atomic
  dsimp only
  simp only [cmd_cnt_inc_env, cmd_queue_discard_env, cmd_cnt_inc_cmd_queue,
    cmd_queue_discard_cmd_queue]
  split_ifs
  all_goals
    simp only [region_complete_rx, set_resp_status_region, atomic_switch_cmd_queue,
      atomic_switch_cmd_cnt, cmd_cnt_inc_cmd_queue, cmd_queue_discard_cmd_queue,
      cmd_cnt_inc_cmd_cnt, cmd_queue_discard_cmd_cnt, ofi_cirque_discard_twice,
      ofi_cirque_drop_rcnt]
    omega

theorem cmd_body_exact (ep : smr_ep) :
    (smr_progress_cmd_body ep).1.region.cmd_queue.rcnt + ep.region.cmd_cnt =
      ep.region.cmd_queue.rcnt + (smr_progress_cmd_body ep).1.region.cmd_cnt +
        deferred_credit ep := by
  unfold smr_progress_cmd_body deferred_credit
  dsimp only
  cases h : (ofi_cirque_head ep.region.cmd_queue).op
  · have := cmd_msg_exact ep (ofi_cirque_head ep.region.cmd_queue)
    simpa [h] using this
  · have := cmd_msg_exact ep (ofi_cirque_head ep.region.cmd_queue)
    simpa [h] using this
  · have := cmd_rma_exact ep (ofi_cirque_head ep.region.cmd_queue)
    simpa [h] using this
  · have := cmd_rma_exact ep (ofi_cirque_head ep.region.cmd_queue)
    simpa [h] using this
  · simp [ofi_cirque_discard]; omega
  · have := cmd_atomic_exact ep (ofi_cirque_head ep.region.cmd_queue)
    simpa [h] using this
  · have := cmd_atomic_exact ep (ofi_cirque_head ep.region.cmd_queue)
    simpa [h] using this
  · have := cmd_atomic_exact ep (ofi_cirque_head ep.region.cmd_queue)
    simpa [h] using this
  · simp [ofi_cirque_discard]; omega
  · simp

theorem cmd_loop_stop (ep : smr_ep) (cmd : smr_cmd) (rest : List smr_cmd) (r : smr_ep × Int)
    (hq : ep.region.cmd_queue.items = cmd :: rest)
    (hbody : smr_progress_cmd_body ep = r) (hret : r.2 ≠ 0) :
    smr_progress_cmd ep = some r := by
  unfold smr_progress_cmd smr_progress_cmd_loop
  simp [ofi_cirque_isempty, hq, hbody, hret]

theorem ofi_cirque_head_cons {α : Type} (q : ofi_cirque α) (x : α) (rest : List α)
    (hq : q.items = x :: rest) : ofi_cirque_head q = x := by
  simp [ofi_cirque_head, hq]


theorem resp_head_set_status_same (ep : smr_ep) (resp : smr_resp) (rest : List smr_resp)
    (hq : ep.region.resp_queue.items = resp :: rest) :
    resp_head_set_status ep resp.status = ep := by
  obtain ⟨env, ⟨cq, ⟨sz, rc, items, stale⟩, cc, ip, idata⟩, peers⟩ := ep
  simp only at hq
  subst hq
  rfl

theorem resp_loop_stop (ep ep1 : smr_ep) (resp : smr_resp) (rest : List smr_resp)
    (hq : ep.region.resp_queue.items = resp :: rest)
    (hbody : smr_progress_resp_body ep = (ep1, false)) :
    smr_progress_resp ep = some (if ofi_cirque_isfull ep.tx_cq then ep else ep1) := by
  unfold smr_progress_resp smr_progress_resp_loop
  cases hfull : ofi_cirque_isfull ep.tx_cq <;>
    simp [ofi_cirque_isempty, hq, hbody]

/-! ## The atomic descriptor loop -/

theorem smr_ioc_bytes_nil (e : Nat) : smr_ioc_bytes e [] = 0 := rfl

theorem smr_ioc_bytes_cons (e : Nat) (c : fi_ioc) (l : List fi_ioc) :
    smr_ioc_bytes e (c :: l) = c.count * e + smr_ioc_bytes e l := by
  simp [smr_ioc_bytes]

theorem atomic_loop_done (env : smr_env) (cmd : smr_cmd) (src_inj : Option Nat)
    (ioc : List fi_ioc) (len : Nat) (log : List smr_atomic_call) (h : cmd.size ≤ len) :
    smr_atomic_loop env cmd src_inj ioc len log = (log, len) := by
  cases ioc with
  | nil => rfl
  | cons c rest =>
    unfold smr_atomic_loop
    rw [if_neg (by omega)]

theorem atomic_loop_prefix (env : smr_env) (cmd : smr_cmd) (src_inj : Option Nat)
    (pre rest : List fi_ioc) :
    ∀ (len : Nat) (log : List smr_atomic_call),
      len + smr_ioc_bytes (env.ofi_datatype_size cmd.datatype) pre < cmd.size →
      ∃ l, l.length = pre.length ∧
        smr_atomic_loop env cmd src_inj (pre ++ rest) len log =
          smr_atomic_loop env cmd src_inj rest
            (len + smr_ioc_bytes (env.ofi_datatype_size cmd.datatype) pre) (log ++ l) := by
  induction pre with
  | nil =>
    intro len log _
    exact ⟨[], rfl, by simp [smr_ioc_bytes_nil]⟩
  | cons c pre ih =>
    intro len log h
    rw [smr_ioc_bytes_cons] at h
    obtain ⟨l, hl, heq⟩ := ih (len + c.count * env.ofi_datatype_size cmd.datatype)
      (log ++ [atomic_call_at cmd src_inj len c]) (by omega)
    refine ⟨atomic_call_at cmd src_inj len c :: l, by simp [hl], ?_⟩
    rw [List.cons_append, smr_atomic_loop, if_pos (by omega)]
    show smr_atomic_loop env cmd src_inj (pre ++ rest) _ (log ++ [atomic_call_at cmd src_inj len c])
      = _
    rw [heq, smr_ioc_bytes_cons]
    simp [Nat.add_assoc]

theorem atomic_loop_short (env : smr_env) (cmd : smr_cmd) (src_inj : Option Nat)
    (ioc : List fi_ioc) (len : Nat) (log : List smr_atomic_call)
    (h : len + smr_ioc_bytes (env.ofi_datatype_size cmd.datatype) ioc < cmd.size) :
    (smr_atomic_loop env cmd src_inj ioc len log).2 =
      len + smr_ioc_bytes (env.ofi_datatype_size cmd.datatype) ioc := by
  obtain ⟨l, _, heq⟩ := atomic_loop_prefix env cmd src_inj ioc [] len log h
  rw [List.append_nil] at heq
  rw [heq]
  rfl

theorem atomic_loop_exact (env : smr_env) (cmd : smr_cmd) (src_inj : Option Nat)
    (ioc : List fi_ioc) :
    ∀ (len : Nat) (log : List smr_atomic_call),
      len + smr_ioc_bytes (env.ofi_datatype_size cmd.datatype) ioc = cmd.size →
      (smr_atomic_loop env cmd src_inj ioc len log).2 = cmd.size := by
  induction ioc with
  | nil =>
    intro len log h
    rw [smr_ioc_bytes_nil] at h
    simpa [smr_atomic_loop] using h
  | cons c rest ih =>
    intro len log h
    rw [smr_ioc_bytes_cons] at h
    unfold smr_atomic_loop
    split_ifs with hlt
    · exact ih _ _ (by omega)
    · show len = cmd.size
      omega

theorem atomic_loop_overshoot (env : smr_env) (cmd : smr_cmd) (src_inj : Option Nat)
    (pre post : List fi_ioc) (c : fi_ioc) (log : List smr_atomic_call)
    (hlo : smr_ioc_bytes (env.ofi_datatype_size cmd.datatype) pre < cmd.size)
    (hhi : cmd.size < smr_ioc_bytes (env.ofi_datatype_size cmd.datatype) pre +
      c.count * env.ofi_datatype_size cmd.datatype) :
    ∃ l, l.length = pre.length ∧
      smr_atomic_loop env cmd src_inj (pre ++ c :: post) 0 log =
        (log ++ l ++ [atomic_call_at cmd src_inj
            (smr_ioc_bytes (env.ofi_datatype_size cmd.datatype) pre) c],
          smr_ioc_bytes (env.ofi_datatype_size cmd.datatype) pre +
            c.count * env.ofi_datatype_size cmd.datatype) := by
  obtain ⟨l, hl, heq⟩ := atomic_loop_prefix env cmd src_inj pre (c :: post) 0 log (by omega)
  refine ⟨l, hl, ?_⟩
  rw [heq, Nat.zero_add, smr_atomic_loop, if_pos hlo, atomic_loop_done _ _ _ _ _ _ (by omega)]
  rfl

/-! ## Direct copy -/

theorem cmd_atomic_verified (ep : smr_ep) (cmd : smr_cmd)
    (hver : (atomic_targets ep cmd).1 = 0) :
    smr_progress_cmd_atomic ep cmd =
      (if (smr_complete_rx
            (if cmd.data ≠ 0 then
              set_resp_status (atomic_transfer ep cmd).1 cmd.addr cmd.data
                (-(atomic_transfer ep cmd).2.2)
            else cmd_cnt_inc (atomic_transfer ep cmd).1)
            (atomic_completion ep cmd)).2 ≠ 0 then
        smr_complete_rx
          (if cmd.data ≠ 0 then
            set_resp_status (atomic_transfer ep cmd).1 cmd.addr cmd.data
              (-(atomic_transfer ep cmd).2.2)
          else cmd_cnt_inc (atomic_transfer ep cmd).1)
          (atomic_completion ep cmd)
      else
        ((smr_complete_rx
          (if cmd.data ≠ 0 then
            set_resp_status (atomic_transfer ep cmd).1 cmd.addr cmd.data
              (-(atomic_transfer ep cmd).2.2)
          else cmd_cnt_inc (atomic_transfer ep cmd).1)
          (atomic_completion ep cmd)).1, (atomic_transfer ep cmd).2.2)) := by
  unfold atomic_targets at hver
  unfold smr_progress_cmd_atomic atomic_completion atomic_transfer atomic_targets
  dsimp only
  simp only [cmd_cnt_inc_env, cmd_queue_discard_env, cmd_cnt_inc_cmd_queue,
    cmd_queue_discard_cmd_queue]
  rw [if_neg (by rw [hver]; simp), hver]

theorem msg_frame_of_xfer {ep ep1 : smr_ep} (h : xfer_frame ep ep1) : msg_frame ep ep1 :=
  ⟨h.env, h.cmd_queue, h.resp_queue, h.rx_cq, h.tx_cq, h.rx_cntr, h.recv_queue, h.trecv_queue,
    h.unexp_msg_queue, h.unexp_tagged_queue, h.rx_entries, h.recv_fs, h.unexp_entries,
    h.unexp_fs, h.pend_entries, h.pend_fs, h.min_multi_recv_size, h.unlinked⟩

theorem msg_frame_cmd_cnt_inc {ep ep1 : smr_ep} (h : msg_frame ep ep1) :
    msg_frame ep (cmd_cnt_inc ep1) :=
  ⟨h.env, h.cmd_queue, h.resp_queue, h.rx_cq, h.tx_cq, h.rx_cntr, h.recv_queue, h.trecv_queue,
    h.unexp_msg_queue, h.unexp_tagged_queue, h.rx_entries, h.recv_fs, h.unexp_entries,
    h.unexp_fs, h.pend_entries, h.pend_fs, h.min_multi_recv_size, h.unlinked⟩

theorem msg_frame_switch (ep : smr_ep) (cmd : smr_cmd) (entry : smr_rx_entry) :
    msg_frame ep (smr_progress_msg_common_switch ep cmd entry).1 := by
  unfold smr_progress_msg_common_switch
  split
  · exact msg_frame_cmd_cnt_inc (msg_frame_of_xfer (xfer_frame_inline ep cmd _ _))
  · exact msg_frame_cmd_cnt_inc (msg_frame_of_xfer (xfer_frame_inject ep cmd _ _ 0 0))
  · exact msg_frame_of_xfer (xfer_frame_iov ep cmd _ _ 0 0)
  · exact msg_frame_of_xfer (xfer_frame_mmap ep cmd _ _ 0)
  · exact msg_frame_of_xfer (xfer_frame_refl ep)

theorem msg_frame_transfer (ep : smr_ep) (cmd : smr_cmd) (h : Nat) :
    msg_frame ep (msg_transfer ep cmd h).1 :=
  msg_frame_switch ep cmd _

theorem msg_common_single (ep : smr_ep) (cmd : smr_cmd) (h : Nat)
    (hflag : (ep.rx_entries h).flags &&& SMR_MULTI_RECV = 0) :
    smr_progress_msg_common ep cmd h =
      (rx_entry_retire (smr_complete_rx (msg_transferred ep cmd h)
        (msg_completion ep cmd h (msg_comp_flags ep cmd h))).1 h, 1) := by
  unfold smr_progress_msg_common
  dsimp only
  simp only [if_neg (not_not.mpr hflag)]
  rfl

theorem msg_common_multi (ep : smr_ep) (cmd : smr_cmd) (h : Nat)
    (hflag : (ep.rx_entries h).flags &&& SMR_MULTI_RECV ≠ 0) :
    smr_progress_msg_common ep cmd h =
      if (smr_progress_multi_recv (msg_transferred ep cmd h) h (msg_transfer ep cmd h).2.1).2
      then
        (rx_entry_retire (smr_complete_rx
          (smr_progress_multi_recv (msg_transferred ep cmd h) h (msg_transfer ep cmd h).2.1).1
          (msg_completion ep cmd h (msg_comp_flags ep cmd h ||| SMR_MULTI_RECV))).1 h, 1)
      else
        ((smr_complete_rx
          (smr_progress_multi_recv (msg_transferred ep cmd h) h (msg_transfer ep cmd h).2.1).1
          (msg_completion ep cmd h (msg_comp_flags ep cmd h))).1, 0) := by
  unfold smr_progress_msg_common
  dsimp only
  simp only [if_pos hflag]
  unfold msg_transferred msg_transfer msg_completion msg_comp_flags
  split_ifs <;> first | rfl | simp_all

theorem drop_matching_zero (p : Nat → Bool) (l : List Nat) : drop_matching p 0 l = l := by
  cases l <;> rfl

theorem drop_matching_nil (p : Nat → Bool) (k : Nat) : drop_matching p k [] = [] := by
  cases k <;> rfl

theorem drop_matching_add (p : Nat → Bool) :
    ∀ (l : List Nat) (i j : Nat),
      drop_matching p j (drop_matching p i l) = drop_matching p (i + j) l := by
  intro l
  induction l with
  | nil => intro i j; simp [drop_matching_nil]
  | cons x l ih =>
    intro i j
    cases i with
    | zero => simp [drop_matching_zero]
    | succ i =>
      by_cases hx : p x = true
      · have e1 : i + 1 + j = (i + j) + 1 := by omega
        rw [e1]
        simp only [drop_matching, hx, if_true]
        exact ih i j
      · have e1 : i + 1 + j = (i + j) + 1 := by omega
        rw [e1]
        simp only [drop_matching, hx, Bool.false_eq_true, if_false]
        cases j with
        | zero => simp [drop_matching_zero]
        | succ j =>
          simp only [drop_matching, hx, Bool.false_eq_true, if_false]
          have := ih (i + 1) (j + 1)
          rw [this]
          congr 2

theorem drop_matching_filter (p : Nat → Bool) :
    ∀ (l : List Nat) (k : Nat), (drop_matching p k l).filter p = (l.filter p).drop k := by
  intro l
  induction l with
  | nil => intro k; simp [drop_matching_nil]
  | cons x l ih =>
    intro k
    cases k with
    | zero => simp [drop_matching_zero]
    | succ k =>
      by_cases hx : p x = true
      · simp [drop_matching, hx, ih]
      · simp [drop_matching, hx, ih]

theorem drop_matching_filter_not (p : Nat → Bool) :
    ∀ (l : List Nat) (k : Nat),
      (drop_matching p k l).filter (fun x => !p x) = l.filter (fun x => !p x) := by
  intro l
  induction l with
  | nil => intro k; simp [drop_matching_nil]
  | cons x l ih =>
    intro k
    cases k with
    | zero => simp [drop_matching_zero]
    | succ k =>
      by_cases hx : p x = true
      · simp [drop_matching, hx, ih]
      · simp [drop_matching, hx, ih]

theorem find_none_filter (p : Nat → Bool) (l : List Nat) (h : l.find? p = none) :
    l.filter p = [] := by
  rw [List.filter_eq_nil_iff]
  intro a ha
  have := List.find?_eq_none.mp h a ha
  simpa using this

theorem find_some_erase (p : Nat → Bool) :
    ∀ (l : List Nat) (u : Nat), l.find? p = some u →
      l.erase u = drop_matching p 1 l ∧ l.filter p = u :: (drop_matching p 1 l).filter p ∧
      (l.erase u).length + 1 = l.length := by
  intro l
  induction l with
  | nil => intro u h; simp at h
  | cons x l ih =>
    intro u h
    by_cases hx : p x = true
    · rw [List.find?_cons_of_pos _ hx] at h
      injection h with h
      subst h
      simp [drop_matching, hx, drop_matching_zero]
    · have hx' : p x = false := by simpa using hx
      rw [List.find?_cons_of_neg _ hx] at h
      obtain ⟨h1, h2, h3⟩ := ih u h
      have hu : p u = true := by
        have := List.find?_some h
        simpa using this
      have hne : x ≠ u := by
        intro he; rw [he] at hx'; rw [hx'] at hu; exact Bool.noConfusion hu
      refine ⟨?_, ?_, ?_⟩
      · rw [List.erase_cons_tail (by simpa using hne)]
        simp [drop_matching, hx', h1]
      · simp only [drop_matching, hx', Bool.false_eq_true, if_false]
        rw [List.filter_cons_of_neg hx, List.filter_cons_of_neg hx]
        exact h2
      · rw [List.erase_cons_tail (by simpa using hne)]
        simp only [List.length_cons]
        omega

/-! ## What `smr_progress_msg_common` leaves alone -/

theorem common_frame_refl (ep : smr_ep) : common_frame ep ep := by
  constructor <;> rfl

theorem common_frame_trans {a b c : smr_ep} (h1 : common_frame a b) (h2 : common_frame b c) :
    common_frame a c :=
  ⟨h2.env.trans h1.env, h2.cmd_queue.trans h1.cmd_queue, h2.resp_queue.trans h1.resp_queue,
    h2.tx_cq.trans h1.tx_cq, h2.rx_cntr.trans h1.rx_cntr,
    h2.unexp_msg_queue.trans h1.unexp_msg_queue,
    h2.unexp_tagged_queue.trans h1.unexp_tagged_queue,
    h2.unexp_entries.trans h1.unexp_entries, h2.unexp_fs.trans h1.unexp_fs,
    h2.pend_entries.trans h1.pend_entries, h2.pend_fs.trans h1.pend_fs,
    h2.min_multi_recv_size.trans h1.min_multi_recv_size, h2.unlinked.trans h1.unlinked,
    h2.recv_match.trans h1.recv_match, h2.trecv_match.trans h1.trecv_match⟩

theorem common_frame_of_msg {ep ep1 : smr_ep} (h : msg_frame ep ep1) : common_frame ep ep1 :=
  ⟨h.env, h.cmd_queue, h.resp_queue, h.tx_cq, h.rx_cntr, h.unexp_msg_queue,
    h.unexp_tagged_queue, h.unexp_entries, h.unexp_fs, h.pend_entries, h.pend_fs,
    h.min_multi_recv_size, h.unlinked, by rw [h.recv_queue], by rw [h.trecv_queue]⟩

theorem common_frame_set_rx_entry (ep : smr_ep) (h : Nat) (e : smr_rx_entry) :
    common_frame ep (set_rx_entry ep h e) := by
  constructor <;> rfl

theorem common_frame_retire (ep : smr_ep) (h : Nat) : common_frame ep (rx_entry_retire ep h) := by
  constructor <;> rfl

theorem common_frame_complete_rx (ep : smr_ep) (c : smr_rx_comp) :
    common_frame ep (smr_complete_rx ep c).1 := by
  unfold smr_complete_rx
  split_ifs <;> constructor <;> rfl

theorem common_frame_multi_recv (ep : smr_ep) (h len : Nat) :
    common_frame ep (smr_progress_multi_recv ep h len).1 := by
  unfold smr_progress_multi_recv
  dsimp only
  split_ifs <;> constructor <;> rfl

theorem common_frame_transferred (ep : smr_ep) (cmd : smr_cmd) (h : Nat) :
    common_frame ep (msg_transferred ep cmd h) :=
  common_frame_trans (common_frame_of_msg (msg_frame_transfer ep cmd h))
    (common_frame_set_rx_entry _ _ _)

theorem recv_fs_complete_rx (ep : smr_ep) (c : smr_rx_comp) :
    (smr_complete_rx ep c).1.recv_fs = ep.recv_fs := by
  unfold smr_complete_rx
  split_ifs <;> rfl

theorem recv_fs_multi_recv (ep : smr_ep) (h len : Nat) :
    (smr_progress_multi_recv ep h len).1.recv_fs = ep.recv_fs := by
  unfold smr_progress_multi_recv
  dsimp only
  split_ifs <;> rfl

theorem recv_fs_transferred (ep : smr_ep) (cmd : smr_cmd) (h : Nat) :
    (msg_transferred ep cmd h).recv_fs = ep.recv_fs :=
  (msg_frame_transfer ep cmd h).recv_fs

theorem msg_common_frame (ep : smr_ep) (cmd : smr_cmd) (h : Nat) :
    common_frame ep (smr_progress_msg_common ep cmd h).1 ∧
    ((smr_progress_msg_common ep cmd h).2 = 1 ∧
        (smr_progress_msg_common ep cmd h).1.recv_fs = h :: ep.recv_fs ∨
      (smr_progress_msg_common ep cmd h).2 = 0 ∧
        (smr_progress_msg_common ep cmd h).1.recv_fs = ep.recv_fs) := by
  by_cases hflag : (ep.rx_entries h).flags &&& SMR_MULTI_RECV = 0
  · rw [msg_common_single ep cmd h hflag]
    refine ⟨?_, Or.inl ⟨rfl, ?_⟩⟩
    · exact common_frame_trans (common_frame_transferred ep cmd h)
        (common_frame_trans (common_frame_complete_rx _ _) (common_frame_retire _ _))
    · show h :: (smr_complete_rx _ _).1.recv_fs = _
      rw [recv_fs_complete_rx, recv_fs_transferred]
  · rw [msg_common_multi ep cmd h hflag]
    split_ifs with hm
    · refine ⟨?_, Or.inl ⟨rfl, ?_⟩⟩
      · exact common_frame_trans (common_frame_transferred ep cmd h)
          (common_frame_trans (common_frame_multi_recv _ _ _)
            (common_frame_trans (common_frame_complete_rx _ _) (common_frame_retire _ _)))
      · show h :: (smr_complete_rx _ _).1.recv_fs = _
        rw [recv_fs_complete_rx, recv_fs_multi_recv, recv_fs_transferred]
    · refine ⟨?_, Or.inr ⟨rfl, ?_⟩⟩
      · exact common_frame_trans (common_frame_transferred ep cmd h)
          (common_frame_trans (common_frame_multi_recv _ _ _) (common_frame_complete_rx _ _))
      · rw [recv_fs_complete_rx, recv_fs_multi_recv, recv_fs_transferred]

/-! ## The unexpected-queue loop -/

theorem unexp_queue_get_set (ep : smr_ep) (t : Bool) (q : smr_queue smr_cmd) :
    unexp_queue_get (unexp_queue_set ep t q) t = q := by
  cases t <;> rfl

theorem unexp_queue_get_set_other (ep : smr_ep) (t : Bool) (q : smr_queue smr_cmd) :
    unexp_queue_get (unexp_queue_set ep t q) (!t) = unexp_queue_get ep (!t) := by
  cases t <;> rfl

theorem unexp_queue_set_entries (ep : smr_ep) (t : Bool) (q : smr_queue smr_cmd) :
    (unexp_queue_set ep t q).unexp_entries = ep.unexp_entries := by
  cases t <;> rfl

theorem unexp_queue_set_fs (ep : smr_ep) (t : Bool) (q : smr_queue smr_cmd) :
    (unexp_queue_set ep t q).unexp_fs = ep.unexp_fs := by
  cases t <;> rfl

theorem unexp_queue_set_recv_fs (ep : smr_ep) (t : Bool) (q : smr_queue smr_cmd) :
    (unexp_queue_set ep t q).recv_fs = ep.recv_fs := by
  cases t <;> rfl

theorem unexp_queue_get_frame {ep ep1 : smr_ep} (F : common_frame ep ep1) (t : Bool) :
    unexp_queue_get ep1 t = unexp_queue_get ep t := by
  cases t
  · exact F.unexp_msg_queue
  · exact F.unexp_tagged_queue

theorem unexp_remove_none (ep : smr_ep) (t : Bool) (attr : smr_match_attr)
    (hf : (unexp_queue_get ep t).list.find? (unexp_matches ep t attr) = none) :
    dlist_remove_first_match (unexp_queue_get ep t) ep.unexp_entries attr =
      (none, unexp_queue_get ep t) := by
  unfold dlist_remove_first_match dlist_find_first_match
  unfold unexp_matches at hf
  rw [hf]

theorem unexp_remove_some (ep : smr_ep) (t : Bool) (attr : smr_match_attr) (u : Nat)
    (hf : (unexp_queue_get ep t).list.find? (unexp_matches ep t attr) = some u) :
    dlist_remove_first_match (unexp_queue_get ep t) ep.unexp_entries attr =
      (some u, { unexp_queue_get ep t with
        list := drop_matching (unexp_matches ep t attr) 1 (unexp_queue_get ep t).list }) := by
  unfold dlist_remove_first_match dlist_find_first_match
  have := (find_some_erase _ _ u hf).1
  unfold unexp_matches at hf this
  rw [hf]
  simp only [this]
  rfl

theorem unexp_loop_spec (tagged : Bool) (h : Nat) (attr : smr_match_attr) (mr : Nat) :
    ∀ (fuel : Nat) (ep : smr_ep) (u : Nat),
      (unexp_queue_get ep tagged).list.length < fuel →
      ∃ r j, smr_progress_unexp_loop tagged h attr mr fuel ep u = some r ∧
        (r.2 = 0 ∨ r.2 = 1) ∧
        unexp_queue_get r.1 tagged = { unexp_queue_get ep tagged with
          list := drop_matching (unexp_matches ep tagged attr) j
            (unexp_queue_get ep tagged).list } ∧
        unexp_queue_get r.1 (!tagged) = unexp_queue_get ep (!tagged) ∧
        r.1.unexp_entries = ep.unexp_entries ∧
        r.1.unexp_fs =
          (((unexp_queue_get ep tagged).list.filter (unexp_matches ep tagged attr)).take
            j).reverse ++ u :: ep.unexp_fs ∧
        j ≤ ((unexp_queue_get ep tagged).list.filter (unexp_matches ep tagged attr)).length ∧
        (mr = 0 → j = 0) ∧
        (mr ≠ 0 → r.2 = 1 ∨
          j = ((unexp_queue_get ep tagged).list.filter (unexp_matches ep tagged attr)).length) ∧
        (r.2 = 1 → r.1.recv_fs = h :: ep.recv_fs) ∧
        (r.2 = 0 → r.1.recv_fs = ep.recv_fs) := by
  intro fuel
  induction fuel with
  | zero => intro ep u hlt; omega
  | succ n ih =>
    intro ep u hlt
    obtain ⟨F, hR⟩ := msg_common_frame ep (ep.unexp_entries u) h
    have hret : (smr_progress_msg_common ep (ep.unexp_entries u) h).2 = 0 ∨
        (smr_progress_msg_common ep (ep.unexp_entries u) h).2 = 1 := by
      rcases hR with ⟨h1, _⟩ | ⟨h0, _⟩
      · exact Or.inr h1
      · exact Or.inl h0
    -- the endpoint after `freestack_push(ep->unexp_fs, unexp_msg)`
    have hq1 : ∀ t, unexp_queue_get
        (unexp_fs_push (smr_progress_msg_common ep (ep.unexp_entries u) h).1 u) t =
        unexp_queue_get ep t := by
      intro t
      cases t
      · exact F.unexp_msg_queue
      · exact F.unexp_tagged_queue
    unfold smr_progress_unexp_loop
    dsimp only
    by_cases hbrk : mr = 0 ∨ (smr_progress_msg_common ep (ep.unexp_entries u) h).2 ≠ 0
    · rw [if_pos hbrk]
      refine ⟨_, 0, rfl, hret, ?_, hq1 _, F.unexp_entries, ?_, Nat.zero_le _, fun _ => rfl,
        ?_, ?_, ?_⟩
      · rw [hq1, drop_matching_zero]
      · show u :: (smr_progress_msg_common ep (ep.unexp_entries u) h).1.unexp_fs = _
        rw [F.unexp_fs]; simp
      · intro hmr
        rcases hbrk with h0 | h1
        · exact absurd h0 hmr
        · rcases hret with h2 | h2
          · exact absurd h2 h1
          · exact Or.inl h2
      · intro h1
        rcases hR with ⟨_, hfs⟩ | ⟨h0, _⟩
        · exact hfs
        · rw [h0] at h1; exact absurd h1 (by decide)
      · intro h0
        rcases hR with ⟨h1, _⟩ | ⟨_, hfs⟩
        · rw [h1] at h0; exact absurd h0 (by decide)
        · exact hfs
    · rw [if_neg hbrk]
      have hmr : mr ≠ 0 := fun hc => hbrk (Or.inl hc)
      have h0 : (smr_progress_msg_common ep (ep.unexp_entries u) h).2 = 0 := by
        by_contra hc; exact hbrk (Or.inr hc)
      have hfs0 : (smr_progress_msg_common ep (ep.unexp_entries u) h).1.recv_fs = ep.recv_fs := by
        rcases hR with ⟨h1, _⟩ | ⟨_, hfs⟩
        · rw [h1] at h0; exact absurd h0 (by decide)
        · exact hfs
      rw [hq1]
      have hue : (unexp_fs_push (smr_progress_msg_common ep (ep.unexp_entries u) h).1 u).unexp_entries
          = ep.unexp_entries := F.unexp_entries
      rw [hue]
      cases hf : (unexp_queue_get ep tagged).list.find? (unexp_matches ep tagged attr) with
      | none =>
        rw [unexp_remove_none ep tagged attr hf]
        refine ⟨_, 0, rfl, Or.inl h0, ?_, ?_, ?_, ?_, Nat.zero_le _, fun _ => rfl, ?_, ?_, ?_⟩
        · rw [unexp_queue_get_set, drop_matching_zero]
        · rw [unexp_queue_get_set_other, hq1]
        · rw [unexp_queue_set_entries]; exact F.unexp_entries
        · rw [unexp_queue_set_fs]
          show u :: (smr_progress_msg_common ep (ep.unexp_entries u) h).1.unexp_fs = _
          rw [F.unexp_fs]; simp
        · intro _
          right
          rw [find_none_filter _ _ hf]; rfl
        · intro h1
          exact absurd (h0 ▸ h1 : (0 : Int) = 1) (by decide)
        · intro _
          rw [unexp_queue_set_recv_fs]; exact hfs0
      | some u1 =>
        rw [unexp_remove_some ep tagged attr u1 hf]
        obtain ⟨he1, he2, he3⟩ := find_some_erase _ _ u1 hf
        -- the endpoint the next iteration starts from
        have hlen : (drop_matching (unexp_matches ep tagged attr) 1
            (unexp_queue_get ep tagged).list).length < n := by
          rw [← he1]; omega
        have hP : ∀ e2 : smr_ep, unexp_queue_get e2 tagged =
            { unexp_queue_get ep tagged with
              list := drop_matching (unexp_matches ep tagged attr) 1
                (unexp_queue_get ep tagged).list } →
            e2.unexp_entries = ep.unexp_entries →
            unexp_matches e2 tagged attr = unexp_matches ep tagged attr := by
          intro e2 hq he
          funext x
          unfold unexp_matches
          rw [hq, he]
        obtain ⟨r, j, hr, hr01, hrq, hro, hre, hrfs, hj, hj0, hjm, hr1, hr0⟩ :=
          ih (unexp_queue_set
            (unexp_fs_push (smr_progress_msg_common ep (ep.unexp_entries u) h).1 u)
            tagged
            { unexp_queue_get ep tagged with
              list := drop_matching (unexp_matches ep tagged attr) 1
                (unexp_queue_get ep tagged).list }) u1
            (by rw [unexp_queue_get_set]; exact hlen)
        rw [hP _ (unexp_queue_get_set _ _ _)
          (by rw [unexp_queue_set_entries]; exact F.unexp_entries)] at hrq hrfs hj hjm
        rw [unexp_queue_get_set] at hrq hrfs hj hjm
        simp only [drop_matching_add, drop_matching_filter] at hrq hrfs hj hjm
        rw [unexp_queue_get_set_other, hq1] at hro
        rw [unexp_queue_set_entries] at hre
        rw [unexp_queue_set_fs] at hrfs
        rw [unexp_queue_set_recv_fs] at hr1 hr0
        have hfil : ((unexp_queue_get ep tagged).list.filter (unexp_matches ep tagged attr)) =
            u1 :: ((unexp_queue_get ep tagged).list.filter
              (unexp_matches ep tagged attr)).drop 1 := by
          rw [he2, drop_matching_filter]
          simp
        refine ⟨r, 1 + j, hr, hr01, hrq, hro, hre.trans F.unexp_entries, ?_, ?_, ?_, ?_, ?_, ?_⟩
        · rw [hrfs]
          show _ ++ u1 :: u :: (smr_progress_msg_common ep (ep.unexp_entries u) h).1.unexp_fs = _
          rw [F.unexp_fs]
          conv_rhs => rw [hfil]
          rw [Nat.add_comm 1 j, List.take_succ_cons, List.reverse_cons]
          simp
        · rw [hfil]
          simp only [List.length_cons]
          simp only [List.length_drop] at hj ⊢
          omega
        · intro hc; exact absurd hc hmr
        · intro hc
          rcases hjm hc with h1 | h1
          · exact Or.inl h1
          · right
            rw [hfil]
            simp only [List.length_cons, List.length_drop] at h1 ⊢
            omega
        · intro h1
          rw [hr1 h1]
          show h :: (smr_progress_msg_common ep (ep.unexp_entries u) h).1.recv_fs = _
          rw [hfs0]
        · intro h1
          rw [hr0 h1]
          exact hfs0

theorem unexp_queue_spec (ep : smr_ep) (h : Nat) (tagged : Bool) :
    ∃ r k, smr_progress_unexp_queue ep h tagged = some r ∧ r.2 = 0 ∧
      unexp_queue_get r.1 tagged = { unexp_queue_get ep tagged with
        list := drop_matching (unexp_matches ep tagged (rx_match_attr (ep.rx_entries h))) k
          (unexp_queue_get ep tagged).list } ∧
      unexp_queue_get r.1 (!tagged) = unexp_queue_get ep (!tagged) ∧
      r.1.unexp_entries = ep.unexp_entries ∧
      r.1.unexp_fs =
        (((unexp_queue_get ep tagged).list.filter
          (unexp_matches ep tagged (rx_match_attr (ep.rx_entries h)))).take k).reverse ++
          ep.unexp_fs ∧
      k ≤ ((unexp_queue_get ep tagged).list.filter
        (unexp_matches ep tagged (rx_match_attr (ep.rx_entries h)))).length ∧
      (k = 0 ↔ (unexp_queue_get ep tagged).list.filter
        (unexp_matches ep tagged (rx_match_attr (ep.rx_entries h))) = []) ∧
      ((ep.rx_entries h).flags &&& SMR_MULTI_RECV = 0 → k ≤ 1) ∧
      ((ep.rx_entries h).flags &&& SMR_MULTI_RECV ≠ 0 →
        k = ((unexp_queue_get ep tagged).list.filter
          (unexp_matches ep tagged (rx_match_attr (ep.rx_entries h)))).length ∨
        r.1.recv_fs = h :: ep.recv_fs) := by
  unfold smr_progress_unexp_queue
  dsimp only
  cases hf : (unexp_queue_get ep tagged).list.find?
      (unexp_matches ep tagged (rx_match_attr (ep.rx_entries h))) with
  | none =>
    have hd := unexp_remove_none ep tagged (rx_match_attr (ep.rx_entries h)) hf
    unfold rx_match_attr at hd
    rw [hd]
    have hnil := find_none_filter _ _ hf
    refine ⟨(ep, 0), 0, rfl, rfl, ?_, rfl, rfl, ?_, Nat.zero_le _, ?_, fun _ => Nat.zero_le _,
      fun _ => Or.inl ?_⟩
    · rw [drop_matching_zero]
    · simp
    · simp [hnil]
    · rw [hnil]; rfl
  | some u =>
    have hd := unexp_remove_some ep tagged (rx_match_attr (ep.rx_entries h)) u hf
    obtain ⟨he1, he2, he3⟩ := find_some_erase _ _ u hf
    have hfil : ((unexp_queue_get ep tagged).list.filter
        (unexp_matches ep tagged (rx_match_attr (ep.rx_entries h)))) =
        u :: ((unexp_queue_get ep tagged).list.filter
          (unexp_matches ep tagged (rx_match_attr (ep.rx_entries h)))).drop 1 := by
      rw [he2, drop_matching_filter]
      simp
    have hP : unexp_matches (unexp_queue_set ep tagged
        { unexp_queue_get ep tagged with
          list := drop_matching (unexp_matches ep tagged (rx_match_attr (ep.rx_entries h))) 1
            (unexp_queue_get ep tagged).list }) tagged (rx_match_attr (ep.rx_entries h)) =
        unexp_matches ep tagged (rx_match_attr (ep.rx_entries h)) := by
      funext x
      unfold unexp_matches
      rw [unexp_queue_get_set, unexp_queue_set_entries]
    obtain ⟨r, j, hr, hr01, hrq, hro, hre, hrfs, hj, hj0, hjm, hr1, hr0⟩ :=
      unexp_loop_spec tagged h (rx_match_attr (ep.rx_entries h))
        ((ep.rx_entries h).flags &&& SMR_MULTI_RECV)
        ((unexp_queue_get ep tagged).list.length + 1)
        (unexp_queue_set ep tagged
          { unexp_queue_get ep tagged with
            list := drop_matching (unexp_matches ep tagged (rx_match_attr (ep.rx_entries h))) 1
              (unexp_queue_get ep tagged).list }) u
        (by rw [unexp_queue_get_set]; show (drop_matching _ 1 _).length < _; rw [← he1]; omega)
    rw [hP, unexp_queue_get_set] at hrq hrfs hj hjm
    simp only [drop_matching_add, drop_matching_filter] at hrq hrfs hj hjm
    rw [unexp_queue_get_set_other] at hro
    rw [unexp_queue_set_entries] at hre
    rw [unexp_queue_set_fs] at hrfs
    rw [unexp_queue_set_recv_fs] at hr1
    unfold rx_match_attr at hd hr
    rw [hd]
    dsimp only
    rw [hr]
    refine ⟨_, 1 + j, rfl, ?_, hrq, hro, hre, ?_, ?_, ?_, ?_, ?_⟩
    · show (if r.2 < 0 then r.2 else 0) = 0
      rcases hr01 with h0 | h1
      · rw [h0]; rfl
      · rw [h1]; rfl
    · show r.1.unexp_fs = _
      rw [hrfs]
      conv_rhs => rw [hfil]
      rw [Nat.add_comm 1 j, List.take_succ_cons, List.reverse_cons]
      simp
    · rw [hfil]
      simp only [List.length_cons, List.length_drop] at hj ⊢
      omega
    · constructor
      · intro hc; omega
      · intro hc; rw [hc] at hfil; exact absurd hfil (by simp)
    · intro hc
      have := hj0 hc
      omega
    · intro hc
      rcases hjm hc with h1 | h1
      · exact Or.inr (hr1 h1)
      · left
        rw [hfil]
        simp only [List.length_cons, List.length_drop] at h1 ⊢
        omega

/-! ## Scatter and gather -/

theorem complete_rx_mem (ep : smr_ep) (c : smr_rx_comp) :
    (smr_complete_rx ep c).1.mem = ep.mem := by
  unfold smr_complete_rx
  split_ifs <;> rfl

theorem unexp_queue_set_get (ep : smr_ep) (t : Bool) :
    unexp_queue_set ep t (unexp_queue_get ep t) = ep := by
  cases t <;> rfl

theorem resp_entry_frame (ep : smr_ep) (p : smr_tx_entry) (ret : Int) :
    (smr_progress_resp_entry ep p ret).1.region = ep.region ∧
    (smr_progress_resp_entry ep p ret).1.tx_cq = ep.tx_cq ∧
    (smr_progress_resp_entry ep p ret).1.pend_fs = ep.pend_fs ∧
    (smr_progress_resp_entry ep p ret).1.pend_entries = ep.pend_entries ∧
    (smr_progress_resp_entry ep p ret).1.env = ep.env ∧
    ((smr_progress_resp_entry ep p ret).2.2 ≠ 0 → (smr_progress_resp_entry ep p ret).2.1 = ret) := by
  unfold smr_progress_resp_entry smr_progress_resp_entry_push smr_progress_resp_entry_out set_peer
  dsimp only
  cases hl : (ep.peers p.addr).lock_held with
  | true => simp
  | false =>
    simp only [Bool.false_eq_true, if_false]
    cases p.cmd.op_src <;> dsimp only <;> (try split_ifs) <;>
      exact ⟨rfl, rfl, rfl, rfl, rfl, fun h => absurd rfl h⟩

theorem resp_head_set_status_items (ep : smr_ep) (r : smr_resp) (rest : List smr_resp) (s : Int)
    (hq : ep.region.resp_queue.items = r :: rest) :
    (resp_head_set_status ep s).region.resp_queue.items = { r with status := s } :: rest ∧
    (resp_head_set_status ep s).region.resp_queue.rcnt = ep.region.resp_queue.rcnt ∧
    (resp_head_set_status ep s).tx_cq = ep.tx_cq ∧
    (resp_head_set_status ep s).pend_fs = ep.pend_fs ∧
    (resp_head_set_status ep s).pend_entries = ep.pend_entries ∧
    (resp_head_set_status ep s).env = ep.env := by
  unfold resp_head_set_status
  dsimp only
  rw [hq]
  exact ⟨rfl, rfl, rfl, rfl, rfl, rfl⟩

theorem resp_run_none (ep ep' : smr_ep)
    (hq : ep'.region.resp_queue.items.map (fun r => r.msg_id) =
      ep.region.resp_queue.items.map (fun r => r.msg_id))
    (ht : ep'.region.resp_queue.items.tail = ep.region.resp_queue.items.tail)
    (hrc : ep'.region.resp_queue.rcnt = ep.region.resp_queue.rcnt)
    (hcq : ep'.tx_cq = ep.tx_cq) (hfs : ep'.pend_fs = ep.pend_fs)
    (hpe : ep'.pend_entries = ep.pend_entries) (henv : ep'.env = ep.env)
    (hbusy : ∀ r rest, ep.region.resp_queue.items = r :: rest → r.status = FI_EBUSY →
      ep'.region.resp_queue.items = ep.region.resp_queue.items)
    (hclean : (∀ c, ep.env.tx_comp_fault c = 0) →
      ep'.region.resp_queue.items = ep.region.resp_queue.items) :
    resp_run ep ep' [] ep.region.resp_queue.items where
  split := rfl
  ids := hq
  tail := ht
  ready := fun r hr => absurd hr (List.not_mem_nil r)
  comps := by rw [hcq]; simp
  freed := by rw [hfs]; rfl
  discards := by rw [hrc]; rfl
  busy := hbusy
  clean := hclean
  pend := hpe
  env := henv

theorem resp_run_refl (ep : smr_ep) : resp_run ep ep [] ep.region.resp_queue.items :=
  resp_run_none ep ep rfl rfl rfl rfl rfl rfl rfl (fun _ _ _ _ => rfl) (fun _ => rfl)

theorem resp_run_cons (ep N : smr_ep) (r : smr_resp) (rest : List smr_resp) (n : Nat)
    (hitems : ep.region.resp_queue.items = r :: rest) (hbusy : r.status ≠ FI_EBUSY)
    (nitems : N.region.resp_queue.items = rest)
    (nrc : N.region.resp_queue.rcnt = ep.region.resp_queue.rcnt + 1)
    (ncq : N.tx_cq.items.map resp_key = ep.tx_cq.items.map resp_key ++ [pend_key ep r])
    (nfs : N.pend_fs = r.msg_id :: ep.pend_fs)
    (npe : N.pend_entries = ep.pend_entries) (nenv : N.env = ep.env)
    (ih : ∃ ep' pre post, smr_progress_resp_loop n N = some ep' ∧ resp_run N ep' pre post) :
    ∃ ep' pre post, smr_progress_resp_loop n N = some ep' ∧ resp_run ep ep' pre post := by
  obtain ⟨ep', pre, post, hloop, hrun⟩ := ih
  refine ⟨ep', r :: pre, post, hloop, ?_⟩
  exact {
    split := by rw [hitems, List.cons_append, ← hrun.split, nitems]
    ids := hrun.ids
    tail := hrun.tail
    ready := by
      intro x hx
      rcases List.mem_cons.mp hx with h | h
      · rw [h]; exact hbusy
      · exact hrun.ready x h
    comps := by
      rw [hrun.comps, ncq]
      have hk : pend_key N = pend_key ep := by
        funext x
        simp only [pend_key, npe]
      rw [hk]
      simp
    freed := by
      rw [hrun.freed, nfs]
      simp
    discards := by
      rw [hrun.discards, nrc]
      simp only [List.length_cons]
      omega
    busy := hrun.busy
    clean := fun h => hrun.clean (by rw [nenv]; exact h)
    pend := by rw [hrun.pend, npe]
    env := by rw [hrun.env, nenv] }

theorem resp_loop_spec : ∀ (fuel : Nat) (ep : smr_ep),
    ep.region.resp_queue.items.length < fuel →
    ∃ ep' pre post, smr_progress_resp_loop fuel ep = some ep' ∧ resp_run ep ep' pre post := by
  intro fuel
  induction fuel with
  | zero => intro ep h; omega
  | succ n ih =>
    intro ep hlen
    cases hitems : ep.region.resp_queue.items with
    | nil =>
      refine ⟨ep, [], [], ?_, ?_⟩
      · unfold smr_progress_resp_loop
        simp [ofi_cirque_isempty, hitems]
      · have := resp_run_refl ep
        rwa [hitems] at this
    | cons r rest =>
      cases hfull : ofi_cirque_isfull ep.tx_cq with
      | true =>
        refine ⟨ep, [], r :: rest, ?_, ?_⟩
        · unfold smr_progress_resp_loop
          simp [ofi_cirque_isempty, hitems, hfull]
        · have := resp_run_refl ep
          rwa [hitems] at this
      | false =>
        have hguard : (!ofi_cirque_isempty ep.region.resp_queue && !ofi_cirque_isfull ep.tx_cq) = true := by
          simp [ofi_cirque_isempty, hitems, hfull]
        unfold smr_progress_resp_loop
        simp only [hguard, if_true]
        have hhead := ofi_cirque_head_cons ep.region.resp_queue r rest hitems
        unfold smr_progress_resp_body
        dsimp only
        rw [hhead]
        by_cases hbusy : r.status = FI_EBUSY
        · simp only [hbusy, if_true, Bool.false_eq_true, if_false]
          refine ⟨ep, [], r :: rest, rfl, ?_⟩
          have := resp_run_refl ep
          rwa [hitems] at this
        · simp only [hbusy, if_false]
          obtain ⟨fr, fcq, ffs, fpe, fenv, fret⟩ :=
            resp_entry_frame ep (ep.pend_entries r.msg_id) r.status
          generalize hR : smr_progress_resp_entry ep (ep.pend_entries r.msg_id) r.status = R
            at fr fcq ffs fpe fenv fret
          have hRitems : R.1.region.resp_queue.items = r :: rest := by rw [fr]; exact hitems
          obtain ⟨si, src, scq, sfs, spe, senv⟩ :=
            resp_head_set_status_items R.1 r rest R.2.1 hRitems
          generalize hE : resp_head_set_status R.1 R.2.1 = E at si src scq sfs spe senv
          by_cases hret : R.2.2 = 0
          · simp only [hret, ne_eq, not_true_eq_false, if_false]
            have hEfull : ofi_cirque_isfull E.tx_cq = false := by rw [scq, fcq]; exact hfull
            have hCkey : resp_key
                ({ context := (ep.pend_entries r.msg_id).context,
                   op := (ep.pend_entries r.msg_id).cmd.op,
                   flags := (ep.pend_entries r.msg_id).cmd.op_flags, err := -R.2.1 } : smr_tx_comp) =
                pend_key ep r := rfl
            obtain ⟨C, hC⟩ : ∃ C : smr_tx_comp, C =
                ({ context := (ep.pend_entries r.msg_id).context,
                   op := (ep.pend_entries r.msg_id).cmd.op,
                   flags := (ep.pend_entries r.msg_id).cmd.op_flags, err := -R.2.1 } : smr_tx_comp) :=
              ⟨_, rfl⟩
            rw [← hC] at hCkey
            rw [← hC]
            by_cases hf : E.env.tx_comp_fault C = 0
            · -- the completion is posted and the response discarded
              have hc : smr_complete_tx E C =
                  ({ E with tx_cq := ofi_cirque_insert E.tx_cq C }, 0) := by
                unfold smr_complete_tx
                simp only [hEfull, hf, Bool.false_eq_true, if_false, ne_eq, not_true_eq_false]
              rw [hc]
              simp only [ne_eq, not_true_eq_false, if_false, if_true]
              refine resp_run_cons ep _ r rest n hitems hbusy ?_ ?_ ?_ ?_ ?_ ?_ (ih _ ?_)
              · show E.region.resp_queue.items.tail = rest
                rw [si]; rfl
              · show E.region.resp_queue.rcnt + 1 = _
                rw [src, fr]
              · show (E.tx_cq.items ++ [C]).map resp_key = _
                rw [scq, fcq]
                simp [hCkey]
              · show r.msg_id :: E.pend_fs = _
                rw [sfs, ffs]
              · show E.pend_entries = _
                rw [spe, fpe]
              · show E.env = _
                rw [senv, fenv]
              · show E.region.resp_queue.items.tail.length < n
                rw [si]
                rw [hitems] at hlen
                simp only [List.length_cons] at hlen
                simp only [List.tail_cons]
                omega
            · -- the completion writer failed
              have hc : smr_complete_tx E C = (E, E.env.tx_comp_fault C) := by
                unfold smr_complete_tx
                simp only [hEfull, Bool.false_eq_true, if_false, ne_eq, hf, not_false_eq_true,
                  if_true]
              rw [hc]
              simp only [ne_eq, hf, not_false_eq_true, if_true, Bool.false_eq_true, if_false]
              refine ⟨E, [], r :: rest, rfl, ?_⟩
              have := resp_run_none ep E (by rw [si, hitems]; rfl) (by rw [si, hitems]; rfl)
                (by rw [src, fr]) (by rw [scq, fcq]) (by rw [sfs, ffs]) (by rw [spe, fpe])
                (by rw [senv, fenv])
                (fun r0 rest0 h0 hb => by
                  rw [hitems] at h0
                  injection h0 with h1 _
                  exact absurd (h1 ▸ hb) hbusy)
                (fun hnf => by
                  rw [senv, fenv] at hf
                  exact absurd (hnf _) hf)
              rwa [hitems] at this
          · simp only [ne_eq, hret, not_false_eq_true, if_true, Bool.false_eq_true, if_false]
            refine ⟨E, [], r :: rest, rfl, ?_⟩
            have hsame : E.region.resp_queue.items = r :: rest := by
              rw [si, fret hret]
            have := resp_run_none ep E (by rw [hsame, hitems]) (by rw [hsame, hitems])
              (by rw [src, fr]) (by rw [scq, fcq]) (by rw [sfs, ffs]) (by rw [spe, fpe])
              (by rw [senv, fenv]) (fun _ _ _ _ => by rw [hsame, hitems])
              (fun _ => by rw [hsame, hitems])
            rwa [hitems] at this

/-! ## Head-only consumption -/

theorem cmd_slots_cases (op : ofi_op) : cmd_slots op = 1 ∨ cmd_slots op = 2 := by
  cases op <;> simp [cmd_slots]

theorem cmd_queue_paired_head (c : smr_cmd) (rest : List smr_cmd)
    (h : cmd_queue_paired (c :: rest) = true) :
    cmd_slots c.op ≤ (c :: rest).length ∧
    cmd_queue_paired ((c :: rest).drop (cmd_slots c.op)) = true := by
  cases rest with
  | nil =>
    have h1 : cmd_slots c.op = 1 := by simpa [cmd_queue_paired] using h
    rw [h1]
    exact ⟨le_rfl, rfl⟩
  | cons d rest =>
    rcases cmd_slots_cases c.op with h1 | h2
    · rw [h1]
      refine ⟨by simp, ?_⟩
      simpa [cmd_queue_paired, h1] using h
    · rw [h2]
      refine ⟨by simp, ?_⟩
      simpa [cmd_queue_paired, h2] using h

theorem cmd_msg_slots (ep : smr_ep) (cmd : smr_cmd) :
    ∃ k, (k = 0 ∨ k = 1) ∧
      (smr_progress_cmd_msg ep cmd).1.region.cmd_queue = ofi_cirque_drop ep.region.cmd_queue k ∧
      ((smr_progress_cmd_msg ep cmd).2 = 0 → k = 1) := by
  cases hfull : ofi_cirque_isfull ep.rx_cq
  · cases hfind : dlist_find_first_match
        (if cmd.op = ofi_op_tagged then ep.trecv_queue else ep.recv_queue)
        ep.rx_entries { addr := cmd.addr, tag := cmd.tag, ignore := 0 } with
    | none =>
      cases hfs : ep.unexp_fs with
      | nil =>
        rw [cmd_msg_eagain ep cmd hfull hfind hfs]
        exact ⟨0, Or.inl rfl, (ofi_cirque_drop_zero _).symm, by simp [FI_EAGAIN]⟩
      | cons u fs =>
        rw [cmd_msg_unexp ep cmd u fs hfull hfind hfs]
        refine ⟨1, Or.inr rfl, ?_, fun _ => rfl⟩
        split_ifs
        · exact ofi_cirque_discard_eq_drop _
        · exact ofi_cirque_discard_eq_drop _
    | some h =>
      rw [cmd_msg_match ep cmd h hfull hfind]
      have R := msg_common_region ep cmd h
      have S := msg_switch_credit ep cmd (ep.rx_entries h)
      refine ⟨1, Or.inr rfl, ?_, fun _ => rfl⟩
      show ofi_cirque_discard (smr_progress_msg_common ep cmd h).1.region.cmd_queue = _
      rw [R, S.1, ofi_cirque_discard_eq_drop]
  · rw [cmd_msg_full ep cmd hfull]
    exact ⟨0, Or.inl rfl, (ofi_cirque_drop_zero _).symm, by simp [FI_ENOSPC]⟩

theorem cmd_rma_slots (ep : smr_ep) (cmd : smr_cmd) :
    ∃ k, (k = 0 ∨ k = 2) ∧
      (smr_progress_cmd_rma ep cmd).1.region.cmd_queue = ofi_cirque_drop ep.region.cmd_queue k ∧
      ((smr_progress_cmd_rma ep cmd).2 = 0 → k = 2) := by
  unfold smr_progress_cmd_rma
  dsimp only
  split_ifs with hg
  · exact ⟨0, Or.inl rfl, (ofi_cirque_drop_zero _).symm, by simp [FI_ENOSPC]⟩
  all_goals
    refine ⟨2, Or.inr rfl, ?_, fun _ => rfl⟩
    simp only [region_complete_rx, set_resp_status_region, rma_switch_cmd_queue,
      cmd_cnt_inc_cmd_queue, cmd_queue_discard_cmd_queue, ofi_cirque_discard_twice]

theorem cmd_body_slots (ep : smr_ep) (cmd : smr_cmd) (rest : List smr_cmd)
    (hq : ep.region.cmd_queue.items = cmd :: rest) :
    ∃ k, (k = 0 ∨ k = cmd_slots cmd.op) ∧
      (smr_progress_cmd_body ep).1.region.cmd_queue = ofi_cirque_drop ep.region.cmd_queue k ∧
      ((smr_progress_cmd_body ep).2 = 0 → k = cmd_slots cmd.op) := by
  unfold smr_progress_cmd_body
  dsimp only
  rw [ofi_cirque_head_cons _ cmd rest hq]
  cases hop : cmd.op <;> simp only [cmd_slots]
  · exact cmd_msg_slots ep cmd
  · exact cmd_msg_slots ep cmd
  · exact cmd_rma_slots ep cmd
  · exact cmd_rma_slots ep cmd
  · exact ⟨1, Or.inr rfl, ofi_cirque_discard_eq_drop _, fun _ => rfl⟩
  · exact ⟨2, Or.inr rfl, (cmd_atomic_credit ep cmd).queue, fun _ => rfl⟩
  · exact ⟨2, Or.inr rfl, (cmd_atomic_credit ep cmd).queue, fun _ => rfl⟩
  · exact ⟨2, Or.inr rfl, (cmd_atomic_credit ep cmd).queue, fun _ => rfl⟩
  · exact ⟨1, Or.inr rfl, ofi_cirque_discard_eq_drop _, fun _ => rfl⟩
  · exact ⟨0, Or.inl rfl, (ofi_cirque_drop_zero _).symm, by simp [FI_EINVAL]⟩

theorem cmd_loop_head (fuel : Nat) :
    ∀ ep : smr_ep, cmd_queue_paired ep.region.cmd_queue.items = true →
      ep.region.cmd_queue.items.length < fuel →
      ∃ r k, smr_progress_cmd_loop fuel ep = some r ∧
        r.1.region.cmd_queue = ofi_cirque_drop ep.region.cmd_queue k ∧
        k ≤ ep.region.cmd_queue.items.length ∧
        smr_progress_cmd_iters fuel ep ≤ ep.region.cmd_queue.items.length := by
  induction fuel with
  | zero => intro ep _ h; omega
  | succ n ih =>
    intro ep hp h
    unfold smr_progress_cmd_loop smr_progress_cmd_iters
    cases hq : ep.region.cmd_queue.items with
    | nil =>
      refine ⟨(ep, 0), 0, ?_, (ofi_cirque_drop_zero _).symm, le_rfl, ?_⟩
      · simp [ofi_cirque_isempty, hq]
      · simp [ofi_cirque_isempty, hq]
    | cons c rest =>
      rw [hq] at hp h
      obtain ⟨hs, hp1⟩ := cmd_queue_paired_head c rest hp
      obtain ⟨k, hk, hkq, hk0⟩ := cmd_body_slots ep c rest hq
      have hpos : 1 ≤ cmd_slots c.op := by
        rcases cmd_slots_cases c.op with h1 | h1 <;> omega
      by_cases hret : (smr_progress_cmd_body ep).2 = 0
      · have hk1 := hk0 hret
        subst hk1
        have hitems : (smr_progress_cmd_body ep).1.region.cmd_queue.items =
            (c :: rest).drop (cmd_slots c.op) := by
          rw [hkq, ← hq]; rfl
        have hlen : (smr_progress_cmd_body ep).1.region.cmd_queue.items.length < n := by
          rw [hitems, List.length_drop]
          simp only [List.length_cons] at h hs ⊢
          omega
        obtain ⟨r, j, hr, hj, hjle, hit⟩ := ih _ (by rw [hitems]; exact hp1) hlen
        refine ⟨r, cmd_slots c.op + j, ?_, ?_, ?_, ?_⟩
        · simp [ofi_cirque_isempty, hq, hret, hr]
        · rw [hj, hkq, ofi_cirque_drop_drop]
        · rw [hitems, List.length_drop] at hjle
          omega
        · rw [hitems, List.length_drop] at hit
          simp only [ofi_cirque_isempty, hq, List.isEmpty_cons, Bool.not_false, if_true, hret,
            ne_eq, not_true_eq_false, if_false]
          omega
      · refine ⟨smr_progress_cmd_body ep, k, ?_, hkq, ?_, ?_⟩
        · simp [ofi_cirque_isempty, hq, hret]
        · rcases hk with h0 | h0 <;> omega
        · simp [ofi_cirque_isempty, hq, hret]

theorem resp_body_continue (ep : smr_ep) (r : smr_resp) (rest : List smr_resp)
    (hitems : ep.region.resp_queue.items = r :: rest)
    (hfull : ofi_cirque_isfull ep.tx_cq = false)
    (hgo : (smr_progress_resp_body ep).2 = true) :
    (smr_progress_resp_body ep).1.region.resp_queue = ofi_cirque_discard ep.region.resp_queue := by
  have hhead := ofi_cirque_head_cons ep.region.resp_queue r rest hitems
  revert hgo
  unfold smr_progress_resp_body
  dsimp only
  rw [hhead]
  by_cases hbusy : r.status = FI_EBUSY
  · simp [hbusy]
  · simp only [hbusy, if_false]
    obtain ⟨fr, fcq, ffs, fpe, fenv, fret⟩ :=
      resp_entry_frame ep (ep.pend_entries r.msg_id) r.status
    generalize hR : smr_progress_resp_entry ep (ep.pend_entries r.msg_id) r.status = R
      at fr fcq ffs fpe fenv fret
    have hRitems : R.1.region.resp_queue.items = r :: rest := by rw [fr]; exact hitems
    obtain ⟨si, src, scq, sfs, spe, senv⟩ :=
      resp_head_set_status_items R.1 r rest R.2.1 hRitems
    have sq : (resp_head_set_status R.1 R.2.1).region.resp_queue =
        { ep.region.resp_queue with items := { r with status := R.2.1 } :: rest } := by
      unfold resp_head_set_status
      dsimp only
      rw [hRitems, fr]
    generalize hE : resp_head_set_status R.1 R.2.1 = E at si src scq sfs spe senv sq
    by_cases hret : R.2.2 = 0
    · simp only [hret, ne_eq, not_true_eq_false, if_false]
      have hEfull : ofi_cirque_isfull E.tx_cq = false := by rw [scq, fcq]; exact hfull
      obtain ⟨C, hC⟩ : ∃ C : smr_tx_comp, C =
          ({ context := (ep.pend_entries r.msg_id).context,
             op := (ep.pend_entries r.msg_id).cmd.op,
             flags := (ep.pend_entries r.msg_id).cmd.op_flags, err := -R.2.1 } : smr_tx_comp) :=
        ⟨_, rfl⟩
      rw [← hC]
      by_cases hf : E.env.tx_comp_fault C = 0
      · have hc : smr_complete_tx E C =
            ({ E with tx_cq := ofi_cirque_insert E.tx_cq C }, 0) := by
          unfold smr_complete_tx
          simp only [hEfull, hf, Bool.false_eq_true, if_false, ne_eq, not_true_eq_false]
        rw [hc]
        simp only [ne_eq, not_true_eq_false, if_false, if_true]
        intro _
        show ofi_cirque_discard E.region.resp_queue = _
        rw [sq]
        unfold ofi_cirque_discard
        dsimp only
        rw [hitems]
        rfl
      · have hc : smr_complete_tx E C = (E, E.env.tx_comp_fault C) := by
          unfold smr_complete_tx
          simp only [hEfull, Bool.false_eq_true, if_false, ne_eq, hf, not_false_eq_true,
            if_true]
        rw [hc]
        simp [hf]
    · simp [hret]

theorem resp_iters_le (fuel : Nat) :
    ∀ ep : smr_ep, ep.region.resp_queue.items.length < fuel →
      smr_progress_resp_iters fuel ep ≤ ep.region.resp_queue.items.length := by
  induction fuel with
  | zero => intro ep h; omega
  | succ n ih =>
    intro ep h
    unfold smr_progress_resp_iters
    cases hq : ep.region.resp_queue.items with
    | nil => simp [ofi_cirque_isempty, hq]
    | cons r rest =>
      cases hfull : ofi_cirque_isfull ep.tx_cq with
      | true => simp [ofi_cirque_isempty, hq]
      | false =>
        simp only [ofi_cirque_isempty, hq, List.isEmpty_cons, Bool.not_false, Bool.and_self,
          if_true, List.length_cons]
        cases hgo : (smr_progress_resp_body ep).2 with
        | false => simp
        | true =>
          simp only [if_true]
          have hqq := resp_body_continue ep r rest hq hfull hgo
          have hitems : (smr_progress_resp_body ep).1.region.resp_queue.items = rest := by
            rw [hqq]
            unfold ofi_cirque_discard
            dsimp only
            rw [hq]
            rfl
          have hlen : (smr_progress_resp_body ep).1.region.resp_queue.items.length < n := by
            rw [hitems]
            rw [hq] at h
            simp only [List.length_cons] at h
            omega
          have := ih _ hlen
          rw [hitems] at this
          omega

/-! ## The `err` argument of the handlers -/

theorem inject_err_zero (ep : smr_ep) (cmd : smr_cmd) (iov : List iovec) (n tl : Nat) :
    smr_progress_inject ep cmd iov n tl 0 = smr_progress_inject_noerr ep cmd iov n := by
  unfold smr_progress_inject smr_progress_inject_noerr
  simp only [ne_eq, not_true_eq_false, if_false]

theorem iov_err_zero (ep : smr_ep) (cmd : smr_cmd) (iov : List iovec) (n tl : Nat) :
    smr_progress_iov ep cmd iov n tl 0 = smr_progress_iov_noerr ep cmd iov n tl := by
  unfold smr_progress_iov smr_progress_iov_noerr
  simp only [ne_eq, not_true_eq_false, if_false]

theorem inject_atomic_err_zero (ep : smr_ep) (cmd : smr_cmd) (ioc : List fi_ioc) (n tl : Nat) :
    smr_progress_inject_atomic ep cmd ioc n tl 0 = smr_progress_inject_atomic_noerr ep cmd ioc n := by
  unfold smr_progress_inject_atomic smr_progress_inject_atomic_noerr
  simp only [ne_eq, not_true_eq_false, if_false]

theorem msg_switch_noerr (ep : smr_ep) (cmd : smr_cmd) (entry : smr_rx_entry) :
    smr_progress_msg_common_switch ep cmd entry =
      smr_progress_msg_common_switch_noerr ep cmd entry := by
  unfold smr_progress_msg_common_switch smr_progress_msg_common_switch_noerr
  cases cmd.op_src <;> simp only [inject_err_zero, iov_err_zero]

theorem rma_switch_noerr (ep : smr_ep) (cmd : smr_cmd) (iov : List iovec) (n : Nat) :
    smr_progress_cmd_rma_switch ep cmd iov n 0 = smr_progress_cmd_rma_switch_noerr ep cmd iov n := by
  unfold smr_progress_cmd_rma_switch smr_progress_cmd_rma_switch_noerr
  cases cmd.op_src <;> simp only [inject_err_zero, iov_err_zero]

theorem atomic_switch_noerr (ep : smr_ep) (cmd : smr_cmd) (ioc : List fi_ioc) (n : Nat) :
    smr_progress_cmd_atomic_switch ep cmd ioc n 0 =
      smr_progress_cmd_atomic_switch_noerr ep cmd ioc n := by
  unfold smr_progress_cmd_atomic_switch smr_progress_cmd_atomic_switch_noerr
  cases cmd.op_src <;> simp only [inject_atomic_err_zero]

theorem cmd_rma_noerr (ep : smr_ep) (cmd : smr_cmd) :
    smr_progress_cmd_rma ep cmd = smr_progress_cmd_rma_noerr ep cmd := by
  unfold smr_progress_cmd_rma smr_progress_cmd_rma_noerr
  dsimp only
  by_cases hg : cmd.op_flags &&& SMR_REMOTE_CQ_DATA ≠ 0 ∧ ofi_cirque_isfull ep.rx_cq = true
  · rw [if_pos hg, if_pos hg]
  · rw [if_neg hg, if_neg hg]
    by_cases hv : (smr_rma_verify_loop (cmd_cnt_inc (cmd_queue_discard ep)).env cmd.op
        (ofi_cirque_head (cmd_cnt_inc (cmd_queue_discard ep)).region.cmd_queue)
        (ofi_cirque_head (cmd_cnt_inc (cmd_queue_discard ep)).region.cmd_queue).rma_count []).1 = 0
    · rw [if_neg (not_not.mpr hv), if_neg (not_not.mpr hv), hv, rma_switch_noerr]
    · rw [if_pos hv, if_pos hv]

theorem cmd_atomic_noerr (ep : smr_ep) (cmd : smr_cmd) :
    smr_progress_cmd_atomic ep cmd = smr_progress_cmd_atomic_noerr ep cmd := by
  unfold smr_progress_cmd_atomic smr_progress_cmd_atomic_noerr
  dsimp only
  by_cases hv : (smr_atomic_verify_loop (cmd_cnt_inc (cmd_queue_discard ep)).env cmd
      (ofi_cirque_head (cmd_cnt_inc (cmd_queue_discard ep)).region.cmd_queue)
      (ofi_cirque_head (cmd_cnt_inc (cmd_queue_discard ep)).region.cmd_queue).rma_count []).1 = 0
  · rw [if_neg (not_not.mpr hv), if_neg (not_not.mpr hv), hv, atomic_switch_noerr]
  · rw [if_pos hv, if_pos hv]

/-! ## Delivery rounds -/

theorem unexp_queue_get_push (ep : smr_ep) (u : Nat) (t : Bool) :
    unexp_queue_get (unexp_fs_push ep u) t = unexp_queue_get ep t := by
  cases t <;> rfl

theorem remove_some_length {α : Type} (q : smr_queue α) (store : Nat → α)
    (attr : smr_match_attr) (u : Nat)
    (hd : (dlist_remove_first_match q store attr).1 = some u) :
    (dlist_remove_first_match q store attr).2.list.length + 1 = q.list.length := by
  unfold dlist_remove_first_match at hd ⊢
  cases hf : dlist_find_first_match q store attr with
  | none => rw [hf] at hd; exact absurd hd (by simp)
  | some x =>
    have hmem : x ∈ q.list := by
      unfold dlist_find_first_match at hf
      exact List.mem_of_find?_eq_some hf
    simp only [List.length_erase_of_mem hmem]
    have : 0 < q.list.length := List.length_pos_of_mem hmem
    omega

theorem remove_none_queue {α : Type} (q : smr_queue α) (store : Nat → α)
    (attr : smr_match_attr)
    (hd : (dlist_remove_first_match q store attr).1 = none) :
    (dlist_remove_first_match q store attr).2 = q := by
  unfold dlist_remove_first_match at hd ⊢
  cases hf : dlist_find_first_match q store attr with
  | none => rfl
  | some x => rw [hf] at hd; exact absurd hd (by simp)

theorem unexp_round_some (h : Nat) (tagged : Bool) (attr : smr_match_attr) (ep : smr_ep)
    (u : Nat)
    (hd : (dlist_remove_first_match (unexp_queue_get ep tagged) ep.unexp_entries attr).1 =
      some u) :
    unexp_round h tagged attr ep =
      (unexp_fs_push (smr_progress_msg_common
          (unexp_queue_set ep tagged
            (dlist_remove_first_match (unexp_queue_get ep tagged) ep.unexp_entries attr).2)
          ((unexp_queue_set ep tagged
            (dlist_remove_first_match (unexp_queue_get ep tagged) ep.unexp_entries attr).2
            ).unexp_entries u) h).1 u,
        (smr_progress_msg_common
          (unexp_queue_set ep tagged
            (dlist_remove_first_match (unexp_queue_get ep tagged) ep.unexp_entries attr).2)
          ((unexp_queue_set ep tagged
            (dlist_remove_first_match (unexp_queue_get ep tagged) ep.unexp_entries attr).2
            ).unexp_entries u) h).2) := by
  unfold unexp_round
  simp only [hd]

theorem unexp_round_none (h : Nat) (tagged : Bool) (attr : smr_match_attr) (ep : smr_ep)
    (hd : (dlist_remove_first_match (unexp_queue_get ep tagged) ep.unexp_entries attr).1 =
      none) :
    unexp_round h tagged attr ep = (ep, 0) := by
  unfold unexp_round
  simp only [hd]

theorem unexp_round_retire (h : Nat) (tagged : Bool) (attr : smr_match_attr) (ep : smr_ep) :
    (unexp_round h tagged attr ep).2 = 1 ∧
        (unexp_round h tagged attr ep).1.recv_fs = h :: ep.recv_fs ∨
      (unexp_round h tagged attr ep).2 = 0 ∧
        (unexp_round h tagged attr ep).1.recv_fs = ep.recv_fs := by
  cases hd : (dlist_remove_first_match (unexp_queue_get ep tagged) ep.unexp_entries attr).1 with
  | none =>
    rw [unexp_round_none h tagged attr ep hd]
    exact Or.inr ⟨rfl, rfl⟩
  | some u =>
    rw [unexp_round_some h tagged attr ep u hd]
    obtain ⟨_, hR⟩ := msg_common_frame
      (unexp_queue_set ep tagged
        (dlist_remove_first_match (unexp_queue_get ep tagged) ep.unexp_entries attr).2)
      ((unexp_queue_set ep tagged
        (dlist_remove_first_match (unexp_queue_get ep tagged) ep.unexp_entries attr).2
        ).unexp_entries u) h
    rw [unexp_queue_set_recv_fs] at hR
    exact hR

theorem unexp_loop_rounds (tagged : Bool) (h : Nat) (attr : smr_match_attr) (mr : Nat) :
    ∀ (fuel : Nat) (ep : smr_ep) (u : Nat),
      (dlist_remove_first_match (unexp_queue_get ep tagged) ep.unexp_entries attr).1 = some u →
      (unexp_queue_get ep tagged).list.length ≤ fuel →
      ∃ r j, smr_progress_unexp_loop tagged h attr mr fuel
          (unexp_queue_set ep tagged
            (dlist_remove_first_match (unexp_queue_get ep tagged) ep.unexp_entries attr).2)
          u = some r ∧
        r.1 = unexp_rounds h tagged attr (j + 1) ep ∧
        r.2 = (unexp_round h tagged attr (unexp_rounds h tagged attr j ep)).2 ∧
        (∀ i, i < j → (unexp_round h tagged attr (unexp_rounds h tagged attr i ep)).2 = 0) ∧
        (mr = 0 → j = 0) ∧
        (mr ≠ 0 → r.2 = 0 →
          (dlist_remove_first_match (unexp_queue_get r.1 tagged) r.1.unexp_entries attr).1 =
            none) ∧
        r.1.unexp_fs.length = ep.unexp_fs.length + (j + 1) := by
  intro fuel
  induction fuel with
  | zero =>
    intro ep u hd hlen
    have := remove_some_length _ _ _ u hd
    omega
  | succ n ih =>
    intro ep u hd hlen
    have hround := unexp_round_some h tagged attr ep u hd
    have hlen1 := remove_some_length _ _ _ u hd
    obtain ⟨F, _⟩ := msg_common_frame
      (unexp_queue_set ep tagged
        (dlist_remove_first_match (unexp_queue_get ep tagged) ep.unexp_entries attr).2)
      ((unexp_queue_set ep tagged
        (dlist_remove_first_match (unexp_queue_get ep tagged) ep.unexp_entries attr).2
        ).unexp_entries u) h
    -- the endpoint and value the first round leaves
    generalize hE : unexp_queue_set ep tagged
      (dlist_remove_first_match (unexp_queue_get ep tagged) ep.unexp_entries attr).2 = E
      at hround F
    have hEq : unexp_queue_get E tagged =
        (dlist_remove_first_match (unexp_queue_get ep tagged) ep.unexp_entries attr).2 := by
      rw [← hE, unexp_queue_get_set]
    have hEfs : E.unexp_fs = ep.unexp_fs := by rw [← hE, unexp_queue_set_fs]
    have h1 : (unexp_round h tagged attr ep).1 =
        unexp_fs_push (smr_progress_msg_common E (E.unexp_entries u) h).1 u := by
      rw [hround]
    have h2 : (unexp_round h tagged attr ep).2 =
        (smr_progress_msg_common E (E.unexp_entries u) h).2 := by
      rw [hround]
    have hfs1 : (unexp_round h tagged attr ep).1.unexp_fs.length = ep.unexp_fs.length + 1 := by
      rw [h1]
      show (u :: (smr_progress_msg_common E (E.unexp_entries u) h).1.unexp_fs).length = _
      rw [F.unexp_fs, hEfs]
      rfl
    have hq1 : (unexp_queue_get (unexp_round h tagged attr ep).1 tagged).list.length ≤ n := by
      rw [h1, unexp_queue_get_push, unexp_queue_get_frame F, hEq]
      omega
    unfold smr_progress_unexp_loop
    dsimp only
    rw [← h1, ← h2]
    by_cases hbrk : mr = 0 ∨ (unexp_round h tagged attr ep).2 ≠ 0
    · rw [if_pos hbrk]
      refine ⟨_, 0, rfl, rfl, rfl, fun i hi => absurd hi (Nat.not_lt_zero i), fun _ => rfl,
        ?_, hfs1⟩
      intro hmr h0
      rcases hbrk with hb | hb
      · exact absurd hb hmr
      · exact absurd h0 hb
    · rw [if_neg hbrk]
      have hmr : mr ≠ 0 := fun hc => hbrk (Or.inl hc)
      have h0 : (unexp_round h tagged attr ep).2 = 0 := by
        by_contra hc; exact hbrk (Or.inr hc)
      cases hd1 : (dlist_remove_first_match
          (unexp_queue_get (unexp_round h tagged attr ep).1 tagged)
          (unexp_round h tagged attr ep).1.unexp_entries attr).1 with
      | none =>
        simp only [hd1]
        rw [remove_none_queue _ _ _ hd1, unexp_queue_set_get]
        refine ⟨_, 0, rfl, rfl, rfl, fun i hi => absurd hi (Nat.not_lt_zero i),
          fun hc => absurd hc hmr, fun _ _ => hd1, hfs1⟩
      | some u1 =>
        simp only [hd1]
        obtain ⟨r, j, hr, hr1, hr2, hri, _, hrn, hrfs⟩ :=
          ih (unexp_round h tagged attr ep).1 u1 hd1 hq1
        refine ⟨r, j + 1, hr, hr1, hr2, ?_, fun hc => absurd hc hmr, hrn, ?_⟩
        · intro i hi
          cases i with
          | zero => exact h0
          | succ i => exact hri i (by omega)
        · rw [hrfs, hfs1]
          omega

theorem unexp_queue_rounds (ep : smr_ep) (h : Nat) (tagged : Bool) :
    ∃ r k, smr_progress_unexp_queue ep h tagged = some r ∧
      r.1 = unexp_rounds h tagged (rx_match_attr (ep.rx_entries h)) k ep ∧
      r.1.unexp_fs.length = ep.unexp_fs.length + k ∧
      (∀ i, i + 1 < k →
        (unexp_round h tagged (rx_match_attr (ep.rx_entries h))
          (unexp_rounds h tagged (rx_match_attr (ep.rx_entries h)) i ep)).2 = 0) ∧
      ((ep.rx_entries h).flags &&& SMR_MULTI_RECV ≠ 0 → 0 < k →
        (unexp_round h tagged (rx_match_attr (ep.rx_entries h))
          (unexp_rounds h tagged (rx_match_attr (ep.rx_entries h)) (k - 1) ep)).2 = 0 →
        (dlist_remove_first_match (unexp_queue_get r.1 tagged) r.1.unexp_entries
          (rx_match_attr (ep.rx_entries h))).1 = none) := by
  unfold smr_progress_unexp_queue
  dsimp only
  show ∃ r k, (match (dlist_remove_first_match (unexp_queue_get ep tagged) ep.unexp_entries
      (rx_match_attr (ep.rx_entries h))).1 with
    | none => some (ep, 0)
    | some u => (smr_progress_unexp_loop tagged h (rx_match_attr (ep.rx_entries h))
        ((ep.rx_entries h).flags &&& SMR_MULTI_RECV)
        ((unexp_queue_get ep tagged).list.length + 1)
        (unexp_queue_set ep tagged (dlist_remove_first_match (unexp_queue_get ep tagged)
          ep.unexp_entries (rx_match_attr (ep.rx_entries h))).2) u).map
        (fun r => (r.1, if r.2 < 0 then r.2 else 0))) = some r ∧ _
  cases hd : (dlist_remove_first_match (unexp_queue_get ep tagged) ep.unexp_entries
      (rx_match_attr (ep.rx_entries h))).1 with
  | none =>
    refine ⟨(ep, 0), 0, rfl, rfl, rfl, fun i hi => absurd hi (by omega),
      fun _ hk => absurd hk (by omega)⟩
  | some u =>
    obtain ⟨r, j, hr, hr1, hr2, hri, _, hrn, hrfs⟩ :=
      unexp_loop_rounds tagged h (rx_match_attr (ep.rx_entries h))
        ((ep.rx_entries h).flags &&& SMR_MULTI_RECV)
        ((unexp_queue_get ep tagged).list.length + 1) ep u hd (Nat.le_succ _)
    simp only [hr, Option.map_some']
    refine ⟨_, j + 1, rfl, hr1, hrfs, ?_, ?_⟩
    · intro i hi
      exact hri i (by omega)
    · intro hmr _ h0
      rw [Nat.add_sub_cancel] at h0
      exact hrn hmr (hr2.trans h0)

theorem unexp_rounds_succ (h : Nat) (tagged : Bool) (attr : smr_match_attr) :
    ∀ (n : Nat) (ep : smr_ep),
      unexp_rounds h tagged attr (n + 1) ep =
        (unexp_round h tagged attr (unexp_rounds h tagged attr n ep)).1 := by
  intro n
  induction n with
  | zero => intro ep; rfl
  | succ n ih =>
    intro ep
    show unexp_rounds h tagged attr (n + 1) (unexp_round h tagged attr ep).1 = _
    rw [ih]
    rfl

theorem unexp_remove_none_filter (ep : smr_ep) (t : Bool) (attr : smr_match_attr)
    (hd : (dlist_remove_first_match (unexp_queue_get ep t) ep.unexp_entries attr).1 = none) :
    (unexp_queue_get ep t).list.filter (unexp_matches ep t attr) = [] := by
  apply find_none_filter
  unfold dlist_remove_first_match dlist_find_first_match at hd
  unfold unexp_matches
  cases hf : (unexp_queue_get ep t).list.find?
      (fun u => (unexp_queue_get ep t).match_func (ep.unexp_entries u) attr) with
  | none => rfl
  | some x => rw [hf] at hd; exact absurd hd (by simp)

/-! ## Credit accounting (C1) -/

/-- C1, as stated, fails: the command loop run on a queue holding one tagged
send that no posted receive matches discards the slot (`rcnt` goes from 0 to
1) and leaves `cmd_cnt` at 0. -/
theorem C1_counterexample :
    ep_unmatched_send.region.cmd_cnt = 0 ∧ ep_unmatched_send.region.cmd_queue.rcnt = 0 ∧
    (smr_progress_cmd ep_unmatched_send).map
      (fun r => (r.1.region.cmd_cnt, r.1.region.cmd_queue.rcnt)) = some (0, 1) := by
  refine ⟨rfl, rfl, ?_⟩
  decide

/-- C1, amended: every run of `smr_progress_cmd` returns, never lowers
`cmd_cnt` and raises it by at most the number of command-queue slots it
discards, so a run that discards nothing (the head is left for retry) raises
nothing; and in each iteration the slots discarded are the credits given plus
the credits deferred by that command (`deferred_credit`). -/
theorem C1_credit_at_most_slots (ep : smr_ep) :
    (∃ r, smr_progress_cmd ep = some r ∧
      ep.region.cmd_cnt ≤ r.1.region.cmd_cnt ∧
      ep.region.cmd_queue.rcnt ≤ r.1.region.cmd_queue.rcnt ∧
      r.1.region.cmd_cnt - ep.region.cmd_cnt ≤
        r.1.region.cmd_queue.rcnt - ep.region.cmd_queue.rcnt) ∧
    (smr_progress_cmd_body ep).1.region.cmd_queue.rcnt + ep.region.cmd_cnt =
      ep.region.cmd_queue.rcnt + (smr_progress_cmd_body ep).1.region.cmd_cnt +
        deferred_credit ep := by
  refine ⟨?_, cmd_body_exact ep⟩
  obtain ⟨r, k, hr, hk⟩ := cmd_loop_credit (ep.region.cmd_queue.items.length + 1) ep
    (Nat.lt_succ_self _)
  refine ⟨r, hr, hk.mono, ?_, ?_⟩
  · rw [hk.queue, ofi_cirque_drop_rcnt]
    omega
  · rw [hk.queue, ofi_cirque_drop_rcnt]
    have := hk.bound
    omega

/-! ## Inject buffer release (C2) -/

/-- C2, evaluated at an RMA write with an inject payload whose target range
the verifier rejects: the loop stops with the verifier's error, both slots
are gone, and the inject pool is as it was (the buffer at offset 3 is not
pushed); no response status is written on this path either. -/
theorem C2_inject_buffer_not_released :
    ep_rma_rejected.region.inject_pool = [] ∧
    (smr_progress_cmd ep_rma_rejected).map
      (fun r => (r.2, r.1.region.inject_pool, r.1.region.cmd_queue.items.length,
        (r.1.peers 0).inject_pool, (r.1.peers 0).resp_status 0)) =
      some (-13, [], 0, [], 0) := by
  refine ⟨rfl, ?_⟩
  decide

/-! ## Unexpected-pool exhaustion (C3) -/

/-- C3, as stated, fails: with the receive completion queue full the same
situation yields `-FI_ENOSPC`, not `-FI_EAGAIN`. -/
theorem C3_counterexample :
    dlist_find_first_match ep_unexp_exhausted_cq_full.trecv_queue
      ep_unexp_exhausted_cq_full.rx_entries { addr := 0, tag := 7, ignore := 0 } = none ∧
    ep_unexp_exhausted_cq_full.unexp_fs = [] ∧
    (smr_progress_cmd_msg ep_unexp_exhausted_cq_full
      (ofi_cirque_head ep_unexp_exhausted_cq_full.region.cmd_queue)).2 = -FI_ENOSPC ∧
    -FI_ENOSPC ≠ -FI_EAGAIN := by
  decide

/-- C3, amended: if the head command is a message or tagged send, no posted
receive matches it and the unexpected-message pool is empty, then
`smr_progress_cmd_msg` changes nothing and returns `-FI_EAGAIN`, or
`-FI_ENOSPC` when the receive completion queue is full; `smr_progress_cmd`
stops with that value and the same endpoint, so the command is again the head
of the command queue on the next call. -/
theorem C3_unexp_exhaustion_retries (ep : smr_ep) (cmd : smr_cmd) (rest : List smr_cmd)
    (hq : ep.region.cmd_queue.items = cmd :: rest)
    (hop : cmd.op = ofi_op_msg ∨ cmd.op = ofi_op_tagged)
    (hfind : dlist_find_first_match
      (if cmd.op = ofi_op_tagged then ep.trecv_queue else ep.recv_queue)
      ep.rx_entries { addr := cmd.addr, tag := cmd.tag, ignore := 0 } = none)
    (hfs : ep.unexp_fs = []) :
    smr_progress_cmd_msg ep cmd =
      (ep, if ofi_cirque_isfull ep.rx_cq then -FI_ENOSPC else -FI_EAGAIN) ∧
    smr_progress_cmd ep =
      some (ep, if ofi_cirque_isfull ep.rx_cq then -FI_ENOSPC else -FI_EAGAIN) ∧
    ofi_cirque_head ep.region.cmd_queue = cmd := by
  have hhead : ofi_cirque_head ep.region.cmd_queue = cmd := by
    simp [ofi_cirque_head, hq]
  have hmsg : smr_progress_cmd_msg ep cmd =
      (ep, if ofi_cirque_isfull ep.rx_cq then -FI_ENOSPC else -FI_EAGAIN) := by
    cases hfull : ofi_cirque_isfull ep.rx_cq
    · rw [cmd_msg_eagain ep cmd hfull hfind hfs]; simp
    · rw [cmd_msg_full ep cmd hfull]; simp
  have hne : (if ofi_cirque_isfull ep.rx_cq then -FI_ENOSPC else -FI_EAGAIN) ≠ 0 := by
    split_ifs <;> decide
  have hbody : smr_progress_cmd_body ep =
      (ep, if ofi_cirque_isfull ep.rx_cq then -FI_ENOSPC else -FI_EAGAIN) := by
    unfold smr_progress_cmd_body
    rw [hhead]
    rcases hop with h | h <;> simp only [h] <;> exact hmsg
  refine ⟨hmsg, ?_, hhead⟩
  unfold smr_progress_cmd smr_progress_cmd_loop
  simp [ofi_cirque_isempty, hq, hbody, hne]

/-- C3 at one tagged send with the unexpected pool empty and room in the
completion queue. -/
theorem C3_unexp_exhaustion_retries_witness :
    smr_progress_cmd_msg ep_unexp_exhausted
        (mk_cmd ofi_op_tagged smr_src_inline 4 7 [1, 2, 3, 4]) =
      (ep_unexp_exhausted, if ofi_cirque_isfull ep_unexp_exhausted.rx_cq then -FI_ENOSPC
        else -FI_EAGAIN) ∧
    smr_progress_cmd ep_unexp_exhausted =
      some (ep_unexp_exhausted, if ofi_cirque_isfull ep_unexp_exhausted.rx_cq then -FI_ENOSPC
        else -FI_EAGAIN) ∧
    ofi_cirque_head ep_unexp_exhausted.region.cmd_queue =
      mk_cmd ofi_op_tagged smr_src_inline 4 7 [1, 2, 3, 4] :=
  C3_unexp_exhaustion_retries ep_unexp_exhausted
    (mk_cmd ofi_op_tagged smr_src_inline 4 7 [1, 2, 3, 4]) [] rfl (Or.inr rfl) (by decide) rfl

/-! ## Unrecognised operation kind (C12) -/

/-- C12: if the head command's operation kind is none of the kinds the
dispatch names, `smr_progress_cmd` returns at once with `ret = -FI_EINVAL` and
the endpoint exactly as it was: nothing discarded, `cmd_cnt` unchanged, no
completion posted, nothing behind the head touched. -/
theorem C12_unknown_kind_stops (ep : smr_ep) (cmd : smr_cmd) (rest : List smr_cmd) (v : Nat)
    (hq : ep.region.cmd_queue.items = cmd :: rest) (hop : cmd.op = ofi_op_other v) :
    smr_progress_cmd ep = some (ep, -FI_EINVAL) := by
  apply cmd_loop_stop ep cmd rest _ hq
  · unfold smr_progress_cmd_body
    rw [ofi_cirque_head_cons _ cmd rest hq]
    simp only [hop]
  · show (-FI_EINVAL : Int) ≠ 0
    decide

/-- C12 at a queue whose head has operation kind 77, with an async notice
behind it. -/
theorem C12_unknown_kind_stops_witness :
    smr_progress_cmd (with_cmds ep_idle
        [mk_cmd (ofi_op_other 77) smr_src_inline 0 0 [],
         mk_cmd ofi_op_write_async smr_src_inline 0 0 []]) =
      some (with_cmds ep_idle
        [mk_cmd (ofi_op_other 77) smr_src_inline 0 0 [],
         mk_cmd ofi_op_write_async smr_src_inline 0 0 []], -FI_EINVAL) :=
  C12_unknown_kind_stops _ (mk_cmd (ofi_op_other 77) smr_src_inline 0 0 [])
    [mk_cmd ofi_op_write_async smr_src_inline 0 0 []] 77 rfl rfl

/-! ## Full receive completion queue (C17) -/

/-- C17, as stated, fails: with the receive completion queue full, an inline
RMA write without `SMR_REMOTE_CQ_DATA` is consumed all the same: both slots
are discarded, `cmd_cnt` goes from 0 to 2 and the payload is stored at the
target address. -/
theorem C17_counterexample :
    ofi_cirque_isfull ep_rma_write_cq_full.rx_cq = true ∧
    ep_rma_write_cq_full.region.cmd_cnt = 0 ∧
    ep_rma_write_cq_full.mem 4096 = 0 ∧
    (smr_progress_cmd ep_rma_write_cq_full).map
      (fun r => (r.1.region.cmd_queue.rcnt, r.1.region.cmd_cnt, r.1.mem 4096, r.1.mem 4099)) =
      some (2, 2, 9, 6) := by
  decide

/-- C17, amended: when the receive completion queue is full and the head
command is a message or tagged send, or an RMA write or read-request carrying
`SMR_REMOTE_CQ_DATA`, `smr_progress_cmd` stops at the head with `-FI_ENOSPC`
and the endpoint exactly as it was. -/
theorem C17_full_cq_blocks_guarded_kinds (ep : smr_ep) (cmd : smr_cmd) (rest : List smr_cmd)
    (hq : ep.region.cmd_queue.items = cmd :: rest)
    (hfull : ofi_cirque_isfull ep.rx_cq = true)
    (hkind : cmd.op = ofi_op_msg ∨ cmd.op = ofi_op_tagged ∨
      ((cmd.op = ofi_op_write ∨ cmd.op = ofi_op_read_req) ∧
        cmd.op_flags &&& SMR_REMOTE_CQ_DATA ≠ 0)) :
    smr_progress_cmd ep = some (ep, -FI_ENOSPC) := by
  apply cmd_loop_stop ep cmd rest _ hq
  · unfold smr_progress_cmd_body
    rw [ofi_cirque_head_cons _ cmd rest hq]
    have hrma : cmd.op_flags &&& SMR_REMOTE_CQ_DATA ≠ 0 →
        smr_progress_cmd_rma ep cmd = (ep, -FI_ENOSPC) := by
      intro hf
      unfold smr_progress_cmd_rma
      rw [if_pos ⟨hf, hfull⟩]
    rcases hkind with h | h | ⟨h | h, hf⟩
    · simp only [h]; exact cmd_msg_full ep cmd hfull
    · simp only [h]; exact cmd_msg_full ep cmd hfull
    · simp only [h]; exact hrma hf
    · simp only [h]; exact hrma hf
  · show (-FI_ENOSPC : Int) ≠ 0
    decide

/-- C17 at a tagged send facing a full receive completion queue. -/
theorem C17_full_cq_blocks_guarded_kinds_witness :
    smr_progress_cmd ep_unexp_exhausted_cq_full =
      some (ep_unexp_exhausted_cq_full, -FI_ENOSPC) :=
  C17_full_cq_blocks_guarded_kinds ep_unexp_exhausted_cq_full
    (mk_cmd ofi_op_tagged smr_src_inline 4 7 [1, 2, 3, 4]) [] rfl (by decide)
    (Or.inr (Or.inl rfl))

/-! ## Rejected target ranges (C18) -/

/-- C18: when the verifier rejects a target range of an RMA command (the
command got past the completion-queue guard, so the verifier ran),
`smr_progress_cmd_rma` leaves the endpoint as it was except for two discarded
command-queue slots and `cmd_cnt` raised by 2 (no handler ran, no response
status written, no completion posted), returns the verifier's error, and
`smr_progress_cmd` stops with it; `smr_progress_cmd_atomic` does the same on
a rejected atomic target range. -/
theorem C18_rejected_target_double_credit (ep : smr_ep) (cmd : smr_cmd) (rest : List smr_cmd)
    (hq : ep.region.cmd_queue.items = cmd :: rest) :
    ((cmd.op = ofi_op_write ∨ cmd.op = ofi_op_read_req) →
      ¬(cmd.op_flags &&& SMR_REMOTE_CQ_DATA ≠ 0 ∧ ofi_cirque_isfull ep.rx_cq = true) →
      (smr_rma_verify_loop ep.env cmd.op
        (ofi_cirque_head (ofi_cirque_discard ep.region.cmd_queue))
        (ofi_cirque_head (ofi_cirque_discard ep.region.cmd_queue)).rma_count []).1 ≠ 0 →
      smr_progress_cmd_rma ep cmd =
        ({ ep with region := { ep.region with
            cmd_queue := ofi_cirque_drop ep.region.cmd_queue 2,
            cmd_cnt := ep.region.cmd_cnt + 2 } },
          (smr_rma_verify_loop ep.env cmd.op
            (ofi_cirque_head (ofi_cirque_discard ep.region.cmd_queue))
            (ofi_cirque_head (ofi_cirque_discard ep.region.cmd_queue)).rma_count []).1) ∧
      smr_progress_cmd ep = some (smr_progress_cmd_rma ep cmd)) ∧
    ((cmd.op = ofi_op_atomic ∨ cmd.op = ofi_op_atomic_fetch ∨ cmd.op = ofi_op_atomic_compare) →
      (smr_atomic_verify_loop ep.env cmd
        (ofi_cirque_head (ofi_cirque_discard ep.region.cmd_queue))
        (ofi_cirque_head (ofi_cirque_discard ep.region.cmd_queue)).rma_count []).1 ≠ 0 →
      smr_progress_cmd_atomic ep cmd =
        ({ ep with region := { ep.region with
            cmd_queue := ofi_cirque_drop ep.region.cmd_queue 2,
            cmd_cnt := ep.region.cmd_cnt + 2 } },
          (smr_atomic_verify_loop ep.env cmd
            (ofi_cirque_head (ofi_cirque_discard ep.region.cmd_queue))
            (ofi_cirque_head (ofi_cirque_discard ep.region.cmd_queue)).rma_count []).1) ∧
      smr_progress_cmd ep = some (smr_progress_cmd_atomic ep cmd)) := by
  have hhead := ofi_cirque_head_cons _ cmd rest hq
  constructor
  · intro hop hguard hrej
    have h1 : smr_progress_cmd_rma ep cmd =
        ({ ep with region := { ep.region with
            cmd_queue := ofi_cirque_drop ep.region.cmd_queue 2,
            cmd_cnt := ep.region.cmd_cnt + 2 } },
          (smr_rma_verify_loop ep.env cmd.op
            (ofi_cirque_head (ofi_cirque_discard ep.region.cmd_queue))
            (ofi_cirque_head (ofi_cirque_discard ep.region.cmd_queue)).rma_count []).1) := by
      unfold smr_progress_cmd_rma
      rw [if_neg hguard]
      dsimp only
      simp only [cmd_cnt_inc_env, cmd_queue_discard_env, cmd_cnt_inc_cmd_queue,
        cmd_queue_discard_cmd_queue]
      rw [if_pos hrej]
      simp [cmd_cnt_inc, cmd_queue_discard, ofi_cirque_discard_twice]
    refine ⟨h1, ?_⟩
    apply cmd_loop_stop ep cmd rest _ hq
    · unfold smr_progress_cmd_body
      rw [hhead]
      rcases hop with h | h <;> simp only [h]
    · rw [h1]; exact hrej
  · intro hop hrej
    have h1 : smr_progress_cmd_atomic ep cmd =
        ({ ep with region := { ep.region with
            cmd_queue := ofi_cirque_drop ep.region.cmd_queue 2,
            cmd_cnt := ep.region.cmd_cnt + 2 } },
          (smr_atomic_verify_loop ep.env cmd
            (ofi_cirque_head (ofi_cirque_discard ep.region.cmd_queue))
            (ofi_cirque_head (ofi_cirque_discard ep.region.cmd_queue)).rma_count []).1) := by
      unfold smr_progress_cmd_atomic
      dsimp only
      simp only [cmd_cnt_inc_env, cmd_queue_discard_env, cmd_cnt_inc_cmd_queue,
        cmd_queue_discard_cmd_queue]
      rw [if_pos hrej]
      simp [cmd_cnt_inc, cmd_queue_discard, ofi_cirque_discard_twice]
    refine ⟨h1, ?_⟩
    apply cmd_loop_stop ep cmd rest _ hq
    · unfold smr_progress_cmd_body
      rw [hhead]
      rcases hop with h | h | h <;> simp only [h]
    · rw [h1]; exact hrej

/-- C18 at an RMA write and at an atomic whose target range the verifier
rejects with -13. -/
theorem C18_rejected_target_double_credit_witness :
    (smr_progress_cmd ep_rma_rejected =
      some (smr_progress_cmd_rma ep_rma_rejected
        ({ mk_cmd ofi_op_write smr_src_inject 8 0 [] with src_data := 3 }))) ∧
    (smr_progress_cmd ep_atomic_rejected =
      some (smr_progress_cmd_atomic ep_atomic_rejected
        (mk_cmd ofi_op_atomic smr_src_inline 16 0 []))) :=
  ⟨((C18_rejected_target_double_credit ep_rma_rejected
      ({ mk_cmd ofi_op_write smr_src_inject 8 0 [] with src_data := 3 }) [rma_desc] rfl).1
      (Or.inl rfl) (by decide) (by decide)).2,
   ((C18_rejected_target_double_credit ep_atomic_rejected
      (mk_cmd ofi_op_atomic smr_src_inline 16 0 []) [rma_desc] rfl).2
      (Or.inl rfl) (by decide)).2⟩

/-! ## Failed try-lock on the peer region (C16) -/

/-- C16: if another process holds the lock of the peer region of the pending
send at the head of the response queue, `smr_progress_resp_entry` returns
`-FI_EAGAIN` with the endpoint and the status unchanged, and
`smr_progress_resp` returns with the endpoint exactly as it was: nothing
pushed, unlinked, credited, posted, freed or discarded, the response still at
the head. -/
theorem C16_trylock_failure_defers (ep : smr_ep) (resp : smr_resp) (rest : List smr_resp)
    (hq : ep.region.resp_queue.items = resp :: rest)
    (hlock : (ep.peers (ep.pend_entries resp.msg_id).addr).lock_held = true) :
    (∀ ret, smr_progress_resp_entry ep (ep.pend_entries resp.msg_id) ret =
      (ep, ret, -FI_EAGAIN)) ∧
    smr_progress_resp ep = some ep := by
  have h1 : ∀ ret, smr_progress_resp_entry ep (ep.pend_entries resp.msg_id) ret =
      (ep, ret, -FI_EAGAIN) := by
    intro ret
    unfold smr_progress_resp_entry
    simp [hlock]
  refine ⟨h1, ?_⟩
  have hhead := ofi_cirque_head_cons _ resp rest hq
  have hbody : smr_progress_resp_body ep = (ep, false) := by
    unfold smr_progress_resp_body
    rw [hhead]
    dsimp only
    by_cases hb : resp.status = FI_EBUSY
    · rw [if_pos hb]
    · have hne : (-FI_EAGAIN : Int) ≠ 0 := by decide
      rw [if_neg hb, h1]
      simp only [hne, ne_eq, not_false_eq_true, if_true,
        resp_head_set_status_same ep resp rest hq]
  rw [resp_loop_stop ep ep resp rest hq hbody]
  simp

/-- C16 at a response whose pending send targets peer 1, locked by another
process. -/
theorem C16_trylock_failure_defers_witness :
    (∀ ret, smr_progress_resp_entry ep_peer_locked (ep_peer_locked.pend_entries 0) ret =
      (ep_peer_locked, ret, -FI_EAGAIN)) ∧
    smr_progress_resp ep_peer_locked = some ep_peer_locked :=
  C16_trylock_failure_defers ep_peer_locked { msg_id := 0, status := 0 } [] rfl rfl

/-! ## Atomic length accounting (C10, C20) -/

/-- C10: with element size `e = ofi_datatype_size(datatype)`, if the byte
total of the target descriptors (sum of `count * e`) is below the declared
size, both `smr_progress_inline_atomic` and `smr_progress_inject_atomic`
return `-FI_EIO`; if it equals the declared size, both report a length equal
to the declared size and return 0. -/
theorem C10_atomic_length_accounting (ep : smr_ep) (cmd : smr_cmd) (ioc : List fi_ioc)
    (ioc_count len0 : Nat) :
    (smr_ioc_bytes (ep.env.ofi_datatype_size cmd.datatype) (ioc.take ioc_count) < cmd.size →
      (smr_progress_inline_atomic ep cmd ioc ioc_count).2.2 = - FI_EIO ∧
      (smr_progress_inject_atomic ep cmd ioc ioc_count len0 0).2.2 = - FI_EIO) ∧
    (smr_ioc_bytes (ep.env.ofi_datatype_size cmd.datatype) (ioc.take ioc_count) = cmd.size →
      (smr_progress_inline_atomic ep cmd ioc ioc_count).2 = (cmd.size, 0) ∧
      (smr_progress_inject_atomic ep cmd ioc ioc_count len0 0).2 = (cmd.size, 0)) := by
  constructor
  · intro h
    have hs : ∀ src_inj, (smr_atomic_loop ep.env cmd src_inj (ioc.take ioc_count) 0
        ep.atomic_log).2 ≠ cmd.size := by
      intro src_inj
      rw [atomic_loop_short ep.env cmd src_inj _ 0 _ (by omega)]
      omega
    constructor
    · unfold smr_progress_inline_atomic
      simp only [if_pos (hs none)]
    · unfold smr_progress_inject_atomic
      simp only [ne_eq, not_true_eq_false, if_false, if_pos (hs (some cmd.src_data))]
      split_ifs <;> rfl
  · intro h
    have hs : ∀ src_inj, (smr_atomic_loop ep.env cmd src_inj (ioc.take ioc_count) 0
        ep.atomic_log).2 = cmd.size := by
      intro src_inj
      exact atomic_loop_exact ep.env cmd src_inj _ 0 _ (by omega)
    constructor
    · unfold smr_progress_inline_atomic
      simp only [hs none, ne_eq, not_true_eq_false, if_false]
    · unfold smr_progress_inject_atomic
      simp only [hs (some cmd.src_data), ne_eq, not_true_eq_false, if_false]
      split_ifs <;> rfl

/-- C10 at one descriptor of count 4 on a 4-byte datatype and declared size
16: the reported length is 16 and both handlers return 0. -/
theorem C10_atomic_length_accounting_witness :
    (smr_progress_inline_atomic ep_idle cmd_atomic16 [{ addr := 4096, count := 4 }] 1).2 =
      (cmd_atomic16.size, 0) ∧
    (smr_progress_inject_atomic ep_idle cmd_atomic16 [{ addr := 4096, count := 4 }] 1 0 0).2 =
      (cmd_atomic16.size, 0) :=
  (C10_atomic_length_accounting ep_idle cmd_atomic16 [{ addr := 4096, count := 4 }] 1 0).2
    (by decide)

/-- C20: the element count of a descriptor is never clipped. When the running
byte total is below the declared size before descriptor `c` and strictly above
it after, both atomic handlers have called `smr_do_atomic` for every
descriptor up to and including `c`, the last call with the full `c.count`
at operand offset equal to the total before `c`, and return `-FI_EIO`; when
the declared size is 0 no call is made and both return 0. -/
theorem C20_atomic_count_not_clipped (ep : smr_ep) (cmd : smr_cmd) (pre post : List fi_ioc)
    (c : fi_ioc) (len0 : Nat) :
    (smr_ioc_bytes (ep.env.ofi_datatype_size cmd.datatype) pre < cmd.size →
      cmd.size < smr_ioc_bytes (ep.env.ofi_datatype_size cmd.datatype) pre +
        c.count * ep.env.ofi_datatype_size cmd.datatype →
      (∃ l, l.length = pre.length ∧
        (smr_progress_inline_atomic ep cmd (pre ++ c :: post) (pre ++ c :: post).length).1.atomic_log =
          ep.atomic_log ++ l ++ [atomic_call_at cmd none
            (smr_ioc_bytes (ep.env.ofi_datatype_size cmd.datatype) pre) c]) ∧
      (smr_progress_inline_atomic ep cmd (pre ++ c :: post) (pre ++ c :: post).length).2.2 =
        - FI_EIO ∧
      (∃ l, l.length = pre.length ∧
        (smr_progress_inject_atomic ep cmd (pre ++ c :: post) (pre ++ c :: post).length
          len0 0).1.atomic_log =
          ep.atomic_log ++ l ++ [atomic_call_at cmd (some cmd.src_data)
            (smr_ioc_bytes (ep.env.ofi_datatype_size cmd.datatype) pre) c]) ∧
      (smr_progress_inject_atomic ep cmd (pre ++ c :: post) (pre ++ c :: post).length
        len0 0).2.2 = - FI_EIO) ∧
    (cmd.size = 0 →
      (smr_progress_inline_atomic ep cmd (pre ++ c :: post) (pre ++ c :: post).length).1.atomic_log =
        ep.atomic_log ∧
      (smr_progress_inline_atomic ep cmd (pre ++ c :: post) (pre ++ c :: post).length).2.2 = 0 ∧
      (smr_progress_inject_atomic ep cmd (pre ++ c :: post) (pre ++ c :: post).length
        len0 0).1.atomic_log = ep.atomic_log ∧
      (smr_progress_inject_atomic ep cmd (pre ++ c :: post) (pre ++ c :: post).length
        len0 0).2.2 = 0) := by
  constructor
  · intro hlo hhi
    obtain ⟨l1, hl1, h1⟩ := atomic_loop_overshoot ep.env cmd none pre post c ep.atomic_log hlo hhi
    obtain ⟨l2, hl2, h2⟩ := atomic_loop_overshoot ep.env cmd (some cmd.src_data) pre post c
      ep.atomic_log hlo hhi
    have hne : smr_ioc_bytes (ep.env.ofi_datatype_size cmd.datatype) pre +
        c.count * ep.env.ofi_datatype_size cmd.datatype ≠ cmd.size := by omega
    refine ⟨⟨l1, hl1, ?_⟩, ?_, ⟨l2, hl2, ?_⟩, ?_⟩
    · unfold smr_progress_inline_atomic
      simp only [List.take_length, h1, if_pos hne]
    · unfold smr_progress_inline_atomic
      simp only [List.take_length, h1, if_pos hne]
    · unfold smr_progress_inject_atomic
      simp only [List.take_length, h2, if_pos hne, ne_eq, not_true_eq_false, if_false]
      split_ifs <;> rfl
    · unfold smr_progress_inject_atomic
      simp only [List.take_length, h2, if_pos hne, ne_eq, not_true_eq_false, if_false]
      split_ifs <;> rfl
  · intro h0
    have hd : ∀ src_inj, smr_atomic_loop ep.env cmd src_inj (pre ++ c :: post) 0 ep.atomic_log =
        (ep.atomic_log, 0) := fun src_inj =>
      atomic_loop_done ep.env cmd src_inj _ 0 _ (by omega)
    have hz : ¬ (0 ≠ cmd.size) := by omega
    refine ⟨?_, ?_, ?_, ?_⟩
    · unfold smr_progress_inline_atomic
      simp only [List.take_length, hd, if_neg hz]
    · unfold smr_progress_inline_atomic
      simp only [List.take_length, hd, if_neg hz]
    · unfold smr_progress_inject_atomic
      simp only [List.take_length, hd, if_neg hz, ne_eq, not_true_eq_false, if_false]
      split_ifs <;> rfl
    · unfold smr_progress_inject_atomic
      simp only [List.take_length, hd, if_neg hz, ne_eq, not_true_eq_false, if_false]
      split_ifs <;> rfl

/-- C20 at declared size 16 on a 4-byte datatype with descriptors of counts 3
and 2: the second call covers both elements of the second descriptor, from
operand offset 12 to 20, and the handler returns `-FI_EIO`; and at declared
size 0. -/
theorem C20_atomic_count_not_clipped_witness :
    ((smr_progress_inline_atomic ep_idle cmd_atomic16
        [{ addr := 4096, count := 3 }, { addr := 8192, count := 2 }] 2).2.2 = - FI_EIO) ∧
    ((smr_progress_inline_atomic ep_idle { cmd_atomic16 with size := 0 }
        [{ addr := 4096, count := 3 }] 1).2.2 = 0) :=
  ⟨((C20_atomic_count_not_clipped ep_idle cmd_atomic16 [{ addr := 4096, count := 3 }] []
      { addr := 8192, count := 2 } 0).1 (by decide) (by decide)).2.1,
   ((C20_atomic_count_not_clipped ep_idle { cmd_atomic16 with size := 0 } []
      [] { addr := 4096, count := 3 } 0).2 rfl).2.1⟩

/-! ## Short direct copy (C9) -/

/-- C14, evaluated at an inline message matched by a posted receive, with an
async notice queued behind it and a completion writer that faults: no
completion is posted, yet the loop ends with `ret = 0` and both slots
discarded: the notice behind the message was processed in the same call. -/
theorem C14_msg_completion_fault_ignored :
    (smr_complete_rx ep_rx_fault default).2 ≠ 0 ∧
    (smr_progress_cmd ep_rx_fault).map
      (fun r => (r.2, r.1.region.cmd_queue.rcnt, r.1.rx_cq.items.length, r.1.rx_cntr)) =
      some (0, 2, 0, 1) := by
  decide

/-- C15, evaluated at a response of status 0 for a read-request of eight
bytes whose local buffers take four: the send completion carries error 5
(`FI_EIO`) when the data came from a mapped file and -5 (`-FI_EIO`) when it
came from an inject buffer. -/
theorem C15_mismatch_error_sign_differs :
    (smr_progress_resp (ep_resp_short smr_src_mmap)).map
      (fun e => e.tx_cq.items.map (fun c => c.err)) = some [5] ∧
    (smr_progress_resp (ep_resp_short smr_src_inject)).map
      (fun e => e.tx_cq.items.map (fun c => c.err)) = some [-5] := by
  decide

/-- C13, evaluated at a message with transfer-method tag 9 that a posted
receive matches, with an async notice queued behind it: the loop ends with
`ret = 0` after discarding both slots, so the notice behind the command was
processed; the completion of the message carries -22 (`-FI_EINVAL`) and the
only credit given is the notice's (the slot of the message is discarded
without its credit). -/
theorem C13_bad_transfer_method_not_stopping :
    (smr_progress_cmd ep_bad_src).map
      (fun r => (r.2, r.1.region.cmd_queue.rcnt, r.1.region.cmd_cnt, r.1.rx_cntr,
        r.1.rx_cq.items.map (fun c => c.err))) =
      some (0, 2, 1, 1, [-22]) := by
  decide

/-! ## Handler selection in `smr_do_atomic` (C11) -/

/-- C11: `smr_do_atomic` uses exactly one handler table per (operator, flags):
the compare/swap table, with the comparand, for an operator at or above
`OFI_SWAP_OP_START`; otherwise the read-write table when `SMR_RMA_REQ` is set;
otherwise the write table when the operator is not `FI_ATOMIC_READ`; and none
for `FI_ATOMIC_READ` without the flag, leaving target and source alone. The
source is left alone unless `SMR_RMA_REQ` is set, and then its first
`cnt * ofi_datatype_size` bytes are overwritten: by the target bytes for
`FI_ATOMIC_READ`, by `tmp_result` otherwise, which are the old target bytes
whenever the handler used stores the old target through `res` and the
read-write handler of `FI_ATOMIC_READ` leaves the target alone. -/
theorem C11_do_atomic_family (H : ofi_atomic_handlers) (dsize : Nat → Nat) (tmp0 : List Nat)
    (src dst : List Nat) (cmp : Option (List Nat)) (datatype op cnt flags : Nat) :
    (OFI_SWAP_OP_START ≤ op →
      (smr_do_atomic H dsize tmp0 src dst cmp datatype op cnt flags).family =
        atomic_family.family_swap ∧
      (smr_do_atomic H dsize tmp0 src dst cmp datatype op cnt flags).dst =
        (H.swap_handler (op - OFI_SWAP_OP_START) datatype dst src cmp cnt).1) ∧
    (op < OFI_SWAP_OP_START → flags &&& SMR_RMA_REQ ≠ 0 →
      (smr_do_atomic H dsize tmp0 src dst cmp datatype op cnt flags).family =
        atomic_family.family_readwrite ∧
      (smr_do_atomic H dsize tmp0 src dst cmp datatype op cnt flags).dst =
        (H.readwrite_handler op datatype dst src cnt).1) ∧
    (op < OFI_SWAP_OP_START → flags &&& SMR_RMA_REQ = 0 → op ≠ FI_ATOMIC_READ →
      (smr_do_atomic H dsize tmp0 src dst cmp datatype op cnt flags).family =
        atomic_family.family_write ∧
      (smr_do_atomic H dsize tmp0 src dst cmp datatype op cnt flags).dst =
        H.write_handler op datatype dst src cnt) ∧
    (op = FI_ATOMIC_READ → flags &&& SMR_RMA_REQ = 0 →
      (smr_do_atomic H dsize tmp0 src dst cmp datatype op cnt flags).family =
        atomic_family.family_none ∧
      (smr_do_atomic H dsize tmp0 src dst cmp datatype op cnt flags).dst = dst ∧
      (smr_do_atomic H dsize tmp0 src dst cmp datatype op cnt flags).src = src) ∧
    (flags &&& SMR_RMA_REQ = 0 →
      (smr_do_atomic H dsize tmp0 src dst cmp datatype op cnt flags).src = src) ∧
    (flags &&& SMR_RMA_REQ ≠ 0 →
      (smr_do_atomic H dsize tmp0 src dst cmp datatype op cnt flags).src =
        memcpy src
          (if op = FI_ATOMIC_READ then
            (smr_do_atomic H dsize tmp0 src dst cmp datatype op cnt flags).dst
           else (smr_do_atomic H dsize tmp0 src dst cmp datatype op cnt flags).tmp_result)
          (cnt * dsize datatype)) ∧
    (flags &&& SMR_RMA_REQ ≠ 0 →
      (H.swap_handler (op - OFI_SWAP_OP_START) datatype dst src cmp cnt).2 = dst →
      (H.readwrite_handler op datatype dst src cnt).2 = dst →
      (H.readwrite_handler FI_ATOMIC_READ datatype dst src cnt).1 = dst →
      (smr_do_atomic H dsize tmp0 src dst cmp datatype op cnt flags).src =
        memcpy src dst (cnt * dsize datatype)) := by
  have hlt : FI_ATOMIC_READ < OFI_SWAP_OP_START := by decide
  refine ⟨?_, ?_, ?_, ?_, ?_, ?_, ?_⟩
  · intro h
    unfold smr_do_atomic
    simp only [if_pos h]
    split_ifs <;> exact ⟨rfl, rfl⟩
  · intro h hf
    unfold smr_do_atomic
    simp [if_neg (not_le.mpr h), if_pos hf]
  · intro h hf hr
    unfold smr_do_atomic
    simp [if_neg (not_le.mpr h), if_neg (not_not.mpr hf), if_pos hr]
  · intro hr hf
    have h : ¬ OFI_SWAP_OP_START ≤ op := by rw [hr]; exact not_le.mpr hlt
    unfold smr_do_atomic
    simp [if_neg h, if_neg (not_not.mpr hf), if_neg (not_not.mpr hr)]
  · intro hf
    unfold smr_do_atomic
    simp only [if_neg (not_not.mpr hf)]
    split_ifs <;> rfl
  · intro hf
    unfold smr_do_atomic
    simp only [if_pos hf]
  · intro hf hs hrw hrd
    unfold smr_do_atomic
    simp only [if_pos hf]
    by_cases h : OFI_SWAP_OP_START ≤ op
    · have hne : op ≠ FI_ATOMIC_READ := by
        intro he; rw [he] at h; exact absurd h (not_le.mpr hlt)
      simp only [if_pos h, if_neg hne, hs]
    · by_cases hr : op = FI_ATOMIC_READ
      · subst hr
        simp only [if_neg h, if_true, hrd]
      · simp only [if_neg h, if_neg hr, hrw]

/-- C11 at a fetching sum (operator 2) of one byte-sized element: the source
byte is overwritten with the old target byte 7, the target becomes 7 + 5. -/
theorem C11_do_atomic_family_witness :
    (smr_do_atomic byte_handlers (fun _ => 1) [] [5] [7] none 0 2 1 SMR_RMA_REQ).family =
      atomic_family.family_readwrite ∧
    (smr_do_atomic byte_handlers (fun _ => 1) [] [5] [7] none 0 2 1 SMR_RMA_REQ).src =
      memcpy [5] [7] (1 * 1) ∧
    (smr_do_atomic byte_handlers (fun _ => 1) [] [5] [7] none 0 2 1 SMR_RMA_REQ).dst = [12] :=
  ⟨((C11_do_atomic_family byte_handlers (fun _ => 1) [] [5] [7] none 0 2 1
      SMR_RMA_REQ).2.1 (by decide) (by decide)).1,
   (C11_do_atomic_family byte_handlers (fun _ => 1) [] [5] [7] none 0 2 1
      SMR_RMA_REQ).2.2.2.2.2.2 (by decide) rfl rfl rfl,
   by decide⟩

/-! ## Draining the unexpected queue (C8, C19) -/

/-- C8: `smr_progress_unexp_queue` returns, having consumed the first `k`
unexpected messages that match the receive entry, in arrival order: they are
unlinked from the queue, whose other entries stay in place (so the
non-matching ones keep their order), and pushed to `unexp_fs` one after the
other. Nothing is consumed exactly when nothing matches; an entry without
`SMR_MULTI_RECV` consumes at most one; a multi-receive entry consumes every
match unless it gets retired (pushed to `recv_fs`) first. The other unexpected
queue is untouched. The endpoint returned is the one `k` delivery rounds
leave: no round before the last retired the entry (each returned 0), and when
a multi-receive entry leaves a match behind, the last round did (it returned
1); a round returns 1 exactly when it hands the entry back to `recv_fs`. -/
theorem C8_unexp_queue_drained_in_order (ep : smr_ep) (h : Nat) (tagged : Bool) :
    ∃ r k, smr_progress_unexp_queue ep h tagged = some r ∧
      (unexp_queue_get r.1 tagged).list =
        drop_matching (unexp_matches ep tagged (rx_match_attr (ep.rx_entries h))) k
          (unexp_queue_get ep tagged).list ∧
      (unexp_queue_get r.1 tagged).list.filter
          (fun u => !unexp_matches ep tagged (rx_match_attr (ep.rx_entries h)) u) =
        (unexp_queue_get ep tagged).list.filter
          (fun u => !unexp_matches ep tagged (rx_match_attr (ep.rx_entries h)) u) ∧
      (unexp_queue_get r.1 tagged).list.filter
          (unexp_matches ep tagged (rx_match_attr (ep.rx_entries h))) =
        ((unexp_queue_get ep tagged).list.filter
          (unexp_matches ep tagged (rx_match_attr (ep.rx_entries h)))).drop k ∧
      r.1.unexp_fs =
        (((unexp_queue_get ep tagged).list.filter
          (unexp_matches ep tagged (rx_match_attr (ep.rx_entries h)))).take k).reverse ++
          ep.unexp_fs ∧
      k ≤ ((unexp_queue_get ep tagged).list.filter
        (unexp_matches ep tagged (rx_match_attr (ep.rx_entries h)))).length ∧
      (k = 0 ↔ (unexp_queue_get ep tagged).list.filter
        (unexp_matches ep tagged (rx_match_attr (ep.rx_entries h))) = []) ∧
      ((ep.rx_entries h).flags &&& SMR_MULTI_RECV = 0 → k ≤ 1) ∧
      ((ep.rx_entries h).flags &&& SMR_MULTI_RECV ≠ 0 →
        k = ((unexp_queue_get ep tagged).list.filter
          (unexp_matches ep tagged (rx_match_attr (ep.rx_entries h)))).length ∨
        r.1.recv_fs = h :: ep.recv_fs) ∧
      unexp_queue_get r.1 (!tagged) = unexp_queue_get ep (!tagged) ∧
      r.1 = unexp_rounds h tagged (rx_match_attr (ep.rx_entries h)) k ep ∧
      (∀ i, i + 1 < k →
        (unexp_round h tagged (rx_match_attr (ep.rx_entries h))
          (unexp_rounds h tagged (rx_match_attr (ep.rx_entries h)) i ep)).2 = 0) ∧
      ((ep.rx_entries h).flags &&& SMR_MULTI_RECV ≠ 0 →
        k < ((unexp_queue_get ep tagged).list.filter
          (unexp_matches ep tagged (rx_match_attr (ep.rx_entries h)))).length →
        (unexp_round h tagged (rx_match_attr (ep.rx_entries h))
          (unexp_rounds h tagged (rx_match_attr (ep.rx_entries h)) (k - 1) ep)).2 = 1) ∧
      (∀ i,
        (unexp_round h tagged (rx_match_attr (ep.rx_entries h))
            (unexp_rounds h tagged (rx_match_attr (ep.rx_entries h)) i ep)).2 = 1 ∧
          (unexp_rounds h tagged (rx_match_attr (ep.rx_entries h)) (i + 1) ep).recv_fs =
            h :: (unexp_rounds h tagged (rx_match_attr (ep.rx_entries h)) i ep).recv_fs ∨
        (unexp_round h tagged (rx_match_attr (ep.rx_entries h))
            (unexp_rounds h tagged (rx_match_attr (ep.rx_entries h)) i ep)).2 = 0 ∧
          (unexp_rounds h tagged (rx_match_attr (ep.rx_entries h)) (i + 1) ep).recv_fs =
            (unexp_rounds h tagged (rx_match_attr (ep.rx_entries h)) i ep).recv_fs) := by
  obtain ⟨r, k, hr, _, hq, ho, hre, hfs, hk, hk0, hs, hm⟩ := unexp_queue_spec ep h tagged
  obtain ⟨r1, k1, hr1, hrounds, hlen, hzero, hlast⟩ := unexp_queue_rounds ep h tagged
  have hrr : r1 = r := Option.some.inj (hr1.symm.trans hr)
  subst hrr
  have hkk : k1 = k := by
    have hl := congrArg List.length hfs
    rw [List.length_append, List.length_reverse, List.length_take, hlen] at hl
    omega
  subst hkk
  have hdrop : (unexp_queue_get r1.1 tagged).list.filter
      (unexp_matches ep tagged (rx_match_attr (ep.rx_entries h))) =
      ((unexp_queue_get ep tagged).list.filter
        (unexp_matches ep tagged (rx_match_attr (ep.rx_entries h)))).drop k1 := by
    rw [hq]; exact drop_matching_filter _ _ _
  refine ⟨r1, k1, hr, ?_, ?_, hdrop, hfs, hk, hk0, hs, hm, ho, hrounds, hzero, ?_, ?_⟩
  · rw [hq]
  · rw [hq]; exact drop_matching_filter_not _ _ _
  · intro hmr hlt
    rcases unexp_round_retire h tagged (rx_match_attr (ep.rx_entries h))
      (unexp_rounds h tagged (rx_match_attr (ep.rx_entries h)) (k1 - 1) ep) with ⟨h1, _⟩ | ⟨h0, _⟩
    · exact h1
    · exfalso
      have hpos : 0 < k1 := by
        rcases Nat.eq_zero_or_pos k1 with hz | hz
        · have hnil := hk0.mp hz
          rw [hnil] at hlt
          exact absurd hlt (by simp)
        · exact hz
      have hnone := hlast hmr hpos h0
      have hnil := unexp_remove_none_filter r1.1 tagged (rx_match_attr (ep.rx_entries h)) hnone
      have hsame : unexp_matches r1.1 tagged (rx_match_attr (ep.rx_entries h)) =
          unexp_matches ep tagged (rx_match_attr (ep.rx_entries h)) := by
        funext x
        unfold unexp_matches
        rw [hq, hre]
      rw [hsame, hdrop] at hnil
      have hl := congrArg List.length hnil
      rw [List.length_drop, List.length_nil] at hl
      omega
  · intro i
    rw [unexp_rounds_succ]
    exact unexp_round_retire h tagged (rx_match_attr (ep.rx_entries h))
      (unexp_rounds h tagged (rx_match_attr (ep.rx_entries h)) i ep)

/-- C19: `smr_progress_msg_common` returns 1 and pushes the entry to
`recv_fs`, or returns 0 and leaves `recv_fs` alone, never a negative value;
`smr_progress_unexp_queue` returns 0 on every input; and
`smr_progress_cmd_msg` returns 0 whenever it got to a posted receive that
matches, whatever the handler and the completion call reported. -/
theorem C19_msg_common_returns_zero_or_one (ep : smr_ep) (cmd : smr_cmd) (h : Nat)
    (tagged : Bool) :
    ((smr_progress_msg_common ep cmd h).2 = 1 ∧
        (smr_progress_msg_common ep cmd h).1.recv_fs = h :: ep.recv_fs ∨
      (smr_progress_msg_common ep cmd h).2 = 0 ∧
        (smr_progress_msg_common ep cmd h).1.recv_fs = ep.recv_fs) ∧
    (∃ r, smr_progress_unexp_queue ep h tagged = some r ∧ r.2 = 0) ∧
    (ofi_cirque_isfull ep.rx_cq = false →
      dlist_find_first_match (if cmd.op = ofi_op_tagged then ep.trecv_queue else ep.recv_queue)
        ep.rx_entries { addr := cmd.addr, tag := cmd.tag, ignore := 0 } = some h →
      (smr_progress_cmd_msg ep cmd).2 = 0) := by
  refine ⟨(msg_common_frame ep cmd h).2, ?_, ?_⟩
  · obtain ⟨r, _, hr, h0, _⟩ := unexp_queue_spec ep h tagged
    exact ⟨r, hr, h0⟩
  · intro hfull hfind
    rw [cmd_msg_match ep cmd h hfull hfind]

/-- C19 at a matched inline message whose completion call fails:
`smr_progress_cmd_msg` returns 0. -/
theorem C19_msg_common_returns_zero_or_one_witness :
    (smr_progress_cmd_msg ep_rx_fault (mk_cmd ofi_op_msg smr_src_inline 4 0 [1, 2, 3, 4])).2 = 0 :=
  (C19_msg_common_returns_zero_or_one ep_rx_fault
    (mk_cmd ofi_op_msg smr_src_inline 4 0 [1, 2, 3, 4]) 0 false).2.2 (by decide) (by decide)

/-! ## Late match of an unexpected inline send (C7) -/

/-- C6, as stated, fails: with one response of status 0 for a pending
read-request from an inject buffer whose local buffers are too short, and a
completion writer that fails, `smr_progress_resp` returns with no completion
posted and nothing discarded, yet the slot at the head now holds status
`FI_EIO`: the queue after the call is not a suffix of the queue before it.
The peer has been credited and the inject buffer returned all the same. -/
theorem C6_counterexample :
    (smr_progress_resp ep_resp_tx_fault).map
      (fun e => (e.region.resp_queue.items, e.region.resp_queue.rcnt, e.tx_cq.items, e.pend_fs,
        (e.peers 1).cmd_cnt, (e.peers 1).inject_pool)) =
      some ([{ msg_id := 0, status := FI_EIO }], ep_resp_tx_fault.region.resp_queue.rcnt, [],
        ep_resp_tx_fault.pend_fs, (ep_resp_tx_fault.peers 1).cmd_cnt + 1,
        0 :: (ep_resp_tx_fault.peers 1).inject_pool) ∧
    ep_resp_tx_fault.region.resp_queue.items = [{ msg_id := 0, status := 0 }] ∧
    ¬ List.IsSuffix [({ msg_id := 0, status := FI_EIO } : smr_resp)]
      ep_resp_tx_fault.region.resp_queue.items := by
  refine ⟨rfl, rfl, ?_⟩
  intro h
  have h2 := List.IsSuffix.eq_of_length h rfl
  exact absurd h2 (by decide)

/-- C6, amended: `smr_progress_resp` always returns, and splits the response
queue before the call into a consumed prefix `pre` and a remainder `post`.
No response of `pre` has status `FI_EBUSY`; the responses discarded are
exactly those of `pre`; the completions posted correspond one to one, in
order, to `pre` (context, operation and flags of the pending send each names),
and the pending entries freed are those of `pre`. The queue after the call
holds the slots of `post`: the same message ids and the same responses
behind the head; it equals `post` when the head of `post` is unpublished
(`FI_EBUSY`) and whenever the completion writer does not fail. Otherwise the
status in the head slot may have been rewritten. -/
theorem C6_resp_consumed_in_order (ep : smr_ep) :
    ∃ ep' pre post, smr_progress_resp ep = some ep' ∧
      ep.region.resp_queue.items = pre ++ post ∧
      (∀ r ∈ pre, r.status ≠ FI_EBUSY) ∧
      ep'.region.resp_queue.rcnt = ep.region.resp_queue.rcnt + pre.length ∧
      ep'.tx_cq.items.map resp_key = ep.tx_cq.items.map resp_key ++ pre.map (pend_key ep) ∧
      ep'.pend_fs = (pre.map (fun r => r.msg_id)).reverse ++ ep.pend_fs ∧
      ep'.region.resp_queue.items.map (fun r => r.msg_id) = post.map (fun r => r.msg_id) ∧
      ep'.region.resp_queue.items.tail = post.tail ∧
      (∀ r rest, post = r :: rest → r.status = FI_EBUSY → ep'.region.resp_queue.items = post) ∧
      ((∀ c, ep.env.tx_comp_fault c = 0) → ep'.region.resp_queue.items = post) := by
  obtain ⟨ep', pre, post, hloop, hrun⟩ :=
    resp_loop_spec (ep.region.resp_queue.items.length + 1) ep (Nat.lt_succ_self _)
  exact ⟨ep', pre, post, hloop, hrun.split, hrun.ready, hrun.discards, hrun.comps, hrun.freed,
    hrun.ids, hrun.tail, hrun.busy, hrun.clean⟩

/-! ## Termination and head-only consumption (C21) -/

/-- C21, as stated, fails in its last clause: with a well-formed command
queue, one response of status 0 for a pending read-request from a mapped file
whose local buffers are too short, and a completion writer that fails,
`smr_progress_resp` discards nothing and leaves `-FI_EIO` in the head slot:
the response queue after the call is not a suffix of the queue before it. -/
theorem C21_counterexample :
    cmd_queue_paired ep_resp_mmap_tx_fault.region.cmd_queue.items = true ∧
    ep_resp_mmap_tx_fault.region.resp_queue.items = [{ msg_id := 0, status := 0 }] ∧
    (smr_progress_resp ep_resp_mmap_tx_fault).map
      (fun e => (e.region.resp_queue.items, e.region.resp_queue.rcnt, e.tx_cq.items)) =
      some ([{ msg_id := 0, status := - FI_EIO }], 0, []) ∧
    ¬ List.IsSuffix [({ msg_id := 0, status := - FI_EIO } : smr_resp)]
      ep_resp_mmap_tx_fault.region.resp_queue.items := by
  refine ⟨rfl, rfl, rfl, ?_⟩
  intro h
  have h2 := List.IsSuffix.eq_of_length h rfl
  exact absurd h2 (by decide)

/-- C21, amended: if every RMA or atomic command of the command queue has its
descriptor slot behind it, then (1) `smr_progress_cmd` returns, after at most
as many iterations as the queue had slots, and its queue is the earlier one
with `k` slots discarded from the head, `k` at most the length; (2) one
iteration either ends the loop (`ret` non-zero) or discards exactly
`cmd_slots` slots of the head command (one for messages and async notices, two
for RMA and atomics), never more than are queued, and leaves a well-formed
queue; (3) `smr_progress_resp` returns, after at most as many iterations as
responses were queued, having discarded `k` responses from the head: the
queue keeps the slots behind them, and equals that suffix whenever the
completion writer does not fail (otherwise the status in the head slot may
have been rewritten); (4) one iteration of the response loop either ends it or
discards exactly one response. -/
theorem C21_loops_consume_from_head (ep : smr_ep)
    (hp : cmd_queue_paired ep.region.cmd_queue.items = true) :
    (∃ r k, smr_progress_cmd ep = some r ∧
      r.1.region.cmd_queue = ofi_cirque_drop ep.region.cmd_queue k ∧
      k ≤ ep.region.cmd_queue.items.length ∧
      smr_progress_cmd_iters (ep.region.cmd_queue.items.length + 1) ep ≤
        ep.region.cmd_queue.items.length) ∧
    (∀ cmd rest, ep.region.cmd_queue.items = cmd :: rest →
      cmd_slots cmd.op ≤ (cmd :: rest).length ∧
      ((smr_progress_cmd_body ep).2 ≠ 0 ∨
        ((smr_progress_cmd_body ep).1.region.cmd_queue =
            ofi_cirque_drop ep.region.cmd_queue (cmd_slots cmd.op) ∧
          cmd_queue_paired (smr_progress_cmd_body ep).1.region.cmd_queue.items = true))) ∧
    (∃ ep' k, smr_progress_resp ep = some ep' ∧
      k ≤ ep.region.resp_queue.items.length ∧
      ep'.region.resp_queue.rcnt = ep.region.resp_queue.rcnt + k ∧
      ep'.region.resp_queue.items.map (fun r => r.msg_id) =
        (ep.region.resp_queue.items.drop k).map (fun r => r.msg_id) ∧
      ep'.region.resp_queue.items.tail = (ep.region.resp_queue.items.drop k).tail ∧
      ((∀ c, ep.env.tx_comp_fault c = 0) →
        ep'.region.resp_queue.items = ep.region.resp_queue.items.drop k) ∧
      smr_progress_resp_iters (ep.region.resp_queue.items.length + 1) ep ≤
        ep.region.resp_queue.items.length) ∧
    (∀ r rest, ep.region.resp_queue.items = r :: rest → ofi_cirque_isfull ep.tx_cq = false →
      (smr_progress_resp_body ep).2 = false ∨
      (smr_progress_resp_body ep).1.region.resp_queue =
        ofi_cirque_discard ep.region.resp_queue) := by
  refine ⟨?_, ?_, ?_, ?_⟩
  · exact cmd_loop_head (ep.region.cmd_queue.items.length + 1) ep hp (Nat.lt_succ_self _)
  · intro cmd rest hq
    rw [hq] at hp
    obtain ⟨hs, hp1⟩ := cmd_queue_paired_head cmd rest hp
    refine ⟨hs, ?_⟩
    obtain ⟨k, _, hkq, hk0⟩ := cmd_body_slots ep cmd rest hq
    by_cases hret : (smr_progress_cmd_body ep).2 = 0
    · right
      have hk1 := hk0 hret
      subst hk1
      refine ⟨hkq, ?_⟩
      rw [hkq]
      show cmd_queue_paired (ep.region.cmd_queue.items.drop (cmd_slots cmd.op)) = true
      rw [hq]
      exact hp1
    · exact Or.inl hret
  · obtain ⟨ep', pre, post, hloop, hrun⟩ :=
      resp_loop_spec (ep.region.resp_queue.items.length + 1) ep (Nat.lt_succ_self _)
    have hdrop : ep.region.resp_queue.items.drop pre.length = post := by
      rw [hrun.split]
      exact List.drop_left pre post
    refine ⟨ep', pre.length, hloop, ?_, hrun.discards, ?_, ?_, ?_, ?_⟩
    · rw [hrun.split, List.length_append]
      omega
    · rw [hdrop]; exact hrun.ids
    · rw [hdrop]; exact hrun.tail
    · intro h
      rw [hdrop]
      exact hrun.clean h
    · exact resp_iters_le _ ep (Nat.lt_succ_self _)
  · intro r rest hq hfull
    cases hgo : (smr_progress_resp_body ep).2 with
    | false => exact Or.inl rfl
    | true => exact Or.inr (resp_body_continue ep r rest hq hfull hgo)

/-- C21 at a command queue of an async notice, an RMA write with its
descriptor and another async notice, and three queued responses. -/
theorem C21_loops_consume_from_head_witness :
    cmd_queue_paired ep_both_queues.region.cmd_queue.items = true ∧
    (∃ r k, smr_progress_cmd ep_both_queues = some r ∧
      r.1.region.cmd_queue = ofi_cirque_drop ep_both_queues.region.cmd_queue k ∧
      k ≤ ep_both_queues.region.cmd_queue.items.length ∧
      smr_progress_cmd_iters (ep_both_queues.region.cmd_queue.items.length + 1)
        ep_both_queues ≤ ep_both_queues.region.cmd_queue.items.length) :=
  ⟨by decide, (C21_loops_consume_from_head ep_both_queues (by decide)).1⟩

/-! ## The `err` argument at the call sites (C22) -/

/-- C22: the `err` argument of `smr_progress_inject`, `smr_progress_iov` and
`smr_progress_inject_atomic` is 0 at every call. Called with 0, each handler
is its specialisation without the error branch; the transfer switch of
`smr_progress_msg_common` (which passes the literal 0), `smr_progress_cmd_rma`
and `smr_progress_cmd_atomic` (which return before the switch when `ret` is
non-zero) equal, on every input, the same functions built from the
specialised handlers. The branches this leaves unreachable are the ones
taken for a non-zero `err`: in `smr_progress_inject` the release of the
inject buffer, in `smr_progress_iov` the store of the error in the response
slot. -/
theorem C22_err_argument_always_zero :
    (∀ ep cmd iov n tl,
      smr_progress_inject ep cmd iov n tl 0 = smr_progress_inject_noerr ep cmd iov n) ∧
    (∀ ep cmd iov n tl,
      smr_progress_iov ep cmd iov n tl 0 = smr_progress_iov_noerr ep cmd iov n tl) ∧
    (∀ ep cmd ioc n tl,
      smr_progress_inject_atomic ep cmd ioc n tl 0 =
        smr_progress_inject_atomic_noerr ep cmd ioc n) ∧
    (∀ ep cmd entry,
      smr_progress_msg_common_switch ep cmd entry =
        smr_progress_msg_common_switch_noerr ep cmd entry) ∧
    (∀ ep cmd, smr_progress_cmd_rma ep cmd = smr_progress_cmd_rma_noerr ep cmd) ∧
    (∀ ep cmd, smr_progress_cmd_atomic ep cmd = smr_progress_cmd_atomic_noerr ep cmd) ∧
    (∀ ep cmd iov n tl err, err ≠ 0 →
      smr_progress_inject ep cmd iov n tl err = (inject_push ep cmd.src_data, tl, err)) ∧
    (∀ ep cmd iov n tl err, err ≠ 0 →
      smr_progress_iov ep cmd iov n tl err =
        (set_resp_status ep cmd.addr cmd.src_data (-err), tl, err)) := by
  refine ⟨inject_err_zero, iov_err_zero, inject_atomic_err_zero, msg_switch_noerr,
    cmd_rma_noerr, cmd_atomic_noerr, ?_, ?_⟩
  · intro ep cmd iov n tl err herr
    unfold smr_progress_inject
    simp only [herr, ne_eq, not_false_eq_true, if_true]
  · intro ep cmd iov n tl err herr
    unfold smr_progress_iov
    simp only [herr, ne_eq, not_false_eq_true, if_true, neg_neg]
